import Mathlib

/-! Jogging calculations of `moveit_jog_arm`.

A shallow embedding of `JogCalcs` (file `moveit_jog_arm/src/jog_calcs.cpp`).

Conventions of the embedding:

* a finite `double` is an exact rational (`ℚ`); rounding is not modelled, except for
  `enforceSRDFAccelVelLimits`, which is also given with every operation rounded
  (`enforceSRDFAccelVelLimits_rounded`, `roundToDouble`).  Where the source
  guards a quotient with `fabs(q) < 1` ("Avoid nan") and where it compares a condition number,
  the IEEE outcome of a zero divisor (an infinity or a NaN) is modelled explicitly; the other
  divisors are `publish_period` and the singular values inverted for the pseudo-inverse, and
  the embedding describes the source for non-zero values of these;
* `Eigen::ArrayXd`, `Eigen::VectorXd` and `std::vector<double>` are `List ℚ`; an entry is read
  with `List.getD _ _ 0` and written with `List.set`;
* the members of `JogCalcs` that a function reads are arguments, the members it writes are
  results.
-/

set_option autoImplicit false

namespace moveit_jog_arm

/-! ## Joint bounds -/

/-- Modelled from the spec: the bounds of the single variable of an active joint
(`moveit::core::VariableBounds`, not among the sources), §6 "`getActiveJoints()→[{name,
accelBounds?, velBounds?, posBounds?}]`", as returned by
`joint->getVariableBounds(joint->getName())`; the fields are those that
`enforceSRDFAccelVelLimits` reads. -/
structure VariableBounds where
  min_velocity_ : ℚ
  max_velocity_ : ℚ
  velocity_bounded_ : Bool
  min_acceleration_ : ℚ
  max_acceleration_ : ℚ
  acceleration_bounded_ : Bool
deriving DecidableEq

/-! ## `enforceSRDFAccelVelLimits` -/

/-- The pair `(clip_…, …_limit)` computed by the `if … else if …` cascades of
`enforceSRDFAccelVelLimits`: `some min` when the value is below `min`, else `some max` when it
is above `max`, else `none` (no clipping). -/
def clipLimit (value min_bound max_bound : ℚ) : Option ℚ :=
  if value < min_bound then some min_bound
  else if value > max_bound then some max_bound
  else none

/-- The test `fabs(relative_change) < 1` for `relative_change = numerator / denominator`: with a
zero denominator the double quotient is an infinity or a NaN and the test is false. -/
def fabsRelativeChangeLtOne (numerator denominator : ℚ) : Bool :=
  decide (denominator ≠ 0 ∧ |numerator / denominator| < 1)

/-- Local variables of the loop of `enforceSRDFAccelVelLimits` that change from one joint to
the next. -/
structure AccelVelLoop where
  delta_theta : List ℚ
  velocity : List ℚ
  joint_delta_index : ℕ
deriving DecidableEq

/-- First block of the loop body of `enforceSRDFAccelVelLimits`,
`if (bounds.acceleration_bounded_) { … }`, for one joint with bounds `bounds`. -/
def enforceSRDFAccelVelLimits_accelerationBlock (publish_period : ℚ)
    (prev_joint_velocity_ acceleration : List ℚ) (bounds : VariableBounds) (s : AccelVelLoop) :
    AccelVelLoop :=
  let i := s.joint_delta_index
  if bounds.acceleration_bounded_ then
    match clipLimit (acceleration.getD i 0) bounds.min_acceleration_ bounds.max_acceleration_ with
    | some acceleration_limit =>
      let numerator :=
        (acceleration_limit * publish_period + prev_joint_velocity_.getD i 0) * publish_period
      let relative_change := numerator / s.delta_theta.getD i 0
      if fabsRelativeChangeLtOne numerator (s.delta_theta.getD i 0) then
        { s with delta_theta := s.delta_theta.set i (relative_change * s.delta_theta.getD i 0) }
      else s
    | none => s
  else s

/-- Second block of the loop body of `enforceSRDFAccelVelLimits`,
`if (bounds.velocity_bounded_) { … ++joint_delta_index; }`: the increment of the index is the
last statement inside this block. -/
def enforceSRDFAccelVelLimits_velocityBlock (publish_period : ℚ) (bounds : VariableBounds)
    (s : AccelVelLoop) : AccelVelLoop :=
  let i := s.joint_delta_index
  if bounds.velocity_bounded_ then
    let s2 : AccelVelLoop :=
      { s with velocity := s.velocity.set i (s.delta_theta.getD i 0 / publish_period) }
    let s3 : AccelVelLoop :=
      match clipLimit (s2.velocity.getD i 0) bounds.min_velocity_ bounds.max_velocity_ with
      | some velocity_limit =>
        let numerator := velocity_limit * publish_period
        let relative_change := numerator / s2.delta_theta.getD i 0
        if fabsRelativeChangeLtOne numerator (s2.delta_theta.getD i 0) then
          { s2 with
            delta_theta := s2.delta_theta.set i (relative_change * s2.delta_theta.getD i 0)
            velocity := s2.velocity.set i (relative_change * s2.velocity.getD i 0) }
        else s2
      | none => s2
    { s3 with joint_delta_index := i + 1 }
  else s

/-- Body of the loop `for (auto joint : joint_model_group_->getActiveJointModels())` of
`enforceSRDFAccelVelLimits`, for one joint with bounds `bounds`. -/
def enforceSRDFAccelVelLimits_body (publish_period : ℚ)
    (prev_joint_velocity_ acceleration : List ℚ) (bounds : VariableBounds) (s : AccelVelLoop) :
    AccelVelLoop :=
  enforceSRDFAccelVelLimits_velocityBlock publish_period bounds
    (enforceSRDFAccelVelLimits_accelerationBlock publish_period prev_joint_velocity_ acceleration
      bounds s)

/-- Member function `JogCalcs::enforceSRDFAccelVelLimits`: `joints` lists the bounds of
`joint_model_group_->getActiveJointModels()` in order; the result is the new `delta_theta`. -/
def enforceSRDFAccelVelLimits (publish_period : ℚ) (prev_joint_velocity_ : List ℚ)
    (joints : List VariableBounds) (delta_theta : List ℚ) : List ℚ :=
  let velocity := delta_theta.map (fun d => d / publish_period)
  let acceleration :=
    List.zipWith (fun v pv => (v - pv) / publish_period) velocity prev_joint_velocity_
  (joints.foldl
    (fun s bounds =>
      enforceSRDFAccelVelLimits_body publish_period prev_joint_velocity_ acceleration bounds s)
    { delta_theta := delta_theta, velocity := velocity, joint_delta_index := 0 }).delta_theta

/-- Acceleration implied by an increment: `((delta_theta / period) - vel_prev) / period`. -/
def impliedAcceleration (publish_period prev_velocity delta : ℚ) : ℚ :=
  (delta / publish_period - prev_velocity) / publish_period

/-! ### Entry-wise description of the loop body (used by the proofs) -/

/-- Value written by a guarded rescale: `relative_change * d` when `fabs(relative_change) < 1`,
else `d` is kept. -/
def rescaleTo (numerator d : ℚ) : ℚ :=
  if fabsRelativeChangeLtOne numerator d then numerator / d * d else d

/-- Effect of the acceleration block on the entry `d` it addresses. -/
def clipAcceleration (publish_period : ℚ) (bounds : VariableBounds) (a pv d : ℚ) : ℚ :=
  if bounds.acceleration_bounded_ then
    match clipLimit a bounds.min_acceleration_ bounds.max_acceleration_ with
    | some acceleration_limit =>
      rescaleTo ((acceleration_limit * publish_period + pv) * publish_period) d
    | none => d
  else d

/-- Effect of the velocity block on the entry `d` it addresses. -/
def clipVelocity (publish_period : ℚ) (bounds : VariableBounds) (d : ℚ) : ℚ :=
  if bounds.velocity_bounded_ then
    match clipLimit (d / publish_period) bounds.min_velocity_ bounds.max_velocity_ with
    | some velocity_limit => rescaleTo (velocity_limit * publish_period) d
    | none => d
  else d


/-! ## Status codes, vectors and matrices -/

/-- Modelled from the spec: the status codes of `status_codes.h` (a header that is not among
the sources), §3 "StatusCode: {no-warning, decelerate-for-collision, halt-for-collision,
decelerate-for-singularity, halt-for-singularity, joint-bound}", under the names the source
uses. -/
inductive StatusCode where
  | NO_WARNING
  | DECELERATE_FOR_COLLISION
  | HALT_FOR_COLLISION
  | DECELERATE_FOR_SINGULARITY
  | HALT_FOR_SINGULARITY
  | JOINT_BOUND
deriving DecidableEq, Repr

/-- Type `Eigen::MatrixXd`, as the list of its rows. -/
abbrev MatrixXd := List (List ℚ)

/-- Dot product `u.dot(v)`. -/
def dot (u v : List ℚ) : ℚ := (List.zipWith (fun a b => a * b) u v).sum

/-- Matrix-vector product `m * v`. -/
def mulVec (m : MatrixXd) (v : List ℚ) : List ℚ := m.map (fun row => dot row v)

/-- Column `j` of a matrix, `m.col(j)`. -/
def col (m : MatrixXd) (j : ℕ) : List ℚ := m.map (fun row => row.getD j 0)

/-- What the source reads from an `Eigen::JacobiSVD<Eigen::MatrixXd>`. -/
structure JacobiSVD where
  matrixU : MatrixXd
  singularValues : List ℚ
  matrixV : MatrixXd
deriving DecidableEq, Repr

/-- Outcome of the division `a / b` of two finite doubles, compared as the source compares it:
a finite quotient when `b ≠ 0`; for `b = 0` an infinity with the sign of `a`, or NaN when `a` is
`0` as well (the zero divisor is a singular value, a positive zero). -/
inductive DoubleQuotient where
  | finite (q : ℚ)
  | infinity (positive : Bool)
  | nan
deriving DecidableEq, Repr

/-- Division `a / b` of two finite doubles. -/
def doubleDiv (a b : ℚ) : DoubleQuotient :=
  if b ≠ 0 then DoubleQuotient.finite (a / b)
  else if a > 0 then DoubleQuotient.infinity true
  else if a < 0 then DoubleQuotient.infinity false
  else DoubleQuotient.nan

/-- Comparison `x > t` with a finite double `t`; false for NaN. -/
def DoubleQuotient.gt (x : DoubleQuotient) (t : ℚ) : Bool :=
  match x with
  | DoubleQuotient.finite q => decide (q > t)
  | DoubleQuotient.infinity positive => positive
  | DoubleQuotient.nan => false

/-- Comparison `x < t` with a finite double `t`; false for NaN. -/
def DoubleQuotient.lt (x : DoubleQuotient) (t : ℚ) : Bool :=
  match x with
  | DoubleQuotient.finite q => decide (q < t)
  | DoubleQuotient.infinity positive => !positive
  | DoubleQuotient.nan => false

/-- Comparison `x >= y`; false when either side is NaN. -/
def DoubleQuotient.ge (x y : DoubleQuotient) : Bool :=
  match x, y with
  | DoubleQuotient.nan, _ => false
  | _, DoubleQuotient.nan => false
  | DoubleQuotient.finite a, DoubleQuotient.finite b => decide (a ≥ b)
  | DoubleQuotient.finite _, DoubleQuotient.infinity positive => !positive
  | DoubleQuotient.infinity positive, DoubleQuotient.finite _ => positive
  | DoubleQuotient.infinity positive, DoubleQuotient.infinity positive' => positive || !positive'

/-- The finite value of a quotient (`0` for an infinity or NaN, where it is not used). -/
def DoubleQuotient.value (x : DoubleQuotient) : ℚ :=
  match x with
  | DoubleQuotient.finite q => q
  | _ => 0

/-- The quotient `singularValues()(0) / singularValues()(singularValues().size() - 1)`. -/
def conditionNumber (svd : JacobiSVD) : DoubleQuotient :=
  doubleDiv (svd.singularValues.getD 0 0)
    (svd.singularValues.getD (svd.singularValues.length - 1) 0)

/-- Modelled from the spec: the part of `moveit::core::RobotState` (not among the sources) that
`jog_calcs.cpp` reads and writes for the joint model group, §6 "`setConfiguration` /
`getConfiguration` for trial perturbations": the positions and the velocities of the variables
of the active joints, in the order of `getActiveJointModels()`. -/
structure RobotState where
  positions : List ℚ
  velocities : List ℚ
deriving DecidableEq, Repr

/-! ## `velocityScalingFactorForSingularity` -/

/-- The joint-group positions that `velocityScalingFactorForSingularity` writes to
`kinematic_state_` with `setJointGroupPositions`:
`new_theta = current positions + pseudo_inverse * (vector_toward_singularity / 100)`. -/
def singularityLookAheadTheta (kinematic_state_ : RobotState) (svd : JacobiSVD)
    (jacobian pseudo_inverse : MatrixXd) : List ℚ :=
  let num_dimensions := jacobian.length
  let vector_toward_singularity := col svd.matrixU (num_dimensions - 1)
  let scale : ℚ := 100
  let delta_x := vector_toward_singularity.map (fun x => x / scale)
  List.zipWith (fun a b => a + b) kinematic_state_.positions (mulVec pseudo_inverse delta_x)

/-- The singular vector after the sign check of `velocityScalingFactorForSingularity`:
`new_svd` is `Eigen::JacobiSVD<Eigen::MatrixXd> new_svd(jacobian)`, the decomposition of the
argument `jacobian`; `jacobiSVD` stands for Eigen's decomposition routine. -/
def singularityVector (jacobiSVD : MatrixXd → JacobiSVD) (svd : JacobiSVD)
    (jacobian : MatrixXd) : List ℚ :=
  let num_dimensions := jacobian.length
  let vector_toward_singularity := col svd.matrixU (num_dimensions - 1)
  let ini_condition := conditionNumber svd
  let new_svd := jacobiSVD jacobian
  let new_condition := conditionNumber new_svd
  if ini_condition.ge new_condition then vector_toward_singularity.map (fun x => x * (-1))
  else vector_toward_singularity

/-- Member function `JogCalcs::velocityScalingFactorForSingularity`.  Reads `parameters_` (the
two thresholds), reads and writes `kinematic_state_` and `status_`; the result is
`(velocity_scale, status_, kinematic_state_)`. -/
def velocityScalingFactorForSingularity (jacobiSVD : MatrixXd → JacobiSVD)
    (lower_singularity_threshold hard_stop_singularity_threshold : ℚ)
    (kinematic_state_ : RobotState) (status_ : StatusCode)
    (commanded_velocity : List ℚ) (svd : JacobiSVD) (jacobian pseudo_inverse : MatrixXd) :
    ℚ × StatusCode × RobotState :=
  let ini_condition := conditionNumber svd
  -- copyJointGroupPositions, `new_theta += pseudo_inverse * delta_x`, setJointGroupPositions
  let kinematic_state_ : RobotState :=
    { kinematic_state_ with
      positions := singularityLookAheadTheta kinematic_state_ svd jacobian pseudo_inverse }
  let vector_toward_singularity := singularityVector jacobiSVD svd jacobian
  let dot := dot vector_toward_singularity commanded_velocity
  if dot > 0 then
    if ini_condition.gt lower_singularity_threshold &&
        ini_condition.lt hard_stop_singularity_threshold then
      (1 - (ini_condition.value - lower_singularity_threshold) /
            (hard_stop_singularity_threshold - lower_singularity_threshold),
        StatusCode.DECELERATE_FOR_SINGULARITY, kinematic_state_)
    else if ini_condition.gt hard_stop_singularity_threshold then
      (0, StatusCode.HALT_FOR_SINGULARITY, kinematic_state_)
    else (1, status_, kinematic_state_)
  else (1, status_, kinematic_state_)

/-- The look-ahead as the specification words it (§4.4): the condition number is recomputed
from the Jacobian of the kinematics provider at the perturbed configuration, the vector is
flipped if it did not decrease, and the configuration is restored afterwards. -/
def velocityScalingFactorForSingularity_spec (jacobiSVD : MatrixXd → JacobiSVD)
    (getJacobian : RobotState → MatrixXd)
    (lower_singularity_threshold hard_stop_singularity_threshold : ℚ)
    (kinematic_state_ : RobotState) (status_ : StatusCode)
    (commanded_velocity : List ℚ) (svd : JacobiSVD) (jacobian pseudo_inverse : MatrixXd) :
    ℚ × StatusCode × RobotState :=
  let vector_toward_singularity := col svd.matrixU (jacobian.length - 1)
  let ini_condition := conditionNumber svd
  let perturbed : RobotState :=
    { kinematic_state_ with
      positions := singularityLookAheadTheta kinematic_state_ svd jacobian pseudo_inverse }
  let new_condition := conditionNumber (jacobiSVD (getJacobian perturbed))
  -- "flip the vector's sign if the condition number did not decrease"
  let vector_toward_singularity :=
    if new_condition.ge ini_condition then vector_toward_singularity.map (fun x => x * (-1))
    else vector_toward_singularity
  let dot := dot vector_toward_singularity commanded_velocity
  if dot > 0 then
    if ini_condition.gt lower_singularity_threshold &&
        ini_condition.lt hard_stop_singularity_threshold then
      (1 - (ini_condition.value - lower_singularity_threshold) /
            (hard_stop_singularity_threshold - lower_singularity_threshold),
        StatusCode.DECELERATE_FOR_SINGULARITY, kinematic_state_)
    else if ini_condition.gt hard_stop_singularity_threshold then
      (0, StatusCode.HALT_FOR_SINGULARITY, kinematic_state_)
    else (1, status_, kinematic_state_)
  else (1, status_, kinematic_state_)

/-- Thin singular value decomposition of an `m × n` matrix (`m ≤ n`) whose only non-zero
entries are a positive, non-increasing diagonal: `U` is the `m × m` identity, the singular
values are the diagonal, and `V` is the `n × m` matrix with ones on its diagonal.  Used as the
decomposition routine in concrete evaluations on such matrices. -/
def diagonalSVD (m : MatrixXd) : JacobiSVD :=
  { matrixU := (List.range m.length).map (fun i =>
      (List.range m.length).map (fun j => if i = j then 1 else 0))
    singularValues := (List.range m.length).map (fun i => (m.getD i []).getD i 0)
    matrixV := (List.range (m.headD []).length).map (fun i =>
      (List.range m.length).map (fun j => if i = j then 1 else 0)) }

/-! ## `applyVelocityScaling` and `suddenHalt` -/

/-- Member function `JogCalcs::applyVelocityScaling`.  Reads
`shared_variables.collision_velocity_scale`, writes `delta_theta` and `status_`; the result is
`(delta_theta, status_)`. -/
def applyVelocityScaling (status_ : StatusCode) (collision_velocity_scale : ℚ)
    (delta_theta : List ℚ) (singularity_scale : ℚ) : List ℚ × StatusCode :=
  let collision_scale := collision_velocity_scale
  let status_ :=
    if collision_scale > 0 ∧ collision_scale < 1 then StatusCode.DECELERATE_FOR_COLLISION
    else if collision_scale = 0 then StatusCode.HALT_FOR_COLLISION
    else status_
  (delta_theta.map (fun d => collision_scale * singularity_scale * d), status_)

/-- Member function `JogCalcs::suddenHalt(Eigen::ArrayXd&)`:
`delta_theta = Eigen::ArrayXd::Zero(delta_theta.rows())`. -/
def suddenHalt_delta_theta (delta_theta : List ℚ) : List ℚ :=
  List.replicate delta_theta.length 0

/-! ## Messages, parameters and the state of `JogCalcs` -/

/-- A `double` of an incoming command, for which the source tests `std::isnan`: `none` is NaN,
`some q` the finite value `q`. -/
abbrev Double := Option ℚ

/-- Message `geometry_msgs::Vector3`. -/
structure Vector3 where
  x : Double := some 0
  y : Double := some 0
  z : Double := some 0
deriving DecidableEq, Repr

/-- Message `geometry_msgs::Twist`. -/
structure Twist where
  linear : Vector3 := {}
  angular : Vector3 := {}
deriving DecidableEq, Repr

/-- Message `geometry_msgs::TwistStamped` (`header.frame_id`, `header.stamp`, `twist`). -/
structure TwistStamped where
  frame_id : String := ""
  stamp : ℚ := 0
  twist : Twist := {}
deriving DecidableEq, Repr

/-- Message `control_msgs::JointJog` (`header.frame_id`, `header.stamp`, `joint_names`,
`velocities`). -/
structure JointJog where
  frame_id : String := ""
  stamp : ℚ := 0
  joint_names : List String := []
  velocities : List Double := []
deriving DecidableEq, Repr

/-- Message `sensor_msgs::JointState`. -/
structure JointState where
  name : List String := []
  position : List ℚ := []
  velocity : List ℚ := []
deriving DecidableEq, Repr

/-- Message `trajectory_msgs::JointTrajectoryPoint`. -/
structure JointTrajectoryPoint where
  positions : List ℚ := []
  velocities : List ℚ := []
  accelerations : List ℚ := []
  time_from_start : ℚ := 0
deriving DecidableEq, Repr

/-- Message `trajectory_msgs::JointTrajectory` (`header.frame_id`, `header.stamp`, `joint_names`,
`points`). -/
structure JointTrajectory where
  frame_id : String := ""
  stamp : ℚ := 0
  joint_names : List String := []
  points : List JointTrajectoryPoint := []
deriving DecidableEq, Repr

/-- Message `moveit_msgs::JointLimits`, the fields `enforceSRDFPositionLimits` reads. -/
structure JointLimits where
  min_position : ℚ
  max_position : ℚ
deriving DecidableEq, Repr

/-- Modelled from the spec: an active joint of the kinematics provider (`moveit::core::JointModel`
is not among the sources), §6 "`getActiveJoints()→[{name, accelBounds?, velBounds?,
posBounds?}]`": `getName()`, `getVariableBounds(getName())` and `getVariableBoundsMsg()`. -/
structure JointModel where
  name : String
  bounds : VariableBounds
  limits : List JointLimits
deriving DecidableEq

/-- Modelled from the spec: the configuration record `JogArmParameters` (its header is not among
the sources), §6 "Configuration (immutable after construction)"; the fields are those that
`jog_calcs.cpp` reads.  The default values of this and of the following records only serve
the concrete evaluations. -/
structure JogArmParameters where
  publish_period : ℚ := 1
  low_pass_filter_coeff : ℚ := 1
  command_in_type : String := "unitless"
  linear_scale : ℚ := 1
  rotational_scale : ℚ := 1
  joint_scale : ℚ := 1
  planning_frame : String := ""
  robot_link_command_frame : String := ""
  incoming_command_timeout : ℚ := 1
  lower_singularity_threshold : ℚ := 0
  hard_stop_singularity_threshold : ℚ := 0
  joint_limit_margin : ℚ := 0
  publish_joint_positions : Bool := true
  publish_joint_velocities : Bool := true
  publish_joint_accelerations : Bool := false
  num_outgoing_halt_msgs_to_publish : ℤ := 0
  use_gazebo : Bool := false
deriving DecidableEq, Repr

/-- Modelled from the spec: the shared record `JogArmShared` (its header is not among the
sources), §3 "SharedControlState"; the fields are those that `jog_calcs.cpp` reads or writes.
`drift_dimensions_past_end` is what a read of `drift_dimensions[i]` yields for an index `i`
outside the six-entry array. -/
structure JogArmShared where
  collision_velocity_scale : ℚ := 1
  control_dimensions : List Bool := [true, true, true, true, true, true]
  drift_dimensions : List Bool := [false, false, false, false, false, false]
  drift_dimensions_past_end : Bool := false
  status : StatusCode := StatusCode.NO_WARNING
  command_is_stale : Bool := false
  ok_to_publish : Bool := false
  paused : Bool := false
  stop_requested : Bool := false
  worst_case_stop_time : DoubleQuotient := DoubleQuotient.finite 0
deriving DecidableEq, Repr

/-- Modelled from the spec: the state of one `LowPassFilter` (the class is not among the
sources), §4.7 "stateful"; its two operations are fields of `Collaborators`. -/
structure LowPassFilter where
  memory : List ℚ := []
deriving DecidableEq, Repr

/-- The routines `jog_calcs.cpp` calls and that are not among the sources: Eigen's
decomposition, the kinematics provider (§6), the low-pass filter (§4.7) and the clock. -/
structure Collaborators where
  /-- Constructor `Eigen::JacobiSVD<Eigen::MatrixXd>(m, …)`. -/
  jacobiSVD : MatrixXd → JacobiSVD
  /-- Call `kinematic_state_->getJacobian(joint_model_group_)`. -/
  getJacobian : RobotState → MatrixXd
  /-- The rotation `(getGlobalLinkTransform(planning_frame).inverse() *
  getGlobalLinkTransform(frame)).linear()`. -/
  planningToFrameRotation : RobotState → String → MatrixXd
  /-- Call `kinematic_state_->satisfiesPositionBounds(joint, margin)`. -/
  satisfiesPositionBounds : RobotState → JointModel → ℚ → Bool
  /-- Method `LowPassFilter::filter`: the filtered value and the new filter state. -/
  filter : LowPassFilter → ℚ → ℚ × LowPassFilter
  /-- Method `LowPassFilter::reset`. -/
  reset : LowPassFilter → ℚ → LowPassFilter
  /-- Clock `ros::Time::now()`. -/
  now : ℚ
  /-- Contents of an `Eigen::VectorXd` of the given size that was allocated and not written. -/
  uninitialized : ℕ → List ℚ
  /-- The transform `getGlobalLinkTransform(planning_frame).inverse() *
  getGlobalLinkTransform(frame)` as a 4×4 matrix. -/
  planningToFrameTransform : RobotState → String → MatrixXd
  /-- Value of `ros::ok()`. -/
  ok : Bool

/-- Modelled from the spec: the members of `JogCalcs` (the class declaration is not among the
sources), §5 "derived computation state (Δθ, filter outputs, status, previous-velocity
baseline)"; the members are those that the member functions of `jog_calcs.cpp` use.
`status_pub_` and `joint_trajectory_pub_` hold the messages published so far, oldest first. -/
structure JogCalcs where
  parameters_ : JogArmParameters := {}
  joint_model_group_ : List JointModel := []
  kinematic_state_ : RobotState := { positions := [], velocities := [] }
  num_joints_ : ℕ := 0
  joint_state_name_map_ : List (String × ℕ) := []
  position_filters_ : List LowPassFilter := []
  incoming_joint_state_ : JointState := {}
  internal_joint_state_ : JointState := {}
  original_joint_state_ : JointState := {}
  twist_stamped_ : TwistStamped := {}
  joint_jog_ : JointJog := {}
  latest_twist_stamped_ : Option TwistStamped := none
  latest_joint_jog_ : Option JointJog := none
  latest_command_stamp_ : ℚ := 0
  tf_moveit_to_cmd_frame_ : MatrixXd := []
  prev_joint_velocity_ : List ℚ := []
  delta_theta_ : List ℚ := []
  outgoing_command_ : JointTrajectory := {}
  status_ : StatusCode := StatusCode.NO_WARNING
  is_initialized_ : Bool := false
  wait_for_jog_commands_ : Bool := true
  have_nonzero_twist_stamped_ : Bool := false
  have_nonzero_joint_jog_ : Bool := false
  have_nonzero_command_ : Bool := false
  zero_velocity_count_ : ℤ := 0
  gazebo_redundant_message_count_ : ℤ := 0
  status_pub_ : List StatusCode := []
  joint_trajectory_pub_ : List JointTrajectory := []

/-! ## Status publication and the composition of the outgoing command -/

/-- Member function `JogCalcs::publishStatus`: publishes `status_` on `status_pub_`. -/
def publishStatus (s : JogCalcs) : JogCalcs :=
  { s with status_pub_ := s.status_pub_ ++ [s.status_] }

/-- Member function `JogCalcs::updateCachedStatus`: `shared_variables.status = status_;
status_ = NO_WARNING;`. -/
def updateCachedStatus (s : JogCalcs) (shared_variables : JogArmShared) :
    JogCalcs × JogArmShared :=
  ({ s with status_ := StatusCode.NO_WARNING }, { shared_variables with status := s.status_ })

/-- Member function `JogCalcs::addJointIncrements`.  The loop runs over the indices of
`increments` and writes `output.position[i] += increments[i]` with `operator[]`, which does not
throw, so the `catch (const std::out_of_range&)` branch with `return false` is never taken
and the function returns `true`.  (A write past the end of `position` is left out: `List.set`
does nothing there.) -/
def addJointIncrements (output : JointState) (increments : List ℚ) : Bool × JointState :=
  (true,
    { output with
      position := (List.range increments.length).foldl
        (fun position i => position.set i (position.getD i 0 + increments.getD i 0))
        output.position })

/-- Member function `JogCalcs::lowPassFilterPositions`: for each filter `i`,
`joint_state.position[i] = position_filters_[i].filter(joint_state.position[i])`.  The result
is the joint state and the filters after the calls. -/
def lowPassFilterPositions (c : Collaborators) (position_filters_ : List LowPassFilter)
    (joint_state : JointState) : JointState × List LowPassFilter :=
  (List.range position_filters_.length).foldl
    (fun (acc : JointState × List LowPassFilter) i =>
      match acc.2[i]? with
      | some f =>
        let r := c.filter f (acc.1.position.getD i 0)
        ({ acc.1 with position := acc.1.position.set i r.1 }, acc.2.set i r.2)
      | none => acc)
    (joint_state, position_filters_)

/-- Member function `JogCalcs::calculateJointVelocities`:
`joint_state.velocity[i] = delta_theta[i] / publish_period` for each index of `delta_theta`. -/
def calculateJointVelocities (publish_period : ℚ) (joint_state : JointState)
    (delta_theta : List ℚ) : JointState :=
  { joint_state with
    velocity := (List.range delta_theta.length).foldl
      (fun velocity i => velocity.set i (delta_theta.getD i 0 / publish_period))
      joint_state.velocity }

/-- Member function `JogCalcs::composeJointTrajMessage`. -/
def composeJointTrajMessage (parameters_ : JogArmParameters) (num_joints_ : ℕ) (now : ℚ)
    (joint_state : JointState) : JointTrajectory :=
  let point : JointTrajectoryPoint :=
    { time_from_start := parameters_.publish_period
      positions := if parameters_.publish_joint_positions then joint_state.position else []
      velocities := if parameters_.publish_joint_velocities then joint_state.velocity else []
      accelerations :=
        if parameters_.publish_joint_accelerations then List.replicate num_joints_ 0 else [] }
  { frame_id := parameters_.planning_frame
    stamp := now
    joint_names := joint_state.name
    points := [point] }

/-- The lookup of `joint_angle` in `enforceSRDFPositionLimits`: the position of the first entry
of `original_joint_state_.name` equal to the name of the joint, `0` when there is none. -/
def originalJointAngle (original_joint_state_ : JointState) (joint_name : String) : ℚ :=
  match original_joint_state_.name.indexOf? joint_name with
  | some i => original_joint_state_.position.getD i 0
  | none => 0

/-- Member function `JogCalcs::enforceSRDFPositionLimits`.  The velocity
`kinematic_state_->getJointVelocities(joint)[0]` is the entry of `kinematic_state_.velocities`
at the position of the joint in the list of active joints.  The argument `new_joint_traj` of
the source is not read by the function and is omitted; `position.at(c)` is read with
`List.getD`. -/
def enforceSRDFPositionLimits (c : Collaborators) (parameters_ : JogArmParameters)
    (joint_model_group_ : List JointModel) (kinematic_state_ : RobotState)
    (original_joint_state_ : JointState) : Bool :=
  let halting := joint_model_group_.enum.any (fun (j, joint) =>
    let joint_angle := originalJointAngle original_joint_state_ joint.name
    if !c.satisfiesPositionBounds kinematic_state_ joint (-parameters_.joint_limit_margin) then
      match joint.limits with
      | [] => false
      | limits0 :: _ =>
        decide ((kinematic_state_.velocities.getD j 0 < 0 ∧
            joint_angle < limits0.min_position + parameters_.joint_limit_margin) ∨
          (kinematic_state_.velocities.getD j 0 > 0 ∧
            joint_angle > limits0.max_position - parameters_.joint_limit_margin))
    else false)
  !halting

/-- Member function `JogCalcs::suddenHalt(trajectory_msgs::JointTrajectory&)`. -/
def suddenHalt (parameters_ : JogArmParameters) (num_joints_ : ℕ)
    (original_joint_state_ : JointState) (joint_traj : JointTrajectory) : JointTrajectory :=
  let points : List JointTrajectoryPoint :=
    if joint_traj.points.isEmpty then
      [{ positions := List.replicate num_joints_ 0, velocities := List.replicate num_joints_ 0 }]
    else joint_traj.points
  match points with
  | [] => joint_traj
  | point0 :: rest =>
    let point0 := (List.range num_joints_).foldl
      (fun (point : JointTrajectoryPoint) i =>
        let point :=
          if parameters_.publish_joint_positions then
            { point with
              positions := point.positions.set i (original_joint_state_.position.getD i 0) }
          else point
        if parameters_.publish_joint_velocities then
          { point with velocities := point.velocities.set i 0 }
        else point)
      point0
    { joint_traj with points := point0 :: rest }

/-- Member function `JogCalcs::insertRedundantPointsIntoTrajectory`: copies of `points[0]` with
`time_from_start = i * publish_period` for `i = 2, …, count` are appended. -/
def insertRedundantPointsIntoTrajectory (publish_period : ℚ) (trajectory : JointTrajectory)
    (count : ℤ) : JointTrajectory :=
  match trajectory.points with
  | [] => trajectory
  | point :: _ =>
    { trajectory with
      points := trajectory.points ++
        (List.range (count + 1 - 2).toNat).map (fun k =>
          { point with time_from_start := ((k : ℚ) + 2) * publish_period }) }

/-- Member function `JogCalcs::convertDeltasToOutgoingCmd`. -/
def convertDeltasToOutgoingCmd (c : Collaborators) (s : JogCalcs) : Bool × JogCalcs :=
  let s := { s with internal_joint_state_ := s.original_joint_state_ }
  let r := addJointIncrements s.internal_joint_state_ s.delta_theta_
  let s := { s with internal_joint_state_ := r.2 }
  if !r.1 then (false, s)
  else
    let f := lowPassFilterPositions c s.position_filters_ s.internal_joint_state_
    let s := { s with internal_joint_state_ := f.1, position_filters_ := f.2 }
    let s := { s with
      internal_joint_state_ :=
        calculateJointVelocities s.parameters_.publish_period s.internal_joint_state_
          s.delta_theta_ }
    let s := { s with
      outgoing_command_ :=
        composeJointTrajMessage s.parameters_ s.num_joints_ c.now s.internal_joint_state_ }
    let s :=
      if !enforceSRDFPositionLimits c s.parameters_ s.joint_model_group_ s.kinematic_state_
          s.original_joint_state_ then
        { s with
          outgoing_command_ :=
            suddenHalt s.parameters_ s.num_joints_ s.original_joint_state_ s.outgoing_command_
          status_ := StatusCode.JOINT_BOUND }
      else s
    let s :=
      if s.parameters_.use_gazebo then
        { s with
          outgoing_command_ :=
            insertRedundantPointsIntoTrajectory s.parameters_.publish_period s.outgoing_command_
              s.gazebo_redundant_message_count_ }
      else s
    (true, s)

/-! ## The Cartesian conversion -/

/-- Test `std::isnan(d)`. -/
def isnan (d : Double) : Bool := d.isNone

/-- The finite value of a `double` that is not NaN. -/
def Double.value (d : Double) : ℚ := d.getD 0

/-- The six components `linear.x, linear.y, linear.z, angular.x, angular.y, angular.z`. -/
def twistComponents (cmd : TwistStamped) : List Double :=
  [cmd.twist.linear.x, cmd.twist.linear.y, cmd.twist.linear.z,
   cmd.twist.angular.x, cmd.twist.angular.y, cmd.twist.angular.z]

/-- First check of `cartesianJogCalcs`: `std::isnan` of one of the six components. -/
def twistHasNan (cmd : TwistStamped) : Bool :=
  (twistComponents cmd).any isnan

/-- Second check of `cartesianJogCalcs`: `fabs(component) > 1` for one of the six components
of a command without NaN. -/
def twistExceedsUnit (cmd : TwistStamped) : Bool :=
  (twistComponents cmd).any (fun d => decide (|d.value| > 1))

/-- "Set uncontrolled dimensions to 0 in command frame": component `i` is set to `0` when
`shared_variables.control_dimensions[i]` is false. -/
def zeroUncontrolledDimensions (shared_variables : JogArmShared) (cmd : TwistStamped) :
    TwistStamped :=
  let keep := fun (i : ℕ) (d : Double) =>
    if !shared_variables.control_dimensions.getD i false then some 0 else d
  { cmd with
    twist :=
      { linear :=
          { x := keep 0 cmd.twist.linear.x
            y := keep 1 cmd.twist.linear.y
            z := keep 2 cmd.twist.linear.z }
        angular :=
          { x := keep 3 cmd.twist.angular.x
            y := keep 4 cmd.twist.angular.y
            z := keep 5 cmd.twist.angular.z } } }

/-- "Transform the command to the MoveGroup planning frame": when the frame of the command is
not the planning frame, the linear and the angular part are rotated and the frame is set to
the planning frame. -/
def transformToPlanningFrame (c : Collaborators) (parameters_ : JogArmParameters)
    (kinematic_state_ : RobotState) (cmd : TwistStamped) : TwistStamped :=
  if cmd.frame_id ≠ parameters_.planning_frame then
    let translation_vector :=
      [cmd.twist.linear.x.value, cmd.twist.linear.y.value, cmd.twist.linear.z.value]
    let angular_vector :=
      [cmd.twist.angular.x.value, cmd.twist.angular.y.value, cmd.twist.angular.z.value]
    let rotation := c.planningToFrameRotation kinematic_state_ cmd.frame_id
    let translation_vector := mulVec rotation translation_vector
    let angular_vector := mulVec rotation angular_vector
    { cmd with
      frame_id := parameters_.planning_frame
      twist :=
        { linear :=
            { x := some (translation_vector.getD 0 0)
              y := some (translation_vector.getD 1 0)
              z := some (translation_vector.getD 2 0) }
          angular :=
            { x := some (angular_vector.getD 0 0)
              y := some (angular_vector.getD 1 0)
              z := some (angular_vector.getD 2 0) } } }
  else cmd

/-- Member function `JogCalcs::scaleCartesianCommand`.  For a `command_in_type` that is neither
`"unitless"` nor `"speed_units"` the six entries of `result` are never written. -/
def scaleCartesianCommand (c : Collaborators) (parameters_ : JogArmParameters)
    (command : TwistStamped) : List ℚ :=
  if parameters_.command_in_type = "unitless" then
    [parameters_.linear_scale * parameters_.publish_period * command.twist.linear.x.value,
     parameters_.linear_scale * parameters_.publish_period * command.twist.linear.y.value,
     parameters_.linear_scale * parameters_.publish_period * command.twist.linear.z.value,
     parameters_.rotational_scale * parameters_.publish_period * command.twist.angular.x.value,
     parameters_.rotational_scale * parameters_.publish_period * command.twist.angular.y.value,
     parameters_.rotational_scale * parameters_.publish_period * command.twist.angular.z.value]
  else if parameters_.command_in_type = "speed_units" then
    [command.twist.linear.x.value * parameters_.publish_period,
     command.twist.linear.y.value * parameters_.publish_period,
     command.twist.linear.z.value * parameters_.publish_period,
     command.twist.angular.x.value * parameters_.publish_period,
     command.twist.angular.y.value * parameters_.publish_period,
     command.twist.angular.z.value * parameters_.publish_period]
  else c.uninitialized 6

/-- Member function `JogCalcs::removeDimension`: with `num_rows = jacobian.rows() - 1`, when
`row_to_remove < num_rows` the rows below `row_to_remove` move up by one; then the matrix and
the vector are resized to `num_rows` rows. -/
def removeDimension (jacobian : MatrixXd) (delta_x : List ℚ) (row_to_remove : ℕ) :
    MatrixXd × List ℚ :=
  let num_rows := jacobian.length - 1
  if row_to_remove < num_rows then
    ((jacobian.take row_to_remove ++ jacobian.drop (row_to_remove + 1)).take num_rows,
     (delta_x.take row_to_remove ++ delta_x.drop (row_to_remove + 1)).take num_rows)
  else (jacobian.take num_rows, delta_x.take num_rows)

/-- The read `shared_variables.drift_dimensions[dimension]`. -/
def driftDimension (shared_variables : JogArmShared) (dimension : ℕ) : Bool :=
  match shared_variables.drift_dimensions[dimension]? with
  | some flag => flag
  | none => shared_variables.drift_dimensions_past_end

/-- The loop `for (auto dimension = jacobian.rows(); dimension >= 0; --dimension)` of
`cartesianJogCalcs`: `dimension` takes the values `rows, rows - 1, …, 0`, where `rows` is the
number of rows before the loop. -/
def removeDriftDimensions (shared_variables : JogArmShared) (jacobian : MatrixXd)
    (delta_x : List ℚ) : MatrixXd × List ℚ :=
  (List.range (jacobian.length + 1)).reverse.foldl
    (fun (acc : MatrixXd × List ℚ) dimension =>
      if driftDimension shared_variables dimension && decide (acc.1.length > 1) then
        removeDimension acc.1 acc.2 dimension
      else acc)
    (jacobian, delta_x)

/-- Transpose of a matrix. -/
def transpose (m : MatrixXd) : MatrixXd :=
  (List.range (m.headD []).length).map (fun j => col m j)

/-- Matrix product `a * b`. -/
def mulMat (a b : MatrixXd) : MatrixXd :=
  a.map (fun row => (transpose b).map (fun column => dot row column))

/-- Inverse `matrix_s.inverse()` of `matrix_s = svd.singularValues().asDiagonal()`: the
diagonal matrix of the reciprocals (for singular values that are all non-zero). -/
def diagonalInverse (singularValues : List ℚ) : MatrixXd :=
  (List.range singularValues.length).map (fun i =>
    (List.range singularValues.length).map (fun j =>
      if i = j then 1 / singularValues.getD i 0 else 0))

/-- The matrix `pseudo_inverse = svd.matrixV() * matrix_s.inverse() * svd.matrixU().transpose()`. -/
def pseudoInverse (svd : JacobiSVD) : MatrixXd :=
  mulMat (mulMat svd.matrixV (diagonalInverse svd.singularValues)) (transpose svd.matrixU)

/-- The command of `cartesianJogCalcs` after the two in-place rewrites (uncontrolled dimensions
set to `0`, transformation to the planning frame). -/
def cartesianCommand (c : Collaborators) (s : JogCalcs) (cmd : TwistStamped)
    (shared_variables : JogArmShared) : TwistStamped :=
  transformToPlanningFrame c s.parameters_ s.kinematic_state_
    (zeroUncontrolledDimensions shared_variables cmd)

/-- The Jacobian and `delta_x` that `cartesianJogCalcs` decomposes and solves: the scaled
command and `kinematic_state_->getJacobian(joint_model_group_)`, after the removal of the
drift dimensions. -/
def cartesianSolveInput (c : Collaborators) (s : JogCalcs) (cmd : TwistStamped)
    (shared_variables : JogArmShared) : MatrixXd × List ℚ :=
  removeDriftDimensions shared_variables (c.getJacobian s.kinematic_state_)
    (scaleCartesianCommand c s.parameters_ (cartesianCommand c s cmd shared_variables))

/-- The statements of `cartesianJogCalcs` from the decomposition of the Jacobian to the end:
pseudo-inverse solve, `enforceSRDFAccelVelLimits`, `applyVelocityScaling` (whose argument
`velocityScalingFactorForSingularity(…)` is evaluated before the call), the halt for a
collision, `prev_joint_velocity_`, `publishStatus`, `updateCachedStatus` and
`convertDeltasToOutgoingCmd`. -/
def cartesianJogCalcs_solve (c : Collaborators) (s : JogCalcs) (shared_variables : JogArmShared)
    (jacobian : MatrixXd) (delta_x : List ℚ) : Bool × JogCalcs × JogArmShared :=
  let svd := c.jacobiSVD jacobian
  let pseudo_inverse := pseudoInverse svd
  let s := { s with delta_theta_ := mulVec pseudo_inverse delta_x }
  let s := { s with
    delta_theta_ :=
      enforceSRDFAccelVelLimits s.parameters_.publish_period s.prev_joint_velocity_
        (s.joint_model_group_.map (fun (joint : JointModel) => joint.bounds)) s.delta_theta_ }
  let v := velocityScalingFactorForSingularity c.jacobiSVD
    s.parameters_.lower_singularity_threshold s.parameters_.hard_stop_singularity_threshold
    s.kinematic_state_ s.status_ delta_x svd jacobian pseudo_inverse
  let s := { s with status_ := v.2.1, kinematic_state_ := v.2.2 }
  let a := applyVelocityScaling s.status_ shared_variables.collision_velocity_scale
    s.delta_theta_ v.1
  let s := { s with delta_theta_ := a.1, status_ := a.2 }
  let s :=
    if s.status_ = StatusCode.HALT_FOR_COLLISION then
      { s with delta_theta_ := suddenHalt_delta_theta s.delta_theta_ }
    else s
  let s := { s with
    prev_joint_velocity_ := s.delta_theta_.map (fun d => d / s.parameters_.publish_period) }
  let s := publishStatus s
  let u := updateCachedStatus s shared_variables
  let r := convertDeltasToOutgoingCmd c u.1
  (r.1, r.2, u.2)

/-- Member function `JogCalcs::cartesianJogCalcs`; `cmd` is passed by reference and the result
holds the return value, the members, the command and the shared variables after the call. -/
def cartesianJogCalcs (c : Collaborators) (s : JogCalcs) (cmd : TwistStamped)
    (shared_variables : JogArmShared) : Bool × JogCalcs × TwistStamped × JogArmShared :=
  if twistHasNan cmd then (false, s, cmd, shared_variables)
  else if s.parameters_.command_in_type = "unitless" ∧ twistExceedsUnit cmd = true then
    (false, s, cmd, shared_variables)
  else
    let input := cartesianSolveInput c s cmd shared_variables
    let r := cartesianJogCalcs_solve c s shared_variables input.1 input.2
    (r.1, r.2.1, cartesianCommand c s cmd shared_variables, r.2.2)

/-! ## The joint conversion -/

/-- Member function `JogCalcs::scaleJointCommand`: `joint_state_name_map_.at(name)` is a
lookup in the list of pairs, and a name that is not found is skipped. -/
def scaleJointCommand (s : JogCalcs) (command : JointJog) : List ℚ :=
  (List.range command.joint_names.length).foldl
    (fun result m =>
      match s.joint_state_name_map_.lookup (command.joint_names.getD m "") with
      | none => result
      | some index =>
        if s.parameters_.command_in_type = "unitless" then
          result.set index ((command.velocities.getD m none).value *
            s.parameters_.joint_scale * s.parameters_.publish_period)
        else if s.parameters_.command_in_type = "speed_units" then
          result.set index ((command.velocities.getD m none).value *
            s.parameters_.publish_period)
        else result)
    (List.replicate s.num_joints_ 0)

/-- Modelled from the spec: `RobotState::setVariableValues(const sensor_msgs::JointState&)` (not
among the sources), §6 "`setConfiguration`": each variable of an active joint whose name
occurs in the message takes the position and the velocity the message gives for that name; an
empty position or velocity array changes nothing. -/
def setVariableValues (joint_model_group_ : List JointModel) (kinematic_state_ : RobotState)
    (msg : JointState) : RobotState :=
  let assign := fun (values current : List ℚ) =>
    if values.isEmpty then current
    else joint_model_group_.enum.foldl
      (fun current (jm : ℕ × JointModel) =>
        match msg.name.indexOf? jm.2.name with
        | some m => current.set jm.1 (values.getD m 0)
        | none => current)
      current
  { positions := assign msg.position kinematic_state_.positions
    velocities := assign msg.velocity kinematic_state_.velocities }

/-- Member function `JogCalcs::jointJogCalcs`. -/
def jointJogCalcs (c : Collaborators) (s : JogCalcs) (cmd : JointJog)
    (shared_variables : JogArmShared) : Bool × JogCalcs × JogArmShared :=
  if cmd.velocities.any isnan then (false, s, shared_variables)
  else
    let s := { s with delta_theta_ := scaleJointCommand s cmd }
    let s := { s with
      delta_theta_ :=
        enforceSRDFAccelVelLimits s.parameters_.publish_period s.prev_joint_velocity_
          (s.joint_model_group_.map (fun (joint : JointModel) => joint.bounds)) s.delta_theta_ }
    let s := { s with
      kinematic_state_ :=
        setVariableValues s.joint_model_group_ s.kinematic_state_ s.internal_joint_state_ }
    let s := { s with
      prev_joint_velocity_ := s.delta_theta_.map (fun d => d / s.parameters_.publish_period) }
    let s := publishStatus s
    let u := updateCachedStatus s shared_variables
    let r := convertDeltasToOutgoingCmd c u.1
    (r.1, r.2, u.2)

/-! ## Collaborators for concrete evaluations -/

/-- Position test of the kinematics provider used in concrete evaluations: the position of the
joint (found through its name in `names`) lies within `[min - margin, max + margin]` for each
of its limits. -/
def withinPositionBounds (names : List String) (kinematic_state_ : RobotState)
    (joint : JointModel) (margin : ℚ) : Bool :=
  match names.indexOf? joint.name with
  | some j =>
    joint.limits.all (fun l =>
      decide (l.min_position - margin ≤ kinematic_state_.positions.getD j 0 ∧
        kinematic_state_.positions.getD j 0 ≤ l.max_position + margin))
  | none => true

/-- Collaborators used in concrete evaluations: the decomposition of diagonal matrices, a
constant Jacobian, the identity rotation and transform between frames, `withinPositionBounds`,
a filter that returns its input, clock `0`, `ros::ok()` true. -/
def exampleCollaborators (jacobian : MatrixXd) (names : List String) : Collaborators :=
  { jacobiSVD := diagonalSVD
    getJacobian := fun _ => jacobian
    planningToFrameRotation := fun _ _ => [[1, 0, 0], [0, 1, 0], [0, 0, 1]]
    satisfiesPositionBounds := withinPositionBounds names
    filter := fun f x => (x, f)
    reset := fun f _ => f
    now := 0
    uninitialized := fun n => List.replicate n 0
    planningToFrameTransform := fun _ _ =>
      [[1, 0, 0, 0], [0, 1, 0, 0], [0, 0, 1, 0], [0, 0, 0, 1]]
    ok := true }

/-- Names of the six joints of the arm used in concrete evaluations. -/
def exampleNames : List String :=
  ["joint_1", "joint_2", "joint_3", "joint_4", "joint_5", "joint_6"]

/-- A joint of the arm used in concrete evaluations: velocity bounds `[-10, 10]`, no
acceleration bound, position limits `[-1, 1]`. -/
def exampleJoint (name : String) : JointModel :=
  { name := name
    bounds :=
      { min_velocity_ := -10, max_velocity_ := 10, velocity_bounded_ := true,
        min_acceleration_ := 0, max_acceleration_ := 0, acceleration_bounded_ := false }
    limits := [{ min_position := -1, max_position := 1 }] }

/-- State of `JogCalcs` for a six-joint arm at the given joint positions and velocities, used in
concrete evaluations: period `1`, unitless commands with scales `1`, singularity thresholds `17`
and `30`, joint limit margin `1/10`, status `NO_WARNING`, nothing published yet. -/
def exampleArm (positions velocities : List ℚ) : JogCalcs :=
  { parameters_ :=
      { lower_singularity_threshold := 17, hard_stop_singularity_threshold := 30,
        joint_limit_margin := 1 / 10 }
    joint_model_group_ := exampleNames.map exampleJoint
    kinematic_state_ := { positions := positions, velocities := velocities }
    num_joints_ := 6
    joint_state_name_map_ := exampleNames.enum.map (fun p => (p.2, p.1))
    position_filters_ := List.replicate 6 {}
    internal_joint_state_ := { name := exampleNames, position := positions, velocity := velocities }
    original_joint_state_ := { name := exampleNames, position := positions, velocity := velocities }
    prev_joint_velocity_ := List.replicate 6 0 }

/-- The 6×6 diagonal Jacobian with diagonal `(first, 1, 1, 1, 1, 1)`. -/
def exampleJacobian (first : ℚ) : MatrixXd :=
  [[first, 0, 0, 0, 0, 0], [0, 1, 0, 0, 0, 0], [0, 0, 1, 0, 0, 0],
   [0, 0, 0, 1, 0, 0], [0, 0, 0, 0, 1, 0], [0, 0, 0, 0, 0, 1]]

/-- Shared variables used in concrete evaluations: all dimensions controlled, no drift
dimension, the given collision scale, and the given value for a read of `drift_dimensions`
past its end. -/
def exampleShared (collision_velocity_scale : ℚ) (past_end : Bool) : JogArmShared :=
  { collision_velocity_scale := collision_velocity_scale
    drift_dimensions_past_end := past_end }

/-- The arm of the concrete evaluations standing still at the zero configuration. -/
def exampleArmAtZero : JogCalcs :=
  exampleArm [0, 0, 0, 0, 0, 0] [0, 0, 0, 0, 0, 0]

/-- The arm of the concrete evaluations with joint 6 at `19/20`, inside the margin `1/10` of
its upper position limit `1`, and moving toward the limit with velocity `1`. -/
def exampleArmNearLimit : JogCalcs :=
  exampleArm [0, 0, 0, 0, 0, 19 / 20] [0, 0, 0, 0, 0, 1]

/-- Unitless twist command with `angular.y = -1` and `angular.z = -1`. -/
def exampleTwistTowardSingularity : TwistStamped :=
  { twist := { angular := { y := some (-1), z := some (-1) } } }

/-- Unitless twist command with `linear.x = 1/2`. -/
def exampleTwistLinearX : TwistStamped :=
  { twist := { linear := { x := some (1 / 2) } } }

/-- Joint command that moves `joint_1` with unitless velocity `1/2`. -/
def exampleJointJog : JointJog :=
  { joint_names := ["joint_1"], velocities := [some (1 / 2)] }

/-- The 6×6 diagonal Jacobian with diagonal `(1, 1, 1, 1, 1/10, 1/10)`, condition number `10`. -/
def exampleJacobianSmallTail : MatrixXd :=
  [[1, 0, 0, 0, 0, 0], [0, 1, 0, 0, 0, 0], [0, 0, 1, 0, 0, 0],
   [0, 0, 0, 1, 0, 0], [0, 0, 0, 0, 1 / 10, 0], [0, 0, 0, 0, 0, 1 / 10]]

/-! ## Command intake: `isNonZero`, the callbacks and `updateJoints` -/

/-- Helper `isNonZero(const geometry_msgs::TwistStamped&)`: one of the six components satisfies
`!= 0.0` (a NaN does). -/
def isNonZero_TwistStamped (msg : TwistStamped) : Bool :=
  (twistComponents msg).any (fun d => d != some 0)

/-- Helper `isNonZero(const control_msgs::JointJog&)`: not every velocity satisfies `== 0.0`
(a NaN does not). -/
def isNonZero_JointJog (msg : JointJog) : Bool :=
  !(msg.velocities.all (fun d => d == some 0))

/-- Callback `JogCalcs::jointStateCB`. -/
def jointStateCB (s : JogCalcs) (msg : JointState) : JogCalcs :=
  { s with incoming_joint_state_ := msg }

/-- Callback `JogCalcs::twistStampedCB`; `ros::Time(0.)` is the stamp `0`. -/
def twistStampedCB (s : JogCalcs) (msg : TwistStamped) : JogCalcs :=
  { s with
    latest_twist_stamped_ := some msg
    have_nonzero_twist_stamped_ := isNonZero_TwistStamped msg
    latest_command_stamp_ := if msg.stamp ≠ 0 then msg.stamp else s.latest_command_stamp_ }

/-- Callback `JogCalcs::jointJogCB`. -/
def jointJogCB (s : JogCalcs) (msg : JointJog) : JogCalcs :=
  { s with
    latest_joint_jog_ := some msg
    have_nonzero_joint_jog_ := isNonZero_JointJog msg
    latest_command_stamp_ := if msg.stamp ≠ 0 then msg.stamp else s.latest_command_stamp_ }

/-- Absolute value `fabs(x)` of a quotient. -/
def DoubleQuotient.fabs (x : DoubleQuotient) : DoubleQuotient :=
  match x with
  | DoubleQuotient.finite q => DoubleQuotient.finite |q|
  | DoubleQuotient.infinity _ => DoubleQuotient.infinity true
  | DoubleQuotient.nan => DoubleQuotient.nan

/-- Comparison `x < y`; false when either side is NaN. -/
def DoubleQuotient.ltD (x y : DoubleQuotient) : Bool :=
  match x, y with
  | DoubleQuotient.nan, _ => false
  | _, DoubleQuotient.nan => false
  | DoubleQuotient.finite a, DoubleQuotient.finite b => decide (a < b)
  | DoubleQuotient.finite _, DoubleQuotient.infinity positive => positive
  | DoubleQuotient.infinity positive, DoubleQuotient.finite _ => !positive
  | DoubleQuotient.infinity positive, DoubleQuotient.infinity positive' => !positive && positive'

/-- Maximum `std::max(a, b)`, that is `(a < b) ? b : a`. -/
def doubleMax (a b : DoubleQuotient) : DoubleQuotient :=
  if a.ltD b then b else a

/-- First loop of `updateJoints`, "Store joints in a member variable": for each entry `m` of the
incoming message whose name is in `joint_state_name_map_`,
`internal_joint_state_.position[c] = incoming_joint_state_.position[m]`; the other entries
are skipped. -/
def updateJoints_positions (s : JogCalcs) : List ℚ :=
  (List.range s.incoming_joint_state_.name.length).foldl
    (fun position m =>
      match s.joint_state_name_map_.lookup (s.incoming_joint_state_.name.getD m "") with
      | some index => position.set index (s.incoming_joint_state_.position.getD m 0)
      | none => position)
    s.internal_joint_state_.position

/-- Second loop of `updateJoints`, "Calculate worst case joint stop time": the state of the
loop is `(accel_limit, worst_case_stop_time)`, both declared before the loop. -/
def updateJoints_stopTime (s : JogCalcs) : DoubleQuotient :=
  ((List.range s.incoming_joint_state_.velocity.length).foldl
    (fun (acc : ℚ × DoubleQuotient) jt_state_idx =>
      let joint_name := s.incoming_joint_state_.name.getD jt_state_idx ""
      let accel_limit :=
        match s.joint_model_group_.find? (fun joint_model => joint_model.name == joint_name) with
        | some joint_model =>
          if joint_model.bounds.acceleration_bounded_ then
            min |joint_model.bounds.min_acceleration_| |joint_model.bounds.max_acceleration_|
          else acc.1
        | none => acc.1
      let joint_velocity := s.incoming_joint_state_.velocity.getD jt_state_idx 0
      (accel_limit, doubleMax acc.2 (doubleDiv joint_velocity accel_limit).fabs))
    ((0 : ℚ), DoubleQuotient.finite 0)).2

/-- Member function `JogCalcs::updateJoints`: the return value, the members and the shared
variables after the call. -/
def updateJoints (s : JogCalcs) (shared_variables : JogArmShared) :
    Bool × JogCalcs × JogArmShared :=
  if s.incoming_joint_state_.name.length < s.num_joints_ then (false, s, shared_variables)
  else
    let internal : JointState :=
      { s.internal_joint_state_ with position := updateJoints_positions s }
    (true,
      { s with internal_joint_state_ := internal, original_joint_state_ := internal },
      { shared_variables with worst_case_stop_time := updateJoints_stopTime s })

/-! ## The control loop: `run` -/

/-- Largest `int`, `std::numeric_limits<int>::max()`, for a 32-bit `int`. -/
def INT_MAX : ℤ := 2147483647

/-- The loops `for (i < num_joints_) position_filters_[i].reset(original_joint_state_.position[i])`
of `run`. -/
def resetFilters (c : Collaborators) (s : JogCalcs) : JogCalcs :=
  { s with
    position_filters_ := (List.range s.num_joints_).foldl
      (fun filters i =>
        match filters[i]? with
        | some f => filters.set i (c.reset f (s.original_joint_state_.position.getD i 0))
        | none => filters)
      s.position_filters_ }

/-- Statement `if (latest_twist_stamped_) twist_stamped_ = *latest_twist_stamped_;` of `run`. -/
def run_copyLatestTwist (s : JogCalcs) : JogCalcs :=
  match s.latest_twist_stamped_ with
  | some msg => { s with twist_stamped_ := msg }
  | none => s

/-- Statement `if (latest_joint_jog_) joint_jog_ = *latest_joint_jog_;` of `run`. -/
def run_copyLatestJointJog (s : JogCalcs) : JogCalcs :=
  match s.latest_joint_jog_ with
  | some msg => { s with joint_jog_ := msg }
  | none => s

/-- First statement of "Input frame determined by YAML file if not passed with message":
an empty frame of `twist_stamped_` becomes `robot_link_command_frame`. -/
def run_defaultTwistFrame (s : JogCalcs) : JogCalcs :=
  if s.twist_stamped_.frame_id.isEmpty then
    { s with
      twist_stamped_ :=
        { s.twist_stamped_ with frame_id := s.parameters_.robot_link_command_frame } }
  else s

/-- Second statement of "Input frame determined by YAML file if not passed with message":
the test is again `twist_stamped_.header.frame_id.empty()`, and the frame of `joint_jog_` is
set. -/
def run_defaultJointJogFrame (s : JogCalcs) : JogCalcs :=
  if s.twist_stamped_.frame_id.isEmpty then
    { s with
      joint_jog_ := { s.joint_jog_ with frame_id := s.parameters_.robot_link_command_frame } }
  else s

/-- Statements of `run` between the retry loop and the test of `wait_for_jog_commands_`: the
update from the latest state (`kinematic_state_`, the copies of the latest commands, the
staleness of the commands), the transform to the command frame, the default frames and
`have_nonzero_command_`. -/
def run_updateFromLatest (c : Collaborators) (s : JogCalcs) (shared_variables : JogArmShared) :
    JogCalcs × JogArmShared :=
  let s := { s with
    kinematic_state_ :=
      setVariableValues s.joint_model_group_ s.kinematic_state_ s.incoming_joint_state_ }
  let s := run_copyLatestJointJog (run_copyLatestTwist s)
  let shared_variables := { shared_variables with
    command_is_stale :=
      decide (c.now - s.latest_command_stamp_ ≥ s.parameters_.incoming_command_timeout) }
  let s := { s with
    tf_moveit_to_cmd_frame_ :=
      c.planningToFrameTransform s.kinematic_state_ s.parameters_.robot_link_command_frame }
  let s := run_defaultJointJogFrame (run_defaultTwistFrame s)
  let s := { s with
    have_nonzero_command_ := s.have_nonzero_twist_stamped_ || s.have_nonzero_joint_jog_ }
  (s, shared_variables)

/-- First part of `run`, up to `have_nonzero_command_ = …`: the retry loop
`while (!updateJoints(shared_variables_) && ros::ok())` (`none` when `updateJoints` fails
while `ros::ok()` holds: the loop then waits for another joint message) followed by
`run_updateFromLatest`. -/
def run_prepare (c : Collaborators) (s : JogCalcs) (shared_variables : JogArmShared) :
    Option (JogCalcs × JogArmShared) :=
  let u := updateJoints s shared_variables
  if !u.1 && c.ok then none
  else some (run_updateFromLatest c u.2.1 u.2.2)

/-- Branch `if (wait_for_jog_commands_ || shared_variables_.paused)` of `run`. -/
def run_idle (c : Collaborators) (s : JogCalcs) : JogCalcs :=
  let s := resetFilters c s
  { s with
    wait_for_jog_commands_ := decide (s.twist_stamped_.stamp = 0 ∧ s.joint_jog_.stamp = 0) }

/-- Block `if (!shared_variables_.command_is_stale) { … }` of `run`: the Boolean is false when a
converter returned false, in which case `run` returns at once. -/
def run_conversion (c : Collaborators) (s : JogCalcs) (shared_variables : JogArmShared) :
    Bool × JogCalcs × JogArmShared :=
  if !shared_variables.command_is_stale then
    if s.have_nonzero_twist_stamped_ then
      let r := cartesianJogCalcs c s s.twist_stamped_ shared_variables
      (r.1, { r.2.1 with twist_stamped_ := r.2.2.1 }, r.2.2.2)
    else if s.have_nonzero_joint_jog_ then
      jointJogCalcs c s s.joint_jog_ shared_variables
    else (true, s, shared_variables)
  else (true, s, shared_variables)

/-- Rest of the active branch of `run`, from "If we should halt" to the end: the halt payload,
the publish gate and the counter of zero-velocity cycles. -/
def run_publish (c : Collaborators) (s : JogCalcs) (shared_variables : JogArmShared) :
    JogCalcs × JogArmShared :=
  -- If we should halt
  let s :=
    if !s.have_nonzero_command_ then
      let s := resetFilters c s
      { s with
        outgoing_command_ :=
          suddenHalt s.parameters_ s.num_joints_ s.original_joint_state_ s.outgoing_command_
        have_nonzero_twist_stamped_ := false
        have_nonzero_joint_jog_ := false }
    else s
  -- Send the newest target joints
  let p : JogCalcs × JogArmShared :=
    if s.have_nonzero_command_ then
      ({ s with joint_trajectory_pub_ := s.joint_trajectory_pub_ ++ [s.outgoing_command_] },
        { shared_variables with ok_to_publish := true })
    else if s.parameters_.num_outgoing_halt_msgs_to_publish ≠ 0 ∧
        s.zero_velocity_count_ > s.parameters_.num_outgoing_halt_msgs_to_publish then
      (s, { shared_variables with ok_to_publish := false })
    else
      ({ s with joint_trajectory_pub_ := s.joint_trajectory_pub_ ++ [s.outgoing_command_] },
        { shared_variables with ok_to_publish := true })
  -- Store last zero-velocity message flag to prevent superfluous warnings.
  let s := p.1
  let s :=
    if !s.have_nonzero_twist_stamped_ && !s.have_nonzero_joint_jog_ then
      if s.zero_velocity_count_ < INT_MAX then
        { s with zero_velocity_count_ := s.zero_velocity_count_ + 1 }
      else s
    else { s with zero_velocity_count_ := 0 }
  (s, p.2)

/-- Active branch of `run` (not waiting for commands, not paused). -/
def run_active (c : Collaborators) (s : JogCalcs) (shared_variables : JogArmShared) :
    JogCalcs × JogArmShared :=
  let r := run_conversion c s shared_variables
  if !r.1 then (r.2.1, r.2.2)
  else run_publish c r.2.1 r.2.2

/-- Member function `JogCalcs::run`, one tick of the timer: `none` when the retry loop on
`updateJoints` does not end, else the members and the shared variables after the tick.  The
logging of the duration of the last loop is left out. -/
def run (c : Collaborators) (s : JogCalcs) (shared_variables : JogArmShared) :
    Option (JogCalcs × JogArmShared) :=
  match run_prepare c s shared_variables with
  | none => none
  | some p =>
    if p.1.wait_for_jog_commands_ || p.2.paused then some (run_idle c p.1, p.2)
    else some (run_active c p.1 p.2)

/-- Consecutive ticks of `run`, one for each entry of `clocks`, which gives the collaborators
(the clock among them) of that tick; no callback arrives in between. -/
def runTicks (clocks : List Collaborators) (s : JogCalcs) (shared_variables : JogArmShared) :
    Option (JogCalcs × JogArmShared) :=
  clocks.foldl
    (fun (state : Option (JogCalcs × JogArmShared)) c =>
      match state with
      | none => none
      | some p => run c p.1 p.2)
    (some (s, shared_variables))

/-- The arm of the concrete evaluations in the active state of the control loop (not waiting for
commands), with joint telemetry for its six joints at rest, the given threshold
`num_outgoing_halt_msgs_to_publish` and no command received. -/
def exampleActiveArm (num_outgoing_halt_msgs_to_publish : ℤ) : JogCalcs :=
  { exampleArmAtZero with
    parameters_ :=
      { exampleArmAtZero.parameters_ with
        num_outgoing_halt_msgs_to_publish := num_outgoing_halt_msgs_to_publish }
    wait_for_jog_commands_ := false
    incoming_joint_state_ :=
      { name := exampleNames, position := [0, 0, 0, 0, 0, 0], velocity := [0, 0, 0, 0, 0, 0] } }

/-- Collaborators of the concrete evaluations with the identity Jacobian. -/
def exampleTickCollaborators : Collaborators :=
  exampleCollaborators (exampleJacobian 1) exampleNames

/-! ## Projections used by the frame lemmas -/

/-- The members that a conversion writes and the two publishers: what a rejected command must
leave as it was. -/
def JogCalcs.outputs (s : JogCalcs) :
    JointTrajectory × List ℚ × List ℚ × StatusCode × List StatusCode × List JointTrajectory :=
  (s.outgoing_command_, s.delta_theta_, s.prev_joint_velocity_, s.status_, s.status_pub_,
    s.joint_trajectory_pub_)

/-- The members that steer the control loop from tick to tick: the counter of zero-velocity
cycles, the two flags of non-zero commands, `wait_for_jog_commands_`, the parameters, the
number of joints and the incoming joint state. -/
def JogCalcs.control (s : JogCalcs) :
    ℤ × Bool × Bool × Bool × JogArmParameters × ℕ × JointState :=
  (s.zero_velocity_count_, s.have_nonzero_twist_stamped_, s.have_nonzero_joint_jog_,
    s.wait_for_jog_commands_, s.parameters_, s.num_joints_, s.incoming_joint_state_)

/-- A twist command with NaN (`none`) in `linear.x` and stamp `0`, as the subscriber receives
it. -/
def exampleTwistNan : TwistStamped :=
  { twist := { linear := { x := none } } }


/-- The rows (or entries) of `rows` whose flag in `flags` is false, in their original order:
what the removal of the drift dimensions is to keep. -/
def keepUnflagged {α : Type} (flags : List Bool) (rows : List α) : List α :=
  ((rows.zip flags).filter (fun p => !p.2)).map (fun p => p.1)

/-- Collaborators of the concrete evaluations whose low-pass filter returns its input and
records it in the state of the filter. -/
def exampleRecordingCollaborators : Collaborators :=
  { exampleTickCollaborators with
    filter := fun f x => (x, { memory := f.memory ++ [x] }) }

/-! ## The removal loop with a record of its accesses -/

/-- State of the removal loop of `cartesianJogCalcs` together with a record of its accesses:
`reads` lists the values of `dimension` used in `shared_variables.drift_dimensions[dimension]`,
`calls` lists for each call `removeDimension(jacobian, delta_x, dimension)` the pair of
`dimension` and `jacobian.rows()` at the call; both oldest first. -/
structure DriftLoopRecord where
  jacobian : MatrixXd
  delta_x : List ℚ
  reads : List ℕ
  calls : List (ℕ × ℕ)
deriving DecidableEq

/-- The loop `for (auto dimension = jacobian.rows(); dimension >= 0; --dimension)` of
`cartesianJogCalcs` as in `removeDriftDimensions`, with the record of its accesses: the
condition `shared_variables.drift_dimensions[dimension] && jacobian.rows() > 1` reads the
array in every round. -/
def removeDriftDimensions_recorded (shared_variables : JogArmShared) (jacobian : MatrixXd)
    (delta_x : List ℚ) : DriftLoopRecord :=
  (List.range (jacobian.length + 1)).reverse.foldl
    (fun (acc : DriftLoopRecord) dimension =>
      let acc := { acc with reads := acc.reads ++ [dimension] }
      if driftDimension shared_variables dimension && decide (acc.jacobian.length > 1) then
        let r := removeDimension acc.jacobian acc.delta_x dimension
        { acc with
          jacobian := r.1
          delta_x := r.2
          calls := acc.calls ++ [(dimension, acc.jacobian.length)] }
      else acc)
    { jacobian := jacobian, delta_x := delta_x, reads := [], calls := [] }

/-! ## States for the concrete evaluations of the telemetry and of the halt payload -/

/-- The arm of the concrete evaluations in a simulation (`use_gazebo`), with every outgoing
command replicated to three waypoints. -/
def exampleGazeboArm : JogCalcs :=
  { exampleActiveArm 0 with
    parameters_ := { (exampleActiveArm 0).parameters_ with use_gazebo := true }
    gazebo_redundant_message_count_ := 3 }

/-- An arm with the single controlled joint `joint_a`, whose acceleration bounds are
`[-2, 2]`. -/
def exampleTelemetryArm : JogCalcs :=
  { num_joints_ := 1
    joint_model_group_ :=
      [{ name := "joint_a"
         bounds :=
           { min_velocity_ := 0, max_velocity_ := 0, velocity_bounded_ := false,
             min_acceleration_ := -2, max_acceleration_ := 2, acceleration_bounded_ := true }
         limits := [] }]
    joint_state_name_map_ := [("joint_a", 0)]
    internal_joint_state_ := { name := ["joint_a"], position := [0], velocity := [0] } }

/-! ## Matrices of the pseudo-inverse solve -/

/-- The matrix `matrix_s = svd.singularValues().asDiagonal()`. -/
def asDiagonal (v : List ℚ) : MatrixXd :=
  (List.range v.length).map (fun i =>
    (List.range v.length).map (fun j => if i = j then v.getD i 0 else 0))

/-- The `m × m` identity matrix. -/
def identityMatrix (m : ℕ) : MatrixXd := asDiagonal (List.replicate m 1)

/-- The list of rows `M` has `r` rows of `c` entries each. -/
def isMatrix (r c : ℕ) (M : MatrixXd) : Bool :=
  M.length == r && M.all (fun row => row.length == c)

/-- Entries of a list of rows as a matrix over `Fin r × Fin c`. -/
def toMatrix (r c : ℕ) (M : MatrixXd) : Matrix (Fin r) (Fin c) ℚ :=
  fun i j => (M.getD i []).getD j 0

/-- Entries of a list as a vector over `Fin n`. -/
def toVector (n : ℕ) (v : List ℚ) : Fin n → ℚ :=
  fun i => v.getD i 0

/-! ## `enforceSRDFAccelVelLimits` with the rounding of every operation

The functions of this section follow the same statements of the source as
`enforceSRDFAccelVelLimits` above, with the result of every arithmetic operation on doubles
passed through a rounding function `fl`.  With `fl` the identity they are the functions above.
-/

/-- The integer nearest to `y`, the even one of the two when `y` lies halfway. -/
def roundNearestEven (y : ℚ) : ℤ :=
  if y - ⌊y⌋ < 1 / 2 then ⌊y⌋
  else if y - ⌊y⌋ > 1 / 2 then ⌊y⌋ + 1
  else if ⌊y⌋ % 2 = 0 then ⌊y⌋
  else ⌊y⌋ + 1

/-- Rounding of the exact result `q` of an operation to a double (IEEE 754 binary64, round to
nearest, ties to even): the nearest multiple of `2 ^ (e - 52)`, where `2 ^ e ≤ |q| < 2 ^ (e + 1)`,
that is the nearest number with a significand of 53 bits.  The range of the exponent is not
bounded: overflow and gradual underflow are not modelled. -/
def roundToDouble (q : ℚ) : ℚ :=
  if q = 0 then 0
  else roundNearestEven (q / 2 ^ (Int.log 2 |q| - 52)) * 2 ^ (Int.log 2 |q| - 52)

/-- First block of the loop body of `enforceSRDFAccelVelLimits`,
`if (bounds.acceleration_bounded_) { … }`, with rounding: `relative_change` is
`((acceleration_limit * period + prev_joint_velocity_(i)) * period) / delta_theta(i)`, four
operations, and the test `fabs(relative_change) < 1` is false for a zero divisor (the quotient
is then an infinity or a NaN). -/
def enforceSRDFAccelVelLimits_rounded_accelerationBlock (fl : ℚ → ℚ) (publish_period : ℚ)
    (prev_joint_velocity_ acceleration : List ℚ) (bounds : VariableBounds) (s : AccelVelLoop) :
    AccelVelLoop :=
  let i := s.joint_delta_index
  if bounds.acceleration_bounded_ then
    match clipLimit (acceleration.getD i 0) bounds.min_acceleration_ bounds.max_acceleration_ with
    | some acceleration_limit =>
      let numerator :=
        fl (fl (fl (acceleration_limit * publish_period) + prev_joint_velocity_.getD i 0) *
          publish_period)
      let relative_change := fl (numerator / s.delta_theta.getD i 0)
      if decide (s.delta_theta.getD i 0 ≠ 0 ∧ |relative_change| < 1) then
        { s with
          delta_theta := s.delta_theta.set i (fl (relative_change * s.delta_theta.getD i 0)) }
      else s
    | none => s
  else s

/-- Second block of the loop body of `enforceSRDFAccelVelLimits`,
`if (bounds.velocity_bounded_) { … ++joint_delta_index; }`, with rounding:
`velocity(i) = delta_theta(i) / period`,
`relative_change = (velocity_limit * period) / delta_theta(i)`,
`delta_theta(i) = relative_change * delta_theta(i)` and
`velocity(i) = relative_change * velocity(i)`. -/
def enforceSRDFAccelVelLimits_rounded_velocityBlock (fl : ℚ → ℚ) (publish_period : ℚ)
    (bounds : VariableBounds) (s : AccelVelLoop) : AccelVelLoop :=
  let i := s.joint_delta_index
  if bounds.velocity_bounded_ then
    let s2 : AccelVelLoop :=
      { s with velocity := s.velocity.set i (fl (s.delta_theta.getD i 0 / publish_period)) }
    let s3 : AccelVelLoop :=
      match clipLimit (s2.velocity.getD i 0) bounds.min_velocity_ bounds.max_velocity_ with
      | some velocity_limit =>
        let numerator := fl (velocity_limit * publish_period)
        let relative_change := fl (numerator / s2.delta_theta.getD i 0)
        if decide (s2.delta_theta.getD i 0 ≠ 0 ∧ |relative_change| < 1) then
          { s2 with
            delta_theta := s2.delta_theta.set i (fl (relative_change * s2.delta_theta.getD i 0))
            velocity := s2.velocity.set i (fl (relative_change * s2.velocity.getD i 0)) }
        else s2
      | none => s2
    { s3 with joint_delta_index := i + 1 }
  else s

/-- Body of the loop of `enforceSRDFAccelVelLimits` with rounding, for one joint. -/
def enforceSRDFAccelVelLimits_rounded_body (fl : ℚ → ℚ) (publish_period : ℚ)
    (prev_joint_velocity_ acceleration : List ℚ) (bounds : VariableBounds) (s : AccelVelLoop) :
    AccelVelLoop :=
  enforceSRDFAccelVelLimits_rounded_velocityBlock fl publish_period bounds
    (enforceSRDFAccelVelLimits_rounded_accelerationBlock fl publish_period prev_joint_velocity_
      acceleration bounds s)

/-- Member function `JogCalcs::enforceSRDFAccelVelLimits` with rounding:
`velocity = delta_theta / period` and `acceleration = (velocity - prev_joint_velocity_) / period`
are computed entry by entry, then the loop over the active joints runs. -/
def enforceSRDFAccelVelLimits_rounded (fl : ℚ → ℚ) (publish_period : ℚ)
    (prev_joint_velocity_ : List ℚ) (joints : List VariableBounds) (delta_theta : List ℚ) :
    List ℚ :=
  let velocity := delta_theta.map (fun d => fl (d / publish_period))
  let acceleration :=
    List.zipWith (fun v pv => fl (fl (v - pv) / publish_period)) velocity prev_joint_velocity_
  (joints.foldl
    (fun s bounds =>
      enforceSRDFAccelVelLimits_rounded_body fl publish_period prev_joint_velocity_ acceleration
        bounds s)
    { delta_theta := delta_theta, velocity := velocity, joint_delta_index := 0 }).delta_theta

/-- Effect of the velocity block with rounding on the entry `d` it addresses. -/
def clipVelocity_rounded (fl : ℚ → ℚ) (publish_period : ℚ) (bounds : VariableBounds) (d : ℚ) :
    ℚ :=
  if bounds.velocity_bounded_ then
    match clipLimit (fl (d / publish_period)) bounds.min_velocity_ bounds.max_velocity_ with
    | some velocity_limit =>
      if decide (d ≠ 0 ∧ |fl (fl (velocity_limit * publish_period) / d)| < 1) then
        fl (fl (fl (velocity_limit * publish_period) / d) * d)
      else d
    | none => d
  else d

/-! # Theorems -/

theorem getD_set_self (l : List ℚ) (i : ℕ) (v : ℚ) (h : i < l.length) :
    (l.set i v).getD i 0 = v := by
  simp [List.getD_eq_getElem?_getD, List.getElem?_set, h]

theorem set_getD_self (l : List ℚ) (i : ℕ) : l.set i (l.getD i 0) = l := by
  by_cases h : i < l.length
  · apply List.ext_getElem?
    intro j
    by_cases hj : i = j
    · subst hj
      rw [List.getElem?_set_self h, List.getD_eq_getElem?_getD, List.getElem?_eq_getElem h]
      rfl
    · simp [List.getElem?_set_ne hj]
  · exact List.set_eq_of_length_le (by omega)

theorem accelerationBlock_delta_theta (p : ℚ) (prev acc : List ℚ) (b : VariableBounds)
    (s : AccelVelLoop) :
    (enforceSRDFAccelVelLimits_accelerationBlock p prev acc b s).delta_theta =
      s.delta_theta.set s.joint_delta_index
        (clipAcceleration p b (acc.getD s.joint_delta_index 0)
          (prev.getD s.joint_delta_index 0) (s.delta_theta.getD s.joint_delta_index 0)) := by
  unfold enforceSRDFAccelVelLimits_accelerationBlock clipAcceleration rescaleTo
  dsimp only
  split
  · split
    · split
      · rfl
      · exact (set_getD_self _ _).symm
    · exact (set_getD_self _ _).symm
  · exact (set_getD_self _ _).symm

theorem accelerationBlock_velocity (p : ℚ) (prev acc : List ℚ) (b : VariableBounds)
    (s : AccelVelLoop) :
    (enforceSRDFAccelVelLimits_accelerationBlock p prev acc b s).velocity = s.velocity := by
  unfold enforceSRDFAccelVelLimits_accelerationBlock
  dsimp only
  split
  · split
    · split <;> rfl
    · rfl
  · rfl

theorem accelerationBlock_index (p : ℚ) (prev acc : List ℚ) (b : VariableBounds)
    (s : AccelVelLoop) :
    (enforceSRDFAccelVelLimits_accelerationBlock p prev acc b s).joint_delta_index =
      s.joint_delta_index := by
  unfold enforceSRDFAccelVelLimits_accelerationBlock
  dsimp only
  split
  · split
    · split <;> rfl
    · rfl
  · rfl

theorem velocityBlock_delta_theta (p : ℚ) (b : VariableBounds) (s : AccelVelLoop)
    (hlen : s.velocity.length = s.delta_theta.length) :
    (enforceSRDFAccelVelLimits_velocityBlock p b s).delta_theta =
      s.delta_theta.set s.joint_delta_index
        (clipVelocity p b (s.delta_theta.getD s.joint_delta_index 0)) := by
  have hv : (s.velocity.set s.joint_delta_index
      (s.delta_theta.getD s.joint_delta_index 0 / p)).getD s.joint_delta_index 0 =
      s.delta_theta.getD s.joint_delta_index 0 / p := by
    by_cases hi : s.joint_delta_index < s.delta_theta.length
    · exact getD_set_self _ _ _ (by omega)
    · rw [List.set_eq_of_length_le (by omega)]
      have h1 : s.velocity[s.joint_delta_index]? = none := List.getElem?_eq_none (by omega)
      have h2 : s.delta_theta[s.joint_delta_index]? = none := List.getElem?_eq_none (by omega)
      simp [List.getD_eq_getElem?_getD, h1, h2]
  unfold enforceSRDFAccelVelLimits_velocityBlock clipVelocity rescaleTo
  dsimp only
  split
  · rw [hv]
    split
    · split
      · rfl
      · exact (set_getD_self _ _).symm
    · exact (set_getD_self _ _).symm
  · exact (set_getD_self _ _).symm


theorem accelerationBlock_lengths (p : ℚ) (prev acc : List ℚ) (b : VariableBounds)
    (s : AccelVelLoop) (hlen : s.velocity.length = s.delta_theta.length) :
    (enforceSRDFAccelVelLimits_accelerationBlock p prev acc b s).velocity.length =
      (enforceSRDFAccelVelLimits_accelerationBlock p prev acc b s).delta_theta.length := by
  rw [accelerationBlock_velocity, accelerationBlock_delta_theta, List.length_set, hlen]

theorem velocityBlock_velocity_length (p : ℚ) (b : VariableBounds) (s : AccelVelLoop) :
    (enforceSRDFAccelVelLimits_velocityBlock p b s).velocity.length = s.velocity.length := by
  unfold enforceSRDFAccelVelLimits_velocityBlock
  dsimp only
  split
  · split
    · split <;> simp only [List.length_set]
    · simp only [List.length_set]
  · rfl

theorem body_delta_theta (p : ℚ) (prev acc : List ℚ) (b : VariableBounds) (s : AccelVelLoop)
    (hlen : s.velocity.length = s.delta_theta.length) :
    (enforceSRDFAccelVelLimits_body p prev acc b s).delta_theta =
      s.delta_theta.set s.joint_delta_index
        (clipVelocity p b (clipAcceleration p b (acc.getD s.joint_delta_index 0)
          (prev.getD s.joint_delta_index 0) (s.delta_theta.getD s.joint_delta_index 0))) := by
  unfold enforceSRDFAccelVelLimits_body
  rw [velocityBlock_delta_theta _ _ _ (accelerationBlock_lengths p prev acc b s hlen),
    accelerationBlock_index, accelerationBlock_delta_theta, List.set_set]
  by_cases hi : s.joint_delta_index < s.delta_theta.length
  · rw [getD_set_self _ _ _ hi]
  · rw [List.set_eq_of_length_le (by omega), List.set_eq_of_length_le (by omega)]

theorem body_lengths (p : ℚ) (prev acc : List ℚ) (b : VariableBounds) (s : AccelVelLoop)
    (hlen : s.velocity.length = s.delta_theta.length) :
    (enforceSRDFAccelVelLimits_body p prev acc b s).velocity.length =
      (enforceSRDFAccelVelLimits_body p prev acc b s).delta_theta.length := by
  rw [body_delta_theta p prev acc b s hlen, List.length_set]
  unfold enforceSRDFAccelVelLimits_body
  rw [velocityBlock_velocity_length, accelerationBlock_velocity, hlen]

theorem rescaleTo_eq (n d : ℚ) (hd : d ≠ 0) (h : |n / d| < 1) : rescaleTo n d = n := by
  unfold rescaleTo fabsRelativeChangeLtOne
  rw [if_pos (by simp [hd, h])]
  exact div_mul_cancel₀ n hd

theorem clipVelocity_within (p : ℚ) (b : VariableBounds) (x : ℚ) (hp : 0 < p)
    (hvb : b.velocity_bounded_ = true) (hmin : b.min_velocity_ ≤ 0)
    (hmax : 0 ≤ b.max_velocity_) :
    b.min_velocity_ ≤ clipVelocity p b x / p ∧ clipVelocity p b x / p ≤ b.max_velocity_ := by
  unfold clipVelocity clipLimit
  rw [if_pos hvb]
  by_cases h1 : x / p < b.min_velocity_
  · rw [if_pos h1]
    dsimp only
    have hx : x < b.min_velocity_ * p := (div_lt_iff₀ hp).mp h1
    have hm : b.min_velocity_ * p ≤ 0 := mul_nonpos_of_nonpos_of_nonneg hmin hp.le
    have hx0 : x < 0 := lt_of_lt_of_le hx hm
    have hq : |b.min_velocity_ * p / x| < 1 := by
      rw [abs_of_nonneg (div_nonneg_of_nonpos hm hx0.le), div_lt_one_of_neg hx0]
      exact hx
    rw [rescaleTo_eq _ _ hx0.ne hq, mul_div_assoc, div_self hp.ne', mul_one]
    exact ⟨le_refl _, le_trans hmin hmax⟩
  · rw [if_neg h1]
    by_cases h2 : x / p > b.max_velocity_
    · rw [if_pos h2]
      dsimp only
      have hx : b.max_velocity_ * p < x := (lt_div_iff₀ hp).mp h2
      have hm : 0 ≤ b.max_velocity_ * p := mul_nonneg hmax hp.le
      have hx0 : 0 < x := lt_of_le_of_lt hm hx
      have hq : |b.max_velocity_ * p / x| < 1 := by
        rw [abs_of_nonneg (div_nonneg hm hx0.le), div_lt_one hx0]
        exact hx
      rw [rescaleTo_eq _ _ hx0.ne' hq, mul_div_assoc, div_self hp.ne', mul_one]
      exact ⟨le_trans hmin hmax, le_refl _⟩
    · rw [if_neg h2]
      dsimp only
      exact ⟨not_lt.mp h1, not_lt.mp h2⟩


/-! ### Frame lemmas for the composition of the outgoing command -/

theorem convert_returns_true (c : Collaborators) (s : JogCalcs) :
    (convertDeltasToOutgoingCmd c s).1 = true := by
  simp [convertDeltasToOutgoingCmd, addJointIncrements]

theorem convert_delta_theta (c : Collaborators) (s : JogCalcs) :
    (convertDeltasToOutgoingCmd c s).2.delta_theta_ = s.delta_theta_ := by
  simp only [convertDeltasToOutgoingCmd, addJointIncrements, Bool.not_true, Bool.false_eq_true,
    if_false]
  split <;> split <;> rfl

theorem convert_status_pub (c : Collaborators) (s : JogCalcs) :
    (convertDeltasToOutgoingCmd c s).2.status_pub_ = s.status_pub_ := by
  simp only [convertDeltasToOutgoingCmd, addJointIncrements, Bool.not_true, Bool.false_eq_true,
    if_false]
  split <;> split <;> rfl

theorem convert_status (c : Collaborators) (s : JogCalcs) :
    (convertDeltasToOutgoingCmd c s).2.status_ =
      if enforceSRDFPositionLimits c s.parameters_ s.joint_model_group_ s.kinematic_state_
          s.original_joint_state_ = false then StatusCode.JOINT_BOUND
      else s.status_ := by
  simp only [convertDeltasToOutgoingCmd, addJointIncrements, Bool.not_true, Bool.false_eq_true,
    if_false]
  cases h : enforceSRDFPositionLimits c s.parameters_ s.joint_model_group_ s.kinematic_state_
      s.original_joint_state_
  · simp only [Bool.not_false, if_true]
    split <;> rfl
  · simp only [Bool.not_true, Bool.false_eq_true, if_false]
    split <;> rfl

/-- In the halt branch, a finite condition number past the hard-stop threshold, the scale is
`0` and the status `HALT_FOR_SINGULARITY`. -/
theorem singularity_halt_branch (jacobiSVD : MatrixXd → JacobiSVD) (lower hard_stop : ℚ)
    (ks : RobotState) (st : StatusCode) (cv : List ℚ) (svd : JacobiSVD)
    (jacobian pinv : MatrixXd) (κ : ℚ)
    (hd : 0 < dot (singularityVector jacobiSVD svd jacobian) cv)
    (hκ : conditionNumber svd = DoubleQuotient.finite κ)
    (hc : hard_stop < κ) :
    (velocityScalingFactorForSingularity jacobiSVD lower hard_stop ks st cv svd jacobian
      pinv).1 = 0 ∧
    (velocityScalingFactorForSingularity jacobiSVD lower hard_stop ks st cv svd jacobian
      pinv).2.1 = StatusCode.HALT_FOR_SINGULARITY := by
  unfold velocityScalingFactorForSingularity
  dsimp only
  rw [if_pos hd, hκ]
  have h1 : (DoubleQuotient.finite κ).lt hard_stop = false := by
    simp only [DoubleQuotient.lt, decide_eq_false_iff_not, not_lt]
    exact hc.le
  have h2 : (DoubleQuotient.finite κ).gt hard_stop = true := by
    simp only [DoubleQuotient.gt, decide_eq_true_eq]
    exact hc
  rw [h1, h2, Bool.and_false]
  exact ⟨rfl, rfl⟩

/-- The status that `cartesianJogCalcs_solve` publishes and caches is the status left by
`applyVelocityScaling`. -/
theorem solve_status (c : Collaborators) (s : JogCalcs) (shared : JogArmShared)
    (jacobian : MatrixXd) (delta_x : List ℚ) (dt : List ℚ) :
    (cartesianJogCalcs_solve c s shared jacobian delta_x).2.1.status_pub_ =
      s.status_pub_ ++ [(applyVelocityScaling
        (velocityScalingFactorForSingularity c.jacobiSVD
          s.parameters_.lower_singularity_threshold
          s.parameters_.hard_stop_singularity_threshold s.kinematic_state_ s.status_ delta_x
          (c.jacobiSVD jacobian) jacobian (pseudoInverse (c.jacobiSVD jacobian))).2.1
        shared.collision_velocity_scale dt 0).2] ∧
    (cartesianJogCalcs_solve c s shared jacobian delta_x).2.2.status =
      (applyVelocityScaling
        (velocityScalingFactorForSingularity c.jacobiSVD
          s.parameters_.lower_singularity_threshold
          s.parameters_.hard_stop_singularity_threshold s.kinematic_state_ s.status_ delta_x
          (c.jacobiSVD jacobian) jacobian (pseudoInverse (c.jacobiSVD jacobian))).2.1
        shared.collision_velocity_scale dt 0).2 := by
  unfold cartesianJogCalcs_solve
  dsimp only
  rw [convert_status_pub]
  constructor
  · simp only [publishStatus, updateCachedStatus]
    split <;> rfl
  · simp only [publishStatus, updateCachedStatus]
    split <;> rfl

theorem solve_delta_theta (c : Collaborators) (s : JogCalcs) (shared : JogArmShared)
    (jacobian : MatrixXd) (delta_x : List ℚ) :
    (cartesianJogCalcs_solve c s shared jacobian delta_x).2.1.delta_theta_ =
      if (applyVelocityScaling
          (velocityScalingFactorForSingularity c.jacobiSVD
            s.parameters_.lower_singularity_threshold
            s.parameters_.hard_stop_singularity_threshold s.kinematic_state_ s.status_ delta_x
            (c.jacobiSVD jacobian) jacobian (pseudoInverse (c.jacobiSVD jacobian))).2.1
          shared.collision_velocity_scale
          (enforceSRDFAccelVelLimits s.parameters_.publish_period s.prev_joint_velocity_
            (s.joint_model_group_.map (fun (joint : JointModel) => joint.bounds))
            (mulVec (pseudoInverse (c.jacobiSVD jacobian)) delta_x))
          (velocityScalingFactorForSingularity c.jacobiSVD
            s.parameters_.lower_singularity_threshold
            s.parameters_.hard_stop_singularity_threshold s.kinematic_state_ s.status_ delta_x
            (c.jacobiSVD jacobian) jacobian (pseudoInverse (c.jacobiSVD jacobian))).1).2 =
          StatusCode.HALT_FOR_COLLISION then
        suddenHalt_delta_theta
          (applyVelocityScaling
            (velocityScalingFactorForSingularity c.jacobiSVD
              s.parameters_.lower_singularity_threshold
              s.parameters_.hard_stop_singularity_threshold s.kinematic_state_ s.status_ delta_x
              (c.jacobiSVD jacobian) jacobian (pseudoInverse (c.jacobiSVD jacobian))).2.1
            shared.collision_velocity_scale
            (enforceSRDFAccelVelLimits s.parameters_.publish_period s.prev_joint_velocity_
              (s.joint_model_group_.map (fun (joint : JointModel) => joint.bounds))
              (mulVec (pseudoInverse (c.jacobiSVD jacobian)) delta_x))
            (velocityScalingFactorForSingularity c.jacobiSVD
              s.parameters_.lower_singularity_threshold
              s.parameters_.hard_stop_singularity_threshold s.kinematic_state_ s.status_ delta_x
              (c.jacobiSVD jacobian) jacobian (pseudoInverse (c.jacobiSVD jacobian))).1).1
      else
        (applyVelocityScaling
            (velocityScalingFactorForSingularity c.jacobiSVD
              s.parameters_.lower_singularity_threshold
              s.parameters_.hard_stop_singularity_threshold s.kinematic_state_ s.status_ delta_x
              (c.jacobiSVD jacobian) jacobian (pseudoInverse (c.jacobiSVD jacobian))).2.1
            shared.collision_velocity_scale
            (enforceSRDFAccelVelLimits s.parameters_.publish_period s.prev_joint_velocity_
              (s.joint_model_group_.map (fun (joint : JointModel) => joint.bounds))
              (mulVec (pseudoInverse (c.jacobiSVD jacobian)) delta_x))
            (velocityScalingFactorForSingularity c.jacobiSVD
              s.parameters_.lower_singularity_threshold
              s.parameters_.hard_stop_singularity_threshold s.kinematic_state_ s.status_ delta_x
              (c.jacobiSVD jacobian) jacobian (pseudoInverse (c.jacobiSVD jacobian))).1).1 := by
  unfold cartesianJogCalcs_solve
  dsimp only
  rw [convert_delta_theta]
  simp only [publishStatus, updateCachedStatus]
  split <;> rfl

/-- Status left by `applyVelocityScaling` for a collision scale in `[0, 1]`. -/
theorem applyVelocityScaling_status (st : StatusCode) (cs : ℚ) (dt : List ℚ) (ss : ℚ)
    (h0 : 0 ≤ cs) (h1 : cs ≤ 1) :
    (applyVelocityScaling st cs dt ss).2 =
      if cs = 1 then st
      else if cs = 0 then StatusCode.HALT_FOR_COLLISION
      else StatusCode.DECELERATE_FOR_COLLISION := by
  unfold applyVelocityScaling
  dsimp only
  by_cases e1 : cs = 1
  · subst e1
    norm_num
  · by_cases e0 : cs = 0
    · subst e0
      norm_num
    · have hpos : 0 < cs := lt_of_le_of_ne h0 (Ne.symm e0)
      have hlt : cs < 1 := lt_of_le_of_ne h1 e1
      rw [if_pos ⟨hpos, hlt⟩, if_neg e1, if_neg e0]

/-- A joint conversion publishes and caches the status that `status_` held on entry. -/
theorem jointJogCalcs_status (c : Collaborators) (s : JogCalcs) (cmd : JointJog)
    (shared : JogArmShared) (hnan : cmd.velocities.any isnan = false) :
    (jointJogCalcs c s cmd shared).2.1.status_pub_ = s.status_pub_ ++ [s.status_] ∧
    (jointJogCalcs c s cmd shared).2.2.status = s.status_ := by
  unfold jointJogCalcs
  rw [hnan]
  simp only [Bool.false_eq_true, if_false]
  rw [convert_status_pub]
  exact ⟨rfl, rfl⟩

/-- The branches of `velocityScalingFactorForSingularity` for a finite condition number `c` and
the dot product `d` of the sign-checked singular vector with the commanded displacement: scale
`1` (status left) for `d ≤ 0`; for `d > 0`, scale `1` (status left) when `c ≤ lower` and
`c ≤ hard_stop`, the ramp with `DECELERATE_FOR_SINGULARITY` when `lower < c < hard_stop`, and
`0` with `HALT_FOR_SINGULARITY` when `c > hard_stop`. -/
theorem singularityScale_branches (jacobiSVD : MatrixXd → JacobiSVD) (lower hard_stop : ℚ)
    (ks : RobotState) (st : StatusCode) (cv : List ℚ) (svd : JacobiSVD)
    (jacobian pinv : MatrixXd) (c : ℚ) :
    (dot (singularityVector jacobiSVD svd jacobian) cv ≤ 0 →
      (velocityScalingFactorForSingularity jacobiSVD lower hard_stop ks st cv svd jacobian
        pinv).1 = 1 ∧
      (velocityScalingFactorForSingularity jacobiSVD lower hard_stop ks st cv svd jacobian
        pinv).2.1 = st) ∧
    (conditionNumber svd = DoubleQuotient.finite c →
      0 < dot (singularityVector jacobiSVD svd jacobian) cv →
      c ≤ lower → c ≤ hard_stop →
      (velocityScalingFactorForSingularity jacobiSVD lower hard_stop ks st cv svd jacobian
        pinv).1 = 1 ∧
      (velocityScalingFactorForSingularity jacobiSVD lower hard_stop ks st cv svd jacobian
        pinv).2.1 = st) ∧
    (conditionNumber svd = DoubleQuotient.finite c →
      0 < dot (singularityVector jacobiSVD svd jacobian) cv →
      lower < c → c < hard_stop →
      (velocityScalingFactorForSingularity jacobiSVD lower hard_stop ks st cv svd jacobian
        pinv).1 = 1 - (c - lower) / (hard_stop - lower) ∧
      (velocityScalingFactorForSingularity jacobiSVD lower hard_stop ks st cv svd jacobian
        pinv).2.1 = StatusCode.DECELERATE_FOR_SINGULARITY) ∧
    (conditionNumber svd = DoubleQuotient.finite c →
      0 < dot (singularityVector jacobiSVD svd jacobian) cv →
      lower < c → c < hard_stop → c = (lower + hard_stop) / 2 →
      (velocityScalingFactorForSingularity jacobiSVD lower hard_stop ks st cv svd jacobian
        pinv).1 = 1 / 2) ∧
    (conditionNumber svd = DoubleQuotient.finite c →
      0 < dot (singularityVector jacobiSVD svd jacobian) cv →
      hard_stop < c →
      (velocityScalingFactorForSingularity jacobiSVD lower hard_stop ks st cv svd jacobian
        pinv).1 = 0 ∧
      (velocityScalingFactorForSingularity jacobiSVD lower hard_stop ks st cv svd jacobian
        pinv).2.1 = StatusCode.HALT_FOR_SINGULARITY) := by
  refine ⟨?_, ?_, ?_, ?_, ?_⟩
  · intro hd
    unfold velocityScalingFactorForSingularity
    dsimp only
    rw [if_neg (not_lt.mpr hd)]
    exact ⟨rfl, rfl⟩
  · intro hc hd h1 h2
    unfold velocityScalingFactorForSingularity
    dsimp only
    have g1 : (DoubleQuotient.finite c).gt lower = false := by
      simp only [DoubleQuotient.gt, decide_eq_false_iff_not, not_lt]
      exact h1
    have g2 : (DoubleQuotient.finite c).gt hard_stop = false := by
      simp only [DoubleQuotient.gt, decide_eq_false_iff_not, not_lt]
      exact h2
    rw [if_pos hd, hc, g1, g2, Bool.false_and]
    exact ⟨rfl, rfl⟩
  · intro hc hd h1 h2
    unfold velocityScalingFactorForSingularity
    dsimp only
    have g1 : (DoubleQuotient.finite c).gt lower = true := by
      simp only [DoubleQuotient.gt, decide_eq_true_eq]
      exact h1
    have g2 : (DoubleQuotient.finite c).lt hard_stop = true := by
      simp only [DoubleQuotient.lt, decide_eq_true_eq]
      exact h2
    rw [if_pos hd, hc, g1, g2, Bool.and_true]
    exact ⟨rfl, rfl⟩
  · intro hc hd h1 h2 hmid
    unfold velocityScalingFactorForSingularity
    dsimp only
    have g1 : (DoubleQuotient.finite c).gt lower = true := by
      simp only [DoubleQuotient.gt, decide_eq_true_eq]
      exact h1
    have g2 : (DoubleQuotient.finite c).lt hard_stop = true := by
      simp only [DoubleQuotient.lt, decide_eq_true_eq]
      exact h2
    rw [if_pos hd, hc, g1, g2, Bool.and_true]
    simp only [if_true, DoubleQuotient.value]
    have hne : hard_stop - lower ≠ 0 := by linarith
    rw [hmid]
    field_simp
    ring
  · intro hc hd h1
    exact singularity_halt_branch jacobiSVD lower hard_stop ks st cv svd jacobian pinv c hd hc h1

/-! ## Frame lemmas of the control loop -/

theorem JogCalcs.control_fields (a b : JogCalcs) (h : a.control = b.control) :
    a.zero_velocity_count_ = b.zero_velocity_count_ ∧
    a.have_nonzero_twist_stamped_ = b.have_nonzero_twist_stamped_ ∧
    a.have_nonzero_joint_jog_ = b.have_nonzero_joint_jog_ ∧
    a.wait_for_jog_commands_ = b.wait_for_jog_commands_ ∧
    a.parameters_ = b.parameters_ ∧
    a.num_joints_ = b.num_joints_ ∧
    a.incoming_joint_state_ = b.incoming_joint_state_ := by
  simp only [JogCalcs.control, Prod.mk.injEq] at h
  exact h

theorem JogCalcs.control_flags (a b : JogCalcs) (h : a.control = b.control) :
    (a.have_nonzero_twist_stamped_ || a.have_nonzero_joint_jog_) =
      (b.have_nonzero_twist_stamped_ || b.have_nonzero_joint_jog_) := by
  have hf := JogCalcs.control_fields a b h
  rw [hf.2.1, hf.2.2.1]

theorem updateJoints_outputs (s : JogCalcs) (sh : JogArmShared) :
    (updateJoints s sh).2.1.outputs = s.outputs := by
  unfold updateJoints
  split <;> rfl

theorem updateJoints_control (s : JogCalcs) (sh : JogArmShared) :
    (updateJoints s sh).2.1.control = s.control := by
  unfold updateJoints
  split <;> rfl

theorem updateJoints_shared (s : JogCalcs) (sh : JogArmShared) :
    (updateJoints s sh).2.2.paused = sh.paused ∧
    (updateJoints s sh).2.2.ok_to_publish = sh.ok_to_publish ∧
    (updateJoints s sh).2.2.status = sh.status := by
  unfold updateJoints
  split <;> exact ⟨rfl, rfl, rfl⟩

theorem run_copyLatestTwist_frame (s : JogCalcs) :
    (run_copyLatestTwist s).outputs = s.outputs ∧ (run_copyLatestTwist s).control = s.control ∧
    (run_copyLatestTwist s).latest_joint_jog_ = s.latest_joint_jog_ := by
  unfold run_copyLatestTwist
  split <;> exact ⟨rfl, rfl, rfl⟩

theorem run_copyLatestJointJog_frame (s : JogCalcs) :
    (run_copyLatestJointJog s).outputs = s.outputs ∧
    (run_copyLatestJointJog s).control = s.control := by
  unfold run_copyLatestJointJog
  split <;> exact ⟨rfl, rfl⟩

theorem run_defaultTwistFrame_frame (s : JogCalcs) :
    (run_defaultTwistFrame s).outputs = s.outputs ∧
    (run_defaultTwistFrame s).control = s.control := by
  unfold run_defaultTwistFrame
  split <;> exact ⟨rfl, rfl⟩

theorem run_defaultJointJogFrame_frame (s : JogCalcs) :
    (run_defaultJointJogFrame s).outputs = s.outputs ∧
    (run_defaultJointJogFrame s).control = s.control := by
  unfold run_defaultJointJogFrame
  split <;> exact ⟨rfl, rfl⟩

theorem run_updateFromLatest_frame (c : Collaborators) (s : JogCalcs) (sh : JogArmShared) :
    (run_updateFromLatest c s sh).1.outputs = s.outputs ∧
    (run_updateFromLatest c s sh).1.control = s.control ∧
    (run_updateFromLatest c s sh).1.have_nonzero_command_ =
      (s.have_nonzero_twist_stamped_ || s.have_nonzero_joint_jog_) ∧
    (run_updateFromLatest c s sh).2.paused = sh.paused ∧
    (run_updateFromLatest c s sh).2.ok_to_publish = sh.ok_to_publish ∧
    (run_updateFromLatest c s sh).2.status = sh.status := by
  have k1 : ∀ (t : JogCalcs) k, ({ t with kinematic_state_ := k } : JogCalcs).outputs = t.outputs :=
    fun _ _ => rfl
  have k2 : ∀ (t : JogCalcs) k, ({ t with kinematic_state_ := k } : JogCalcs).control = t.control :=
    fun _ _ => rfl
  have t1 : ∀ (t : JogCalcs) k,
      ({ t with tf_moveit_to_cmd_frame_ := k } : JogCalcs).outputs = t.outputs := fun _ _ => rfl
  have t2 : ∀ (t : JogCalcs) k,
      ({ t with tf_moveit_to_cmd_frame_ := k } : JogCalcs).control = t.control := fun _ _ => rfl
  have n1 : ∀ (t : JogCalcs) k,
      ({ t with have_nonzero_command_ := k } : JogCalcs).outputs = t.outputs := fun _ _ => rfl
  have n2 : ∀ (t : JogCalcs) k,
      ({ t with have_nonzero_command_ := k } : JogCalcs).control = t.control := fun _ _ => rfl
  have n3 : ∀ (t : JogCalcs) k,
      ({ t with have_nonzero_command_ := k } : JogCalcs).have_nonzero_command_ = k :=
    fun _ _ => rfl
  unfold run_updateFromLatest
  refine ⟨?_, ?_, ?_, rfl, rfl, rfl⟩
  · rw [n1, (run_defaultJointJogFrame_frame _).1, (run_defaultTwistFrame_frame _).1, t1,
      (run_copyLatestJointJog_frame _).1, (run_copyLatestTwist_frame _).1, k1]
  · rw [n2, (run_defaultJointJogFrame_frame _).2, (run_defaultTwistFrame_frame _).2, t2,
      (run_copyLatestJointJog_frame _).2, (run_copyLatestTwist_frame _).2.1, k2]
  · rw [n3]
    refine JogCalcs.control_flags _ _ ?_
    rw [(run_defaultJointJogFrame_frame _).2, (run_defaultTwistFrame_frame _).2, t2,
      (run_copyLatestJointJog_frame _).2, (run_copyLatestTwist_frame _).2.1, k2]

theorem run_prepare_frame (c : Collaborators) (s : JogCalcs) (sh : JogArmShared)
    (p : JogCalcs × JogArmShared) (h : run_prepare c s sh = some p) :
    p.1.outputs = s.outputs ∧ p.1.control = s.control ∧
    p.1.have_nonzero_command_ =
      (s.have_nonzero_twist_stamped_ || s.have_nonzero_joint_jog_) ∧
    p.2.paused = sh.paused ∧ p.2.ok_to_publish = sh.ok_to_publish ∧ p.2.status = sh.status := by
  unfold run_prepare at h
  dsimp only at h
  split at h
  · exact absurd h (by simp)
  · have e := Option.some.inj h
    subst e
    have hf := run_updateFromLatest_frame c (updateJoints s sh).2.1 (updateJoints s sh).2.2
    have hc := updateJoints_control s sh
    refine ⟨hf.1.trans (updateJoints_outputs s sh), hf.2.1.trans hc, ?_,
      hf.2.2.2.1.trans (updateJoints_shared s sh).1,
      hf.2.2.2.2.1.trans (updateJoints_shared s sh).2.1,
      hf.2.2.2.2.2.trans (updateJoints_shared s sh).2.2⟩
    rw [hf.2.2.1]
    exact JogCalcs.control_flags _ _ hc

/-! ## Frame lemmas of the two conversions -/

theorem convert_control (c : Collaborators) (s : JogCalcs) :
    (convertDeltasToOutgoingCmd c s).2.control = s.control := by
  simp only [convertDeltasToOutgoingCmd, addJointIncrements, Bool.not_true, Bool.false_eq_true,
    if_false]
  split <;> split <;> rfl

theorem convert_have_nonzero_command (c : Collaborators) (s : JogCalcs) :
    (convertDeltasToOutgoingCmd c s).2.have_nonzero_command_ = s.have_nonzero_command_ := by
  simp only [convertDeltasToOutgoingCmd, addJointIncrements, Bool.not_true, Bool.false_eq_true,
    if_false]
  split <;> split <;> rfl

theorem solve_returns_true (c : Collaborators) (s : JogCalcs) (shared : JogArmShared)
    (jacobian : MatrixXd) (delta_x : List ℚ) :
    (cartesianJogCalcs_solve c s shared jacobian delta_x).1 = true := by
  unfold cartesianJogCalcs_solve
  dsimp only
  rw [convert_returns_true]

theorem solve_control (c : Collaborators) (s : JogCalcs) (shared : JogArmShared)
    (jacobian : MatrixXd) (delta_x : List ℚ) :
    (cartesianJogCalcs_solve c s shared jacobian delta_x).2.1.control = s.control ∧
    (cartesianJogCalcs_solve c s shared jacobian delta_x).2.2.paused = shared.paused ∧
    (cartesianJogCalcs_solve c s shared jacobian delta_x).2.1.have_nonzero_command_ =
      s.have_nonzero_command_ := by
  unfold cartesianJogCalcs_solve
  dsimp only
  rw [convert_control, convert_have_nonzero_command]
  simp only [publishStatus, updateCachedStatus]
  refine ⟨?_, trivial, ?_⟩
  · split <;> rfl
  · split <;> rfl

/-- The checks at the head of `cartesianJogCalcs`: a NaN among the components, or, for
`"unitless"` commands, a component of magnitude above `1`. -/
theorem cartesianJogCalcs_rejected (c : Collaborators) (s : JogCalcs) (cmd : TwistStamped)
    (shared : JogArmShared)
    (h : twistHasNan cmd = true ∨
      (s.parameters_.command_in_type = "unitless" ∧ twistExceedsUnit cmd = true)) :
    cartesianJogCalcs c s cmd shared = (false, s, cmd, shared) := by
  unfold cartesianJogCalcs
  by_cases hn : twistHasNan cmd = true
  · rw [if_pos hn]
  · rw [if_neg hn]
    rcases h with h | h
    · exact absurd h hn
    · rw [if_pos h]

theorem cartesianJogCalcs_accepted (c : Collaborators) (s : JogCalcs) (cmd : TwistStamped)
    (shared : JogArmShared) (hn : twistHasNan cmd = false)
    (hu : ¬ (s.parameters_.command_in_type = "unitless" ∧ twistExceedsUnit cmd = true)) :
    cartesianJogCalcs c s cmd shared =
      ((cartesianJogCalcs_solve c s shared (cartesianSolveInput c s cmd shared).1
          (cartesianSolveInput c s cmd shared).2).1,
        (cartesianJogCalcs_solve c s shared (cartesianSolveInput c s cmd shared).1
          (cartesianSolveInput c s cmd shared).2).2.1,
        cartesianCommand c s cmd shared,
        (cartesianJogCalcs_solve c s shared (cartesianSolveInput c s cmd shared).1
          (cartesianSolveInput c s cmd shared).2).2.2) := by
  unfold cartesianJogCalcs
  rw [hn, if_neg hu]
  simp only [Bool.false_eq_true, if_false]

theorem cartesianJogCalcs_control (c : Collaborators) (s : JogCalcs) (cmd : TwistStamped)
    (shared : JogArmShared) :
    (cartesianJogCalcs c s cmd shared).2.1.control = s.control ∧
    (cartesianJogCalcs c s cmd shared).2.2.2.paused = shared.paused ∧
    (cartesianJogCalcs c s cmd shared).2.1.have_nonzero_command_ = s.have_nonzero_command_ := by
  by_cases h : twistHasNan cmd = true ∨
      (s.parameters_.command_in_type = "unitless" ∧ twistExceedsUnit cmd = true)
  · rw [cartesianJogCalcs_rejected c s cmd shared h]
    exact ⟨rfl, rfl, rfl⟩
  · rw [not_or] at h
    rw [cartesianJogCalcs_accepted c s cmd shared (by simpa using h.1) h.2]
    exact solve_control c s shared _ _

theorem cartesianJogCalcs_false (c : Collaborators) (s : JogCalcs) (cmd : TwistStamped)
    (shared : JogArmShared) (h : (cartesianJogCalcs c s cmd shared).1 = false) :
    cartesianJogCalcs c s cmd shared = (false, s, cmd, shared) := by
  by_cases h' : twistHasNan cmd = true ∨
      (s.parameters_.command_in_type = "unitless" ∧ twistExceedsUnit cmd = true)
  · exact cartesianJogCalcs_rejected c s cmd shared h'
  · rw [not_or] at h'
    rw [cartesianJogCalcs_accepted c s cmd shared (by simpa using h'.1) h'.2] at h
    rw [solve_returns_true] at h
    exact absurd h (by simp)

theorem jointJogCalcs_rejected (c : Collaborators) (s : JogCalcs) (cmd : JointJog)
    (shared : JogArmShared) (h : cmd.velocities.any isnan = true) :
    jointJogCalcs c s cmd shared = (false, s, shared) := by
  unfold jointJogCalcs
  rw [if_pos h]

theorem jointJogCalcs_returns_true (c : Collaborators) (s : JogCalcs) (cmd : JointJog)
    (shared : JogArmShared) (h : cmd.velocities.any isnan = false) :
    (jointJogCalcs c s cmd shared).1 = true := by
  unfold jointJogCalcs
  rw [h]
  simp only [Bool.false_eq_true, if_false]
  rw [convert_returns_true]

theorem jointJogCalcs_control (c : Collaborators) (s : JogCalcs) (cmd : JointJog)
    (shared : JogArmShared) :
    (jointJogCalcs c s cmd shared).2.1.control = s.control ∧
    (jointJogCalcs c s cmd shared).2.2.paused = shared.paused ∧
    (jointJogCalcs c s cmd shared).2.1.have_nonzero_command_ = s.have_nonzero_command_ := by
  cases h : cmd.velocities.any isnan
  · unfold jointJogCalcs
    rw [h]
    simp only [Bool.false_eq_true, if_false]
    rw [convert_control, convert_have_nonzero_command]
    exact ⟨rfl, rfl, rfl⟩
  · rw [jointJogCalcs_rejected c s cmd shared h]
    exact ⟨rfl, rfl, rfl⟩

theorem jointJogCalcs_false (c : Collaborators) (s : JogCalcs) (cmd : JointJog)
    (shared : JogArmShared) (h : (jointJogCalcs c s cmd shared).1 = false) :
    jointJogCalcs c s cmd shared = (false, s, shared) := by
  cases h' : cmd.velocities.any isnan
  · rw [jointJogCalcs_returns_true c s cmd shared h'] at h
    exact absurd h (by simp)
  · exact jointJogCalcs_rejected c s cmd shared h'

theorem run_conversion_control (c : Collaborators) (s : JogCalcs) (shared : JogArmShared) :
    (run_conversion c s shared).2.1.control = s.control ∧
    (run_conversion c s shared).2.2.paused = shared.paused ∧
    (run_conversion c s shared).2.1.have_nonzero_command_ = s.have_nonzero_command_ := by
  unfold run_conversion
  split
  · split
    · exact cartesianJogCalcs_control c s s.twist_stamped_ shared
    · split
      · exact jointJogCalcs_control c s s.joint_jog_ shared
      · exact ⟨rfl, rfl, rfl⟩
  · exact ⟨rfl, rfl, rfl⟩

/-- A conversion that returns false leaves the members written by a conversion, the publishers
and the shared variables as they were. -/
theorem run_conversion_false (c : Collaborators) (s : JogCalcs) (shared : JogArmShared)
    (h : (run_conversion c s shared).1 = false) :
    (run_conversion c s shared).2.1.outputs = s.outputs ∧
    (run_conversion c s shared).2.2 = shared := by
  unfold run_conversion at h ⊢
  split at h
  · rw [if_pos (by assumption)]
    split at h
    · rw [if_pos (by assumption)]
      dsimp only at h ⊢
      rw [cartesianJogCalcs_false c s s.twist_stamped_ shared h]
      exact ⟨rfl, rfl⟩
    · rw [if_neg (by assumption)]
      split at h
      · rw [if_pos (by assumption)]
        rw [jointJogCalcs_false c s s.joint_jog_ shared h]
        exact ⟨rfl, rfl⟩
      · exact absurd h (by simp)
  · exact absurd h (by simp)

/-! ## The publish gate and the counter of zero-velocity cycles -/

/-- The value `zero_velocity_count_` takes in the branch "Cartesian and joint commands must both
be zero" of `run`: incremented unless it has reached `INT_MAX`. -/
theorem saturating_increment (count : ℤ) (h : count ≤ INT_MAX) :
    (if count < INT_MAX then count + 1 else count) = min (count + 1) INT_MAX := by
  split
  · rw [min_eq_left (by omega)]
  · rw [min_eq_right (by omega)]
    omega

theorem run_publish_zero (c : Collaborators) (s : JogCalcs) (shared : JogArmShared)
    (hc : s.have_nonzero_command_ = false) :
    (run_publish c s shared).1.control =
      ((if s.zero_velocity_count_ < INT_MAX then s.zero_velocity_count_ + 1
        else s.zero_velocity_count_), false, false, s.wait_for_jog_commands_, s.parameters_,
        s.num_joints_, s.incoming_joint_state_) ∧
    (run_publish c s shared).2.paused = shared.paused ∧
    (run_publish c s shared).2.ok_to_publish =
      !decide (s.parameters_.num_outgoing_halt_msgs_to_publish ≠ 0 ∧
        s.zero_velocity_count_ > s.parameters_.num_outgoing_halt_msgs_to_publish) := by
  unfold run_publish
  simp only [hc, resetFilters, Bool.not_false, if_true, Bool.false_eq_true, if_false,
    Bool.and_self]
  by_cases hg : s.parameters_.num_outgoing_halt_msgs_to_publish ≠ 0 ∧
      s.zero_velocity_count_ > s.parameters_.num_outgoing_halt_msgs_to_publish
  · rw [if_pos hg, decide_eq_true hg]
    by_cases hlt : s.zero_velocity_count_ < INT_MAX
    · rw [if_pos hlt, if_pos hlt]
      exact ⟨rfl, rfl, rfl⟩
    · rw [if_neg hlt, if_neg hlt]
      exact ⟨rfl, rfl, rfl⟩
  · rw [if_neg hg, decide_eq_false hg]
    by_cases hlt : s.zero_velocity_count_ < INT_MAX
    · rw [if_pos hlt, if_pos hlt]
      exact ⟨rfl, rfl, rfl⟩
    · rw [if_neg hlt, if_neg hlt]
      exact ⟨rfl, rfl, rfl⟩

theorem run_publish_nonzero (c : Collaborators) (s : JogCalcs) (shared : JogArmShared)
    (hc : s.have_nonzero_command_ = true)
    (hf : (s.have_nonzero_twist_stamped_ || s.have_nonzero_joint_jog_) = true) :
    (run_publish c s shared).1.control =
      (0, s.have_nonzero_twist_stamped_, s.have_nonzero_joint_jog_, s.wait_for_jog_commands_,
        s.parameters_, s.num_joints_, s.incoming_joint_state_) ∧
    (run_publish c s shared).2.paused = shared.paused ∧
    (run_publish c s shared).2.ok_to_publish = true := by
  unfold run_publish
  simp only [hc, Bool.not_true, Bool.false_eq_true, if_false, if_true]
  have hn : (!s.have_nonzero_twist_stamped_ && !s.have_nonzero_joint_jog_) = false := by
    revert hf
    cases s.have_nonzero_twist_stamped_ <;> cases s.have_nonzero_joint_jog_ <;> simp
  rw [hn]
  simp only [Bool.false_eq_true, if_false]
  exact ⟨rfl, trivial, trivial⟩
/-! ## One tick and consecutive ticks with an all-zero command -/

theorem run_prepare_some (c : Collaborators) (s : JogCalcs) (shared : JogArmShared)
    (hn : s.num_joints_ ≤ s.incoming_joint_state_.name.length) :
    ∃ p, run_prepare c s shared = some p := by
  unfold run_prepare
  have hu : (updateJoints s shared).1 = true := by
    unfold updateJoints
    rw [if_neg (not_lt.mpr hn)]
  dsimp only
  rw [hu]
  exact ⟨_, rfl⟩

theorem run_conversion_no_flag (c : Collaborators) (s : JogCalcs) (shared : JogArmShared)
    (ht : s.have_nonzero_twist_stamped_ = false) (hj : s.have_nonzero_joint_jog_ = false) :
    run_conversion c s shared = (true, s, shared) := by
  unfold run_conversion
  rw [ht, hj]
  simp only [Bool.false_eq_true, if_false, ite_self]

/-- One active tick with an all-zero command: the tick ends, the counter is incremented (up to
`INT_MAX`) and `ok_to_publish` is false exactly when the threshold is non-zero and the counter
held before the tick is above it. -/
theorem run_zero_command (c : Collaborators) (s : JogCalcs) (shared : JogArmShared)
    (hw : s.wait_for_jog_commands_ = false) (hp : shared.paused = false)
    (ht : s.have_nonzero_twist_stamped_ = false) (hj : s.have_nonzero_joint_jog_ = false)
    (hn : s.num_joints_ ≤ s.incoming_joint_state_.name.length) :
    ∃ q, run c s shared = some q ∧
      q.1.control =
        ((if s.zero_velocity_count_ < INT_MAX then s.zero_velocity_count_ + 1
          else s.zero_velocity_count_), false, false, false, s.parameters_,
          s.num_joints_, s.incoming_joint_state_) ∧
      q.2.paused = false ∧
      q.2.ok_to_publish =
        !decide (s.parameters_.num_outgoing_halt_msgs_to_publish ≠ 0 ∧
          s.zero_velocity_count_ > s.parameters_.num_outgoing_halt_msgs_to_publish) := by
  obtain ⟨p, hprep⟩ := run_prepare_some c s shared hn
  have hf := run_prepare_frame c s shared p hprep
  have hc := JogCalcs.control_fields _ _ hf.2.1
  have hpc : p.1.have_nonzero_command_ = false := by
    rw [hf.2.2.1, ht, hj]
    rfl
  have hconv : run_conversion c p.1 p.2 = (true, p.1, p.2) :=
    run_conversion_no_flag c p.1 p.2 (hc.2.1.trans ht) (hc.2.2.1.trans hj)
  have hrun : run c s shared = some (run_publish c p.1 p.2) := by
    unfold run
    rw [hprep]
    dsimp only
    rw [hc.2.2.2.1, hw, hf.2.2.2.1, hp]
    simp only [Bool.or_self, Bool.false_eq_true, if_false]
    unfold run_active
    rw [hconv]
    rfl
  have hz := run_publish_zero c p.1 p.2 hpc
  refine ⟨_, hrun, ?_, ?_, ?_⟩
  · rw [hz.1, hc.1, hc.2.2.2.1, hw, hc.2.2.2.2.1, hc.2.2.2.2.2.1, hc.2.2.2.2.2.2]
  · rw [hz.2.1, hf.2.2.2.1, hp]
  · rw [hz.2.2, hc.1, hc.2.2.2.2.1]

theorem runTicks_cons (c : Collaborators) (clocks : List Collaborators) (s : JogCalcs)
    (shared : JogArmShared) (q : JogCalcs × JogArmShared) (h : run c s shared = some q) :
    runTicks (c :: clocks) s shared = runTicks clocks q.1 q.2 := by
  unfold runTicks
  rw [List.foldl_cons]
  dsimp only
  rw [h]

/-- Consecutive active ticks with an all-zero command, for a counter that starts in
`[0, INT_MAX]`: every tick ends, after `n + 1` ticks the counter is
`min (count + n + 1) INT_MAX`, and `ok_to_publish` is false exactly when the threshold is
non-zero and `min (count + n) INT_MAX`, the counter before the last tick, is above it. -/
theorem runTicks_zero_command (clocks : List Collaborators) (c : Collaborators) :
    ∀ (s : JogCalcs) (shared : JogArmShared),
    s.wait_for_jog_commands_ = false → shared.paused = false →
    s.have_nonzero_twist_stamped_ = false → s.have_nonzero_joint_jog_ = false →
    s.num_joints_ ≤ s.incoming_joint_state_.name.length →
    s.zero_velocity_count_ ≤ INT_MAX →
    ∃ q, runTicks (clocks ++ [c]) s shared = some q ∧
      q.1.zero_velocity_count_ = min (s.zero_velocity_count_ + (clocks.length + 1)) INT_MAX ∧
      q.2.ok_to_publish =
        !decide (s.parameters_.num_outgoing_halt_msgs_to_publish ≠ 0 ∧
          min (s.zero_velocity_count_ + clocks.length) INT_MAX >
            s.parameters_.num_outgoing_halt_msgs_to_publish) := by
  induction clocks with
  | nil =>
    intro s shared hw hp ht hj hn hm
    obtain ⟨q, hq, hc, _, hok⟩ := run_zero_command c s shared hw hp ht hj hn
    have hcf := JogCalcs.control_fields q.1
      { q.1 with
        zero_velocity_count_ :=
          (if s.zero_velocity_count_ < INT_MAX then s.zero_velocity_count_ + 1
            else s.zero_velocity_count_)
        have_nonzero_twist_stamped_ := false
        have_nonzero_joint_jog_ := false
        wait_for_jog_commands_ := false
        parameters_ := s.parameters_
        num_joints_ := s.num_joints_
        incoming_joint_state_ := s.incoming_joint_state_ } hc
    refine ⟨q, ?_, ?_, ?_⟩
    · rw [List.nil_append, runTicks_cons c [] s shared q hq]
      rfl
    · rw [hcf.1]
      simp only [List.length_nil, Nat.cast_zero, zero_add]
      exact saturating_increment _ hm
    · rw [hok]
      simp only [List.length_nil, Nat.cast_zero, add_zero, min_eq_left hm]
  | cons c0 cs ih =>
    intro s shared hw hp ht hj hn hm
    obtain ⟨q, hq, hc, hqp, _⟩ := run_zero_command c0 s shared hw hp ht hj hn
    have hcf := JogCalcs.control_fields q.1
      { q.1 with
        zero_velocity_count_ :=
          (if s.zero_velocity_count_ < INT_MAX then s.zero_velocity_count_ + 1
            else s.zero_velocity_count_)
        have_nonzero_twist_stamped_ := false
        have_nonzero_joint_jog_ := false
        wait_for_jog_commands_ := false
        parameters_ := s.parameters_
        num_joints_ := s.num_joints_
        incoming_joint_state_ := s.incoming_joint_state_ } hc
    have hcount : q.1.zero_velocity_count_ = min (s.zero_velocity_count_ + 1) INT_MAX := by
      rw [hcf.1]
      exact saturating_increment _ hm
    have hn' : q.1.num_joints_ ≤ q.1.incoming_joint_state_.name.length := by
      rw [hcf.2.2.2.2.2.1, hcf.2.2.2.2.2.2]
      exact hn
    obtain ⟨r, hr, hrc, hrok⟩ := ih q.1 q.2 hcf.2.2.2.1 hqp hcf.2.1 hcf.2.2.1 hn'
      (by rw [hcount]; exact min_le_right _ _)
    refine ⟨r, ?_, ?_, ?_⟩
    · rw [List.cons_append, runTicks_cons c0 (cs ++ [c]) s shared q hq]
      exact hr
    · rw [hrc, hcount]
      simp only [List.length_cons, Nat.cast_add, Nat.cast_one, min_def, INT_MAX]
      split_ifs <;> omega
    · rw [hrok, hcount, hcf.2.2.2.2.1]
      congr 2
      simp only [List.length_cons, Nat.cast_add, Nat.cast_one, min_def, INT_MAX]
      apply propext
      constructor <;> intro ⟨h1, h2⟩ <;> refine ⟨h1, ?_⟩ <;> split_ifs at h2 ⊢ <;> omega
theorem run_idle_control (c : Collaborators) (s : JogCalcs) :
    (run_idle c s).zero_velocity_count_ = s.zero_velocity_count_ := by
  unfold run_idle resetFilters
  rfl

/-- The counter after the statements of `run` from "If we should halt" to the end, when
`have_nonzero_command_` holds the disjunction of the two flags. -/
theorem run_publish_count (c : Collaborators) (s : JogCalcs) (shared : JogArmShared)
    (hc : s.have_nonzero_command_ =
      (s.have_nonzero_twist_stamped_ || s.have_nonzero_joint_jog_)) :
    (run_publish c s shared).1.zero_velocity_count_ =
      if (s.have_nonzero_twist_stamped_ || s.have_nonzero_joint_jog_) = true then 0
      else if s.zero_velocity_count_ < INT_MAX then s.zero_velocity_count_ + 1
      else s.zero_velocity_count_ := by
  cases hf : (s.have_nonzero_twist_stamped_ || s.have_nonzero_joint_jog_)
  · rw [hf] at hc
    have h := (run_publish_zero c s shared hc).1
    have h1 := congrArg Prod.fst h
    simp only [Bool.false_eq_true, if_false]
    exact h1
  · rw [hf] at hc
    have h := (run_publish_nonzero c s shared hc hf).1
    have h1 := congrArg Prod.fst h
    simp only [if_true]
    exact h1
/-- An active tick whose converter returns false ends at once: the members written by a
conversion, the publishers and `ok_to_publish` are as before the tick. -/
theorem run_rejected_tick (c : Collaborators) (s : JogCalcs) (shared : JogArmShared)
    (p : JogCalcs × JogArmShared) (hprep : run_prepare c s shared = some p)
    (hw : p.1.wait_for_jog_commands_ = false) (hp : p.2.paused = false)
    (hr : (run_conversion c p.1 p.2).1 = false) :
    ∃ q, run c s shared = some q ∧ q.1.outputs = s.outputs ∧
      q.2.ok_to_publish = shared.ok_to_publish := by
  have hf := run_prepare_frame c s shared p hprep
  have hfalse := run_conversion_false c p.1 p.2 hr
  refine ⟨((run_conversion c p.1 p.2).2.1, (run_conversion c p.1 p.2).2.2), ?_, ?_, ?_⟩
  · unfold run
    rw [hprep]
    dsimp only
    rw [hw, hp]
    simp only [Bool.or_self, Bool.false_eq_true, if_false]
    unfold run_active
    dsimp only
    rw [hr]
    rfl
  · exact hfalse.1.trans hf.1
  · dsimp only
    rw [hfalse.2]
    exact hf.2.2.2.2.1

theorem run_conversion_nan (c : Collaborators) (s : JogCalcs) (shared : JogArmShared)
    (hs : shared.command_is_stale = false)
    (h : (s.have_nonzero_twist_stamped_ = true ∧ twistHasNan s.twist_stamped_ = true) ∨
      (s.have_nonzero_twist_stamped_ = false ∧ s.have_nonzero_joint_jog_ = true ∧
        s.joint_jog_.velocities.any isnan = true)) :
    (run_conversion c s shared).1 = false := by
  unfold run_conversion
  rw [hs]
  simp only [Bool.not_false, if_true]
  rcases h with ⟨ht, hn⟩ | ⟨ht, hj, hn⟩
  · rw [if_pos ht]
    dsimp only
    rw [cartesianJogCalcs_rejected c s s.twist_stamped_ shared (Or.inl hn)]
  · rw [ht, if_pos hj]
    simp only [Bool.false_eq_true, if_false]
    rw [jointJogCalcs_rejected c s s.joint_jog_ shared hn]
/-! ## The checks and the scaling of the Cartesian conversion -/

theorem twistHasNan_iff (cmd : TwistStamped) :
    twistHasNan cmd = true ↔ none ∈ twistComponents cmd := by
  unfold twistHasNan
  rw [List.any_eq_true]
  constructor
  · rintro ⟨d, hd, hn⟩
    cases d with
    | none => exact hd
    | some q => exact absurd hn (by simp [isnan])
  · intro h
    exact ⟨none, h, rfl⟩

theorem twistHasNan_false (cmd : TwistStamped) (h : none ∉ twistComponents cmd) :
    twistHasNan cmd = false := by
  cases hn : twistHasNan cmd
  · rfl
  · exact absurd ((twistHasNan_iff cmd).mp hn) h

theorem twistExceedsUnit_iff (cmd : TwistStamped) :
    twistExceedsUnit cmd = true ↔ ∃ d ∈ twistComponents cmd, |d.value| > 1 := by
  unfold twistExceedsUnit
  rw [List.any_eq_true]
  simp only [decide_eq_true_eq]

/-- With `control_dimensions[2]` false, two commands that differ only in `linear.z` are the
same command after "Set uncontrolled dimensions to 0 in command frame". -/
theorem zeroUncontrolledDimensions_linear_z (shared : JogArmShared) (cmd1 cmd2 : TwistStamped)
    (hdim : shared.control_dimensions.getD 2 true = false)
    (hframe : cmd1.frame_id = cmd2.frame_id) (hstamp : cmd1.stamp = cmd2.stamp)
    (hx : cmd1.twist.linear.x = cmd2.twist.linear.x)
    (hy : cmd1.twist.linear.y = cmd2.twist.linear.y)
    (hangular : cmd1.twist.angular = cmd2.twist.angular) :
    zeroUncontrolledDimensions shared cmd1 = zeroUncontrolledDimensions shared cmd2 ∧
    (zeroUncontrolledDimensions shared cmd1).twist.linear.z = some 0 ∧
    (zeroUncontrolledDimensions shared cmd1).frame_id = cmd1.frame_id := by
  have hd : shared.control_dimensions.getD 2 false = false := by
    rw [List.getD_eq_getElem?_getD] at hdim ⊢
    cases h : shared.control_dimensions[2]? with
    | none => rfl
    | some b =>
      rw [h] at hdim
      exact hdim
  unfold zeroUncontrolledDimensions
  dsimp only
  rw [hd, hframe, hstamp, hx, hy, hangular]
  exact ⟨rfl, rfl, rfl⟩
/-! ## The loops of `convertDeltasToOutgoingCmd` entry by entry -/

/-- A loop `for (i < n) l[i] = g(i, l[i])` changes the entries below `n`, each through `g`. -/
theorem foldl_set_getElem? (g : ℕ → ℚ → ℚ) (l : List ℚ) (n : ℕ) :
    ∀ j, ((List.range n).foldl (fun p i => p.set i (g i (p.getD i 0))) l)[j]? =
      if j < n then l[j]?.map (g j) else l[j]? := by
  induction n with
  | zero => simp
  | succ n ih =>
    intro j
    rw [List.range_succ, List.foldl_append, List.foldl_cons, List.foldl_nil]
    have hn : ((List.range n).foldl (fun p i => p.set i (g i (p.getD i 0))) l)[n]? = l[n]? := by
      rw [ih n, if_neg (lt_irrefl n)]
    by_cases hj : j = n
    · subst hj
      rw [List.getElem?_set_self', List.getD_eq_getElem?_getD, hn, if_pos (Nat.lt_succ_self j)]
      cases l[j]? <;> rfl
    · rw [List.getElem?_set_ne (Ne.symm hj), ih j]
      by_cases hlt : j < n
      · rw [if_pos hlt, if_pos (Nat.lt_succ_of_lt hlt)]
      · rw [if_neg hlt, if_neg (by omega)]

/-- The positions after `addJointIncrements`, for as many increments as positions: the sums
entry by entry. -/
theorem addJointIncrements_position (output : JointState) (increments : List ℚ)
    (h : increments.length = output.position.length) :
    (addJointIncrements output increments).2.position =
      List.zipWith (fun x d => x + d) output.position increments ∧
    (addJointIncrements output increments).2.name = output.name ∧
    (addJointIncrements output increments).2.velocity = output.velocity := by
  refine ⟨?_, rfl, rfl⟩
  unfold addJointIncrements
  dsimp only
  apply List.ext_getElem?
  intro j
  rw [foldl_set_getElem? (fun i x => x + increments.getD i 0) output.position increments.length j,
    List.getElem?_zipWith]
  by_cases hj : j < increments.length
  · rw [if_pos hj, List.getD_eq_getElem?_getD, List.getElem?_eq_getElem hj,
      List.getElem?_eq_getElem (h ▸ hj)]
    rfl
  · rw [if_neg hj, List.getElem?_eq_none (by omega), List.getElem?_eq_none (by omega)]

/-- The state of the loop of `lowPassFilterPositions` after `n` rounds. -/
theorem lowPassFilterPositions_loop (c : Collaborators) (filters : List LowPassFilter)
    (joint_state : JointState) (n : ℕ) :
    let r := (List.range n).foldl
      (fun (acc : JointState × List LowPassFilter) i =>
        match acc.2[i]? with
        | some f =>
          let r := c.filter f (acc.1.position.getD i 0)
          ({ acc.1 with position := acc.1.position.set i r.1 }, acc.2.set i r.2)
        | none => acc)
      (joint_state, filters)
    r.1.name = joint_state.name ∧ r.1.velocity = joint_state.velocity ∧
    (∀ j, r.1.position[j]? =
      if j < n then
        match filters[j]?, joint_state.position[j]? with
        | some f, some x => some (c.filter f x).1
        | _, x => x
      else joint_state.position[j]?) ∧
    (∀ j, r.2[j]? =
      if j < n then filters[j]?.map (fun f => (c.filter f (joint_state.position.getD j 0)).2)
      else filters[j]?) := by
  induction n with
  | zero => simp
  | succ n ih =>
    rw [List.range_succ, List.foldl_append, List.foldl_cons, List.foldl_nil]
    dsimp only at ih ⊢
    generalize (List.range n).foldl
      (fun (acc : JointState × List LowPassFilter) i =>
        match acc.2[i]? with
        | some f =>
          let r := c.filter f (acc.1.position.getD i 0)
          ({ acc.1 with position := acc.1.position.set i r.1 }, acc.2.set i r.2)
        | none => acc)
      (joint_state, filters) = acc at ih ⊢
    obtain ⟨hname, hvel, hpos, hfil⟩ := ih
    have hfn : acc.2[n]? = filters[n]? := by
      rw [hfil n, if_neg (lt_irrefl n)]
    have hpn : acc.1.position[n]? = joint_state.position[n]? := by
      rw [hpos n, if_neg (lt_irrefl n)]
    cases hf : filters[n]? with
    | none =>
      rw [hfn, hf]
      dsimp only
      refine ⟨hname, hvel, ?_, ?_⟩
      · intro j
        rw [hpos j]
        by_cases hj : j = n
        · subst hj
          rw [if_neg (lt_irrefl j), if_pos (Nat.lt_succ_self j), hf]
        · by_cases hlt : j < n
          · rw [if_pos hlt, if_pos (Nat.lt_succ_of_lt hlt)]
          · rw [if_neg hlt, if_neg (by omega)]
      · intro j
        rw [hfil j]
        by_cases hj : j = n
        · subst hj
          rw [if_neg (lt_irrefl j), if_pos (Nat.lt_succ_self j), hf]
          rfl
        · by_cases hlt : j < n
          · rw [if_pos hlt, if_pos (Nat.lt_succ_of_lt hlt)]
          · rw [if_neg hlt, if_neg (by omega)]
    | some f =>
      rw [hfn, hf]
      dsimp only
      refine ⟨hname, hvel, ?_, ?_⟩
      · intro j
        by_cases hj : j = n
        · subst hj
          rw [List.getElem?_set_self', List.getD_eq_getElem?_getD, hpn,
            if_pos (Nat.lt_succ_self j), hf]
          cases joint_state.position[j]? <;> rfl
        · rw [List.getElem?_set_ne (Ne.symm hj), hpos j]
          by_cases hlt : j < n
          · rw [if_pos hlt, if_pos (Nat.lt_succ_of_lt hlt)]
          · rw [if_neg hlt, if_neg (by omega)]
      · intro j
        by_cases hj : j = n
        · subst hj
          rw [List.getElem?_set_self', hfn, hf, List.getD_eq_getElem?_getD, hpn,
            if_pos (Nat.lt_succ_self j), ← List.getD_eq_getElem?_getD]
          rfl
        · rw [List.getElem?_set_ne (Ne.symm hj), hfil j]
          by_cases hlt : j < n
          · rw [if_pos hlt, if_pos (Nat.lt_succ_of_lt hlt)]
          · rw [if_neg hlt, if_neg (by omega)]

/-- The filters and the positions after `lowPassFilterPositions`, for as many filters as
positions: filter `i` is called once, on position `i`. -/
theorem lowPassFilterPositions_eq (c : Collaborators) (filters : List LowPassFilter)
    (joint_state : JointState) (h : filters.length = joint_state.position.length) :
    (lowPassFilterPositions c filters joint_state).2 =
      List.zipWith (fun f x => (c.filter f x).2) filters joint_state.position ∧
    (lowPassFilterPositions c filters joint_state).1.position =
      List.zipWith (fun f x => (c.filter f x).1) filters joint_state.position := by
  have hl := lowPassFilterPositions_loop c filters joint_state filters.length
  dsimp only at hl
  unfold lowPassFilterPositions
  constructor
  · apply List.ext_getElem?
    intro j
    rw [hl.2.2.2 j, List.getElem?_zipWith]
    by_cases hj : j < filters.length
    · rw [if_pos hj, List.getD_eq_getElem?_getD, List.getElem?_eq_getElem hj,
        List.getElem?_eq_getElem (h ▸ hj)]
      rfl
    · rw [if_neg hj, List.getElem?_eq_none (by omega)]
  · apply List.ext_getElem?
    intro j
    rw [hl.2.2.1 j, List.getElem?_zipWith]
    by_cases hj : j < filters.length
    · rw [if_pos hj, List.getElem?_eq_getElem hj, List.getElem?_eq_getElem (h ▸ hj)]
    · rw [if_neg hj, List.getElem?_eq_none (by omega : filters.length ≤ j),
        List.getElem?_eq_none (by omega : joint_state.position.length ≤ j)]
theorem convert_position_filters (c : Collaborators) (s : JogCalcs) :
    (convertDeltasToOutgoingCmd c s).2.position_filters_ =
      (lowPassFilterPositions c s.position_filters_
        (addJointIncrements s.original_joint_state_ s.delta_theta_).2).2 ∧
    (convertDeltasToOutgoingCmd c s).2.internal_joint_state_.position =
      (lowPassFilterPositions c s.position_filters_
        (addJointIncrements s.original_joint_state_ s.delta_theta_).2).1.position := by
  simp only [convertDeltasToOutgoingCmd, addJointIncrements, calculateJointVelocities,
    Bool.not_true, Bool.false_eq_true, if_false]
  constructor <;> split <;> split <;> rfl

/-- A copy of a waypoint with its own `time_from_start` is the waypoint. -/
theorem point_with_own_time (point : JointTrajectoryPoint) (t : ℚ)
    (h : point.time_from_start = t) : { point with time_from_start := t } = point := by
  subst h
  rfl
theorem range_seven : (List.range (6 + 1)).reverse = [6, 5, 4, 3, 2, 1, 0] := by decide

/-- The removal loop on six rows when the read of `drift_dimensions[6]` yields false: the rows
and entries whose flag is false are kept in their order, except that row `0` is kept when all
six are flagged. -/
theorem removeDriftDimensions_past_end_false (f0 f1 f2 f3 f4 f5 : Bool)
    (r0 r1 r2 r3 r4 r5 : List ℚ) (x0 x1 x2 x3 x4 x5 : ℚ) :
    removeDriftDimensions
      { drift_dimensions := [f0, f1, f2, f3, f4, f5], drift_dimensions_past_end := false }
      [r0, r1, r2, r3, r4, r5] [x0, x1, x2, x3, x4, x5] =
    if (f0 && f1 && f2 && f3 && f4 && f5) = true then ([r0], [x0])
    else (keepUnflagged [f0, f1, f2, f3, f4, f5] [r0, r1, r2, r3, r4, r5],
      keepUnflagged [f0, f1, f2, f3, f4, f5] [x0, x1, x2, x3, x4, x5]) := by
  unfold removeDriftDimensions
  rw [show [r0, r1, r2, r3, r4, r5].length = 6 from rfl, range_seven]
  simp only [List.foldl_cons, List.foldl_nil]
  cases f0 <;> cases f1 <;> cases f2 <;> cases f3 <;> cases f4 <;> cases f5 <;>
    simp [driftDimension, removeDimension, keepUnflagged]

/-- With the read of `drift_dimensions[6]` yielding false, every call of `removeDimension` on
six rows is made with `row_to_remove < jacobian.rows()`. -/
theorem recorded_calls_past_end_false (f0 f1 f2 f3 f4 f5 : Bool)
    (r0 r1 r2 r3 r4 r5 : List ℚ) (x0 x1 x2 x3 x4 x5 : ℚ) :
    ∀ call ∈ (removeDriftDimensions_recorded
        { drift_dimensions := [f0, f1, f2, f3, f4, f5], drift_dimensions_past_end := false }
        [r0, r1, r2, r3, r4, r5] [x0, x1, x2, x3, x4, x5]).calls, call.1 < call.2 := by
  unfold removeDriftDimensions_recorded
  rw [show [r0, r1, r2, r3, r4, r5].length = 6 from rfl, range_seven]
  simp only [List.foldl_cons, List.foldl_nil]
  cases f0 <;> cases f1 <;> cases f2 <;> cases f3 <;> cases f4 <;> cases f5 <;>
    simp [driftDimension, removeDimension]
/-! ## `enforceSRDFAccelVelLimits` never enlarges an entry -/

theorem rescaleTo_abs_le (n d : ℚ) : |rescaleTo n d| ≤ |d| := by
  unfold rescaleTo fabsRelativeChangeLtOne
  split
  · rename_i h
    have h' := of_decide_eq_true h
    rw [abs_mul]
    calc |n / d| * |d| ≤ 1 * |d| := mul_le_mul_of_nonneg_right h'.2.le (abs_nonneg d)
      _ = |d| := one_mul _
  · exact le_refl _

theorem clipAcceleration_abs_le (p : ℚ) (b : VariableBounds) (a pv d : ℚ) :
    |clipAcceleration p b a pv d| ≤ |d| := by
  unfold clipAcceleration
  split
  · split
    · exact rescaleTo_abs_le _ _
    · exact le_refl _
  · exact le_refl _

theorem clipVelocity_abs_le (p : ℚ) (b : VariableBounds) (d : ℚ) :
    |clipVelocity p b d| ≤ |d| := by
  unfold clipVelocity
  split
  · split
    · exact rescaleTo_abs_le _ _
    · exact le_refl _
  · exact le_refl _

/-- Writing at index `i` a value that is not larger in magnitude than the entry it replaces
enlarges no entry. -/
theorem abs_getD_set_le (l : List ℚ) (i k : ℕ) (v : ℚ) (h : |v| ≤ |l.getD i 0|) :
    |(l.set i v).getD k 0| ≤ |l.getD k 0| := by
  by_cases hk : i = k
  · subst hk
    by_cases hi : i < l.length
    · rw [getD_set_self _ _ _ hi]
      exact h
    · rw [List.set_eq_of_length_le (by omega)]
  · rw [List.getD_eq_getElem?_getD, List.getElem?_set_ne hk, ← List.getD_eq_getElem?_getD]

theorem loop_abs_le (p : ℚ) (prev acc : List ℚ) (joints : List VariableBounds) :
    ∀ (s : AccelVelLoop) (k : ℕ), s.velocity.length = s.delta_theta.length →
      |(joints.foldl (fun s bounds => enforceSRDFAccelVelLimits_body p prev acc bounds s)
        s).delta_theta.getD k 0| ≤ |s.delta_theta.getD k 0| ∧
      (joints.foldl (fun s bounds => enforceSRDFAccelVelLimits_body p prev acc bounds s)
        s).delta_theta.length = s.delta_theta.length := by
  induction joints with
  | nil => intro s k _; exact ⟨le_refl _, rfl⟩
  | cons b rest ih =>
    intro s k hlen
    rw [List.foldl_cons]
    have h := ih (enforceSRDFAccelVelLimits_body p prev acc b s) k
      (body_lengths p prev acc b s hlen)
    rw [body_delta_theta p prev acc b s hlen] at h
    refine ⟨le_trans h.1 (abs_getD_set_le _ _ _ _ ?_), ?_⟩
    · exact le_trans (clipVelocity_abs_le _ _ _) (clipAcceleration_abs_le _ _ _ _ _)
    · rw [h.2, List.length_set]
/-! ## The accesses of the removal loop -/

theorem recorded_loop (shared : JogArmShared) (dimensions : List ℕ) :
    ∀ acc : DriftLoopRecord,
      let r := dimensions.foldl
        (fun (acc : DriftLoopRecord) dimension =>
          let acc := { acc with reads := acc.reads ++ [dimension] }
          if driftDimension shared dimension && decide (acc.jacobian.length > 1) then
            let r := removeDimension acc.jacobian acc.delta_x dimension
            { acc with
              jacobian := r.1
              delta_x := r.2
              calls := acc.calls ++ [(dimension, acc.jacobian.length)] }
          else acc)
        acc
      r.reads = acc.reads ++ dimensions ∧
      (r.jacobian, r.delta_x) = dimensions.foldl
        (fun (acc : MatrixXd × List ℚ) dimension =>
          if driftDimension shared dimension && decide (acc.1.length > 1) then
            removeDimension acc.1 acc.2 dimension
          else acc)
        (acc.jacobian, acc.delta_x) := by
  induction dimensions with
  | nil => intro acc; simp
  | cons d rest ih =>
    intro acc
    dsimp only
    rw [List.foldl_cons, List.foldl_cons]
    dsimp only
    by_cases h : (driftDimension shared d && decide (acc.jacobian.length > 1)) = true
    · rw [if_pos h, if_pos h]
      have := ih { acc with
        reads := acc.reads ++ [d]
        jacobian := (removeDimension acc.jacobian acc.delta_x d).1
        delta_x := (removeDimension acc.jacobian acc.delta_x d).2
        calls := acc.calls ++ [(d, acc.jacobian.length)] }
      dsimp only at this
      rw [this.1, this.2]
      simp
    · rw [if_neg h, if_neg h]
      have := ih { acc with reads := acc.reads ++ [d] }
      dsimp only at this
      rw [this.1, this.2]
      simp

/-- The loop reads `drift_dimensions[dimension]` for `dimension = rows, rows - 1, …, 0`, and its
matrix and vector are those of `removeDriftDimensions`. -/
theorem recorded_reads (shared : JogArmShared) (jacobian : MatrixXd) (delta_x : List ℚ) :
    (removeDriftDimensions_recorded shared jacobian delta_x).reads =
      (List.range (jacobian.length + 1)).reverse ∧
    ((removeDriftDimensions_recorded shared jacobian delta_x).jacobian,
      (removeDriftDimensions_recorded shared jacobian delta_x).delta_x) =
      removeDriftDimensions shared jacobian delta_x := by
  have h := recorded_loop shared (List.range (jacobian.length + 1)).reverse
    { jacobian := jacobian, delta_x := delta_x, reads := [], calls := [] }
  dsimp only at h
  unfold removeDriftDimensions_recorded removeDriftDimensions
  exact ⟨by rw [h.1]; rfl, h.2⟩
/-! ## Stale commands -/

theorem updateJoints_stamp (s : JogCalcs) (sh : JogArmShared) :
    (updateJoints s sh).2.1.latest_command_stamp_ = s.latest_command_stamp_ := by
  unfold updateJoints
  split <;> rfl

theorem run_copyLatest_stamp (s : JogCalcs) :
    (run_copyLatestJointJog (run_copyLatestTwist s)).latest_command_stamp_ =
      s.latest_command_stamp_ := by
  have h1 : ∀ t : JogCalcs, (run_copyLatestJointJog t).latest_command_stamp_ =
      t.latest_command_stamp_ := by
    intro t
    unfold run_copyLatestJointJog
    split <;> rfl
  have h2 : (run_copyLatestTwist s).latest_command_stamp_ = s.latest_command_stamp_ := by
    unfold run_copyLatestTwist
    split <;> rfl
  rw [h1, h2]

theorem run_updateFromLatest_stale (c : Collaborators) (s : JogCalcs) (sh : JogArmShared) :
    (run_updateFromLatest c s sh).2.command_is_stale =
      decide (c.now - s.latest_command_stamp_ ≥ s.parameters_.incoming_command_timeout) := by
  have hp : ∀ k : RobotState, (run_copyLatestJointJog (run_copyLatestTwist
      { s with kinematic_state_ := k })).parameters_ = s.parameters_ := by
    intro k
    have hk : ({ s with kinematic_state_ := k } : JogCalcs).control = s.control := rfl
    have hc := JogCalcs.control_fields _ s
      (((run_copyLatestJointJog_frame _).2.trans (run_copyLatestTwist_frame _).2.1).trans hk)
    exact hc.2.2.2.2.1
  have hs : ∀ k : RobotState, (run_copyLatestJointJog (run_copyLatestTwist
      { s with kinematic_state_ := k })).latest_command_stamp_ = s.latest_command_stamp_ :=
    fun k => run_copyLatest_stamp { s with kinematic_state_ := k }
  unfold run_updateFromLatest
  dsimp only
  rw [hp, hs]

theorem run_prepare_stale (c : Collaborators) (s : JogCalcs) (sh : JogArmShared)
    (p : JogCalcs × JogArmShared) (h : run_prepare c s sh = some p) :
    p.2.command_is_stale =
      decide (c.now - s.latest_command_stamp_ ≥ s.parameters_.incoming_command_timeout) := by
  unfold run_prepare at h
  dsimp only at h
  split at h
  · exact absurd h (by simp)
  · have e := Option.some.inj h
    subst e
    rw [run_updateFromLatest_stale, updateJoints_stamp]
    have hc := JogCalcs.control_fields _ _ (updateJoints_control s sh)
    rw [hc.2.2.2.2.1]

theorem run_conversion_stale (c : Collaborators) (s : JogCalcs) (shared : JogArmShared)
    (h : shared.command_is_stale = true) :
    run_conversion c s shared = (true, s, shared) := by
  unfold run_conversion
  rw [h]
  simp only [Bool.not_true, Bool.false_eq_true, if_false]

/-- The statements of `run` from "If we should halt" to the end do not write `delta_theta_`,
`prev_joint_velocity_`, `status_`, the status publisher or `command_is_stale`; with a non-zero
command they publish `outgoing_command_` as it is. -/
theorem run_publish_frame (c : Collaborators) (s : JogCalcs) (shared : JogArmShared) :
    (run_publish c s shared).1.delta_theta_ = s.delta_theta_ ∧
    (run_publish c s shared).1.prev_joint_velocity_ = s.prev_joint_velocity_ ∧
    (run_publish c s shared).1.status_ = s.status_ ∧
    (run_publish c s shared).1.status_pub_ = s.status_pub_ ∧
    (run_publish c s shared).2.command_is_stale = shared.command_is_stale ∧
    (s.have_nonzero_command_ = true →
      (run_publish c s shared).1.outgoing_command_ = s.outgoing_command_ ∧
      (run_publish c s shared).1.joint_trajectory_pub_ =
        s.joint_trajectory_pub_ ++ [s.outgoing_command_] ∧
      (run_publish c s shared).2.ok_to_publish = true) := by
  unfold run_publish
  cases hc : s.have_nonzero_command_
  · simp only [hc, resetFilters, Bool.not_false, if_true, Bool.false_eq_true, if_false,
      Bool.and_self]
    by_cases hg : s.parameters_.num_outgoing_halt_msgs_to_publish ≠ 0 ∧
        s.zero_velocity_count_ > s.parameters_.num_outgoing_halt_msgs_to_publish
    · rw [if_pos hg]
      by_cases hlt : s.zero_velocity_count_ < INT_MAX
      · rw [if_pos hlt]
        exact ⟨rfl, rfl, rfl, rfl, rfl, fun h => absurd h (by simp)⟩
      · rw [if_neg hlt]
        exact ⟨rfl, rfl, rfl, rfl, rfl, fun h => absurd h (by simp)⟩
    · rw [if_neg hg]
      by_cases hlt : s.zero_velocity_count_ < INT_MAX
      · rw [if_pos hlt]
        exact ⟨rfl, rfl, rfl, rfl, rfl, fun h => absurd h (by simp)⟩
      · rw [if_neg hlt]
        exact ⟨rfl, rfl, rfl, rfl, rfl, fun h => absurd h (by simp)⟩
  · simp only [hc, Bool.not_true, Bool.false_eq_true, if_false, if_true]
    by_cases hf : (!s.have_nonzero_twist_stamped_ && !s.have_nonzero_joint_jog_) = true
    · rw [if_pos hf]
      by_cases hlt : s.zero_velocity_count_ < INT_MAX
      · rw [if_pos hlt]
        simp
      · rw [if_neg hlt]
        simp
    · rw [if_neg hf]
      simp

theorem JogCalcs.outputs_fields (a b : JogCalcs) (h : a.outputs = b.outputs) :
    a.outgoing_command_ = b.outgoing_command_ ∧
    a.delta_theta_ = b.delta_theta_ ∧
    a.prev_joint_velocity_ = b.prev_joint_velocity_ ∧
    a.status_ = b.status_ ∧
    a.status_pub_ = b.status_pub_ ∧
    a.joint_trajectory_pub_ = b.joint_trajectory_pub_ := by
  simp only [JogCalcs.outputs, Prod.mk.injEq] at h
  exact h
/-! ## Telemetry entries of joints that are not controlled -/

/-- An entry appended to the telemetry whose name is not in `joint_state_name_map_` does not
change the positions that `updateJoints` stores. -/
theorem updateJoints_positions_append (s : JogCalcs) (name : String) (position velocity : ℚ)
    (hname : s.joint_state_name_map_.lookup name = none)
    (hlen : s.incoming_joint_state_.name.length ≤ s.incoming_joint_state_.position.length) :
    updateJoints_positions
      { s with
        incoming_joint_state_ :=
          { name := s.incoming_joint_state_.name ++ [name]
            position := s.incoming_joint_state_.position ++ [position]
            velocity := s.incoming_joint_state_.velocity ++ [velocity] } } =
      updateJoints_positions s := by
  unfold updateJoints_positions
  dsimp only
  rw [List.length_append, List.length_singleton, List.range_succ, List.foldl_append,
    List.foldl_cons, List.foldl_nil]
  have hlast : (s.incoming_joint_state_.name ++ [name]).getD
      s.incoming_joint_state_.name.length "" = name := by
    simp [List.getD_eq_getElem?_getD]
  rw [hlast, hname]
  dsimp only
  apply List.foldl_ext
  intro acc m hm
  have hm' : m < s.incoming_joint_state_.name.length := List.mem_range.mp hm
  have h1 : (s.incoming_joint_state_.name ++ [name]).getD m "" =
      s.incoming_joint_state_.name.getD m "" := by
    simp [List.getD_eq_getElem?_getD, List.getElem?_append_left hm']
  have h2 : (s.incoming_joint_state_.position ++ [position]).getD m 0 =
      s.incoming_joint_state_.position.getD m 0 := by
    simp [List.getD_eq_getElem?_getD,
      List.getElem?_append_left (lt_of_lt_of_le hm' hlen)]
  rw [h1, h2]
/-! ## The list matrices and their products -/

theorem getD_map_of_lt {α β : Type} (l : List α) (f : α → β) (i : ℕ) (d : β) (d' : α)
    (h : i < l.length) : (l.map f).getD i d = f (l.getD i d') := by
  simp [List.getD_eq_getElem?_getD, List.getElem?_map, List.getElem?_eq_getElem h]

theorem getD_range_map {β : Type} (n i : ℕ) (f : ℕ → β) (d : β) (h : i < n) :
    ((List.range n).map f).getD i d = f i := by
  simp [List.getD_eq_getElem?_getD, List.getElem?_map, List.getElem?_range h]

theorem isMatrix_iff (r c : ℕ) (M : MatrixXd) :
    isMatrix r c M = true ↔ M.length = r ∧ ∀ row ∈ M, row.length = c := by
  simp [isMatrix, List.all_eq_true]

theorem isMatrix_row (r c : ℕ) (M : MatrixXd) (h : isMatrix r c M = true) (i : ℕ)
    (hi : i < r) : (M.getD i []).length = c := by
  obtain ⟨hl, hrow⟩ := (isMatrix_iff r c M).mp h
  have hi' : i < M.length := hl ▸ hi
  have : M.getD i [] = M[i] := by
    simp [List.getD_eq_getElem?_getD, List.getElem?_eq_getElem hi']
  rw [this]
  exact hrow _ (List.getElem_mem hi')

theorem dot_cons (a b : ℚ) (u v : List ℚ) : dot (a :: u) (b :: v) = a * b + dot u v := by
  simp [dot]

theorem dot_eq_sum (k : ℕ) : ∀ (u v : List ℚ), u.length = k → v.length = k →
    dot u v = ∑ i : Fin k, u.getD i 0 * v.getD i 0 := by
  induction k with
  | zero =>
    intro u v hu hv
    rw [List.length_eq_zero] at hu hv
    subst hu hv
    simp [dot]
  | succ k ih =>
    intro u v hu hv
    cases u with
    | nil => simp at hu
    | cons a u =>
      cases v with
      | nil => simp at hv
      | cons b v =>
        rw [dot_cons, Fin.sum_univ_succ, ih u v (by simpa using hu) (by simpa using hv)]
        simp

theorem toVector_ext (n : ℕ) (v w : List ℚ) (hv : v.length = n) (hw : w.length = n)
    (h : toVector n v = toVector n w) : v = w := by
  apply List.ext_getElem?
  intro i
  by_cases hi : i < n
  · have := congrFun h ⟨i, hi⟩
    simp only [toVector, List.getD_eq_getElem?_getD, List.getElem?_eq_getElem (hv ▸ hi),
      List.getElem?_eq_getElem (hw ▸ hi), Option.getD_some] at this
    rw [List.getElem?_eq_getElem (hv ▸ hi), List.getElem?_eq_getElem (hw ▸ hi), this]
  · rw [List.getElem?_eq_none (by omega), List.getElem?_eq_none (by omega)]

theorem mulVec_length (M : MatrixXd) (v : List ℚ) : (mulVec M v).length = M.length := by
  simp [mulVec]

theorem toVector_mulVec (r c : ℕ) (M : MatrixXd) (v : List ℚ) (hM : isMatrix r c M = true)
    (hv : v.length = c) :
    toVector r (mulVec M v) = Matrix.mulVec (toMatrix r c M) (toVector c v) := by
  funext i
  have hl := ((isMatrix_iff r c M).mp hM).1
  simp only [toVector, mulVec, Matrix.mulVec, Matrix.dotProduct, toMatrix]
  rw [getD_map_of_lt M (fun row => dot row v) i 0 [] (hl ▸ i.isLt),
    dot_eq_sum c _ _ (isMatrix_row r c M hM i i.isLt) hv]

theorem transpose_isMatrix (r c : ℕ) (M : MatrixXd) (hM : isMatrix r c M = true) (hr : 0 < r) :
    isMatrix c r (transpose M) = true ∧
    toMatrix c r (transpose M) = Matrix.transpose (toMatrix r c M) := by
  obtain ⟨hl, hrow⟩ := (isMatrix_iff r c M).mp hM
  have hhead : (M.headD []).length = c := by
    cases M with
    | nil => simp at hl; omega
    | cons row0 rest => exact hrow row0 (List.mem_cons_self _ _)
  constructor
  · rw [isMatrix_iff]
    unfold transpose
    rw [hhead]
    refine ⟨by simp, ?_⟩
    intro row hmem
    rw [List.mem_map] at hmem
    obtain ⟨j, _, rfl⟩ := hmem
    simp [col, hl]
  · funext i j
    simp only [toMatrix, Matrix.transpose_apply]
    unfold transpose
    rw [hhead, getD_range_map c i _ [] i.isLt]
    unfold col
    rw [getD_map_of_lt M (fun row => row.getD i 0) j 0 [] (hl ▸ j.isLt)]

theorem mulMat_isMatrix (r k c : ℕ) (A B : MatrixXd) (hA : isMatrix r k A = true)
    (hB : isMatrix k c B = true) (hk : 0 < k) :
    isMatrix r c (mulMat A B) = true ∧
    toMatrix r c (mulMat A B) = toMatrix r k A * toMatrix k c B := by
  obtain ⟨hlA, _⟩ := (isMatrix_iff r k A).mp hA
  obtain ⟨hT, hTm⟩ := transpose_isMatrix k c B hB hk
  obtain ⟨hlT, _⟩ := (isMatrix_iff c k (transpose B)).mp hT
  constructor
  · rw [isMatrix_iff]
    unfold mulMat
    refine ⟨by simp [hlA], ?_⟩
    intro row hmem
    rw [List.mem_map] at hmem
    obtain ⟨a, _, rfl⟩ := hmem
    simp [hlT]
  · funext i j
    rw [Matrix.mul_apply]
    simp only [toMatrix]
    unfold mulMat
    rw [getD_map_of_lt A _ i [] [] (hlA ▸ i.isLt),
      getD_map_of_lt (transpose B) _ j 0 [] (hlT ▸ j.isLt),
      dot_eq_sum k _ _ (isMatrix_row r k A hA i i.isLt) (isMatrix_row c k _ hT j j.isLt)]
    apply Finset.sum_congr rfl
    intro l _
    have := congrFun (congrFun hTm j) l
    simp only [toMatrix, Matrix.transpose_apply] at this
    rw [this]

theorem asDiagonal_isMatrix (m : ℕ) (v : List ℚ) (hv : v.length = m) :
    isMatrix m m (asDiagonal v) = true ∧
    toMatrix m m (asDiagonal v) = Matrix.diagonal (toVector m v) := by
  constructor
  · rw [isMatrix_iff]
    unfold asDiagonal
    rw [hv]
    refine ⟨by simp, ?_⟩
    intro row hmem
    rw [List.mem_map] at hmem
    obtain ⟨j, _, rfl⟩ := hmem
    simp
  · funext i j
    simp only [toMatrix, Matrix.diagonal_apply, toVector]
    unfold asDiagonal
    rw [hv, getD_range_map m i _ [] i.isLt, getD_range_map m j _ 0 j.isLt]
    by_cases h : i = j
    · rw [if_pos h, if_pos (congrArg Fin.val h)]
    · rw [if_neg h, if_neg (fun h' => h (Fin.ext h'))]

theorem diagonalInverse_isMatrix (m : ℕ) (v : List ℚ) (hv : v.length = m) :
    isMatrix m m (diagonalInverse v) = true ∧
    toMatrix m m (diagonalInverse v) = Matrix.diagonal (fun i => 1 / toVector m v i) := by
  constructor
  · rw [isMatrix_iff]
    unfold diagonalInverse
    rw [hv]
    refine ⟨by simp, ?_⟩
    intro row hmem
    rw [List.mem_map] at hmem
    obtain ⟨j, _, rfl⟩ := hmem
    simp
  · funext i j
    simp only [toMatrix, Matrix.diagonal_apply, toVector]
    unfold diagonalInverse
    rw [hv, getD_range_map m i _ [] i.isLt, getD_range_map m j _ 0 j.isLt]
    by_cases h : i = j
    · rw [if_pos h, if_pos (congrArg Fin.val h)]
    · rw [if_neg h, if_neg (fun h' => h (Fin.ext h'))]

theorem identityMatrix_toMatrix (m : ℕ) : toMatrix m m (identityMatrix m) = 1 := by
  unfold identityMatrix
  have h : toVector m (List.replicate m 1) = fun _ => 1 := by
    funext i
    simp [toVector, List.getD_eq_getElem?_getD, List.getElem?_replicate, i.isLt]
  rw [(asDiagonal_isMatrix m (List.replicate m 1) (by simp)).2, h, Matrix.diagonal_one]
/-- The pseudo-inverse solve for a Jacobian with at least one row. -/
theorem pseudoInverse_solves_pos (m n : ℕ) (svd : JacobiSVD) (jacobian : MatrixXd)
    (delta_x : List ℚ) (hm : 0 < m) (hmn : m ≤ n)
    (hU : isMatrix m m svd.matrixU = true) (hs : svd.singularValues.length = m)
    (hV : isMatrix n m svd.matrixV = true) (hdx : delta_x.length = m)
    (horthU : mulMat svd.matrixU (transpose svd.matrixU) = identityMatrix m)
    (horthV : mulMat (transpose svd.matrixV) svd.matrixV = identityMatrix m)
    (hnz : ∀ x ∈ svd.singularValues, x ≠ 0)
    (hJ : jacobian =
      mulMat (mulMat svd.matrixU (asDiagonal svd.singularValues)) (transpose svd.matrixV)) :
    mulVec jacobian (mulVec (pseudoInverse svd) delta_x) = delta_x := by
  have hn : 0 < n := lt_of_lt_of_le hm hmn
  obtain ⟨hUt, hUtm⟩ := transpose_isMatrix m m svd.matrixU hU hm
  obtain ⟨hVt, hVtm⟩ := transpose_isMatrix n m svd.matrixV hV hn
  obtain ⟨hD, hDm⟩ := asDiagonal_isMatrix m svd.singularValues hs
  obtain ⟨hDi, hDim⟩ := diagonalInverse_isMatrix m svd.singularValues hs
  obtain ⟨hUD, hUDm⟩ := mulMat_isMatrix m m m svd.matrixU (asDiagonal svd.singularValues)
    hU hD hm
  obtain ⟨hJi, hJm⟩ := mulMat_isMatrix m m n (mulMat svd.matrixU
    (asDiagonal svd.singularValues)) (transpose svd.matrixV) hUD hVt hm
  obtain ⟨hVDi, hVDim⟩ := mulMat_isMatrix n m m svd.matrixV
    (diagonalInverse svd.singularValues) hV hDi hm
  obtain ⟨hP, hPm⟩ := mulMat_isMatrix n m m (mulMat svd.matrixV
    (diagonalInverse svd.singularValues)) (transpose svd.matrixU) hVDi hUt hm
  have eU : toMatrix m m svd.matrixU * Matrix.transpose (toMatrix m m svd.matrixU) = 1 := by
    rw [← hUtm, ← (mulMat_isMatrix m m m svd.matrixU (transpose svd.matrixU) hU hUt hm).2,
      horthU, identityMatrix_toMatrix]
  have eV : Matrix.transpose (toMatrix n m svd.matrixV) * toMatrix n m svd.matrixV = 1 := by
    rw [← hVtm, ← (mulMat_isMatrix m n m (transpose svd.matrixV) svd.matrixV hVt hV hn).2,
      horthV, identityMatrix_toMatrix]
  have eD : Matrix.diagonal (toVector m svd.singularValues) *
      Matrix.diagonal (fun i => 1 / toVector m svd.singularValues i) = 1 := by
    have hfun : (fun i => toVector m svd.singularValues i *
        (1 / toVector m svd.singularValues i)) = fun _ => (1 : ℚ) := by
      funext i
      have hi : (i : ℕ) < svd.singularValues.length := hs ▸ i.isLt
      have hne : toVector m svd.singularValues i ≠ 0 := by
        have : toVector m svd.singularValues i = svd.singularValues[(i : ℕ)] := by
          simp [toVector, List.getD_eq_getElem?_getD, List.getElem?_eq_getElem hi]
        rw [this]
        exact hnz _ (List.getElem_mem hi)
      exact mul_one_div_cancel hne
    rw [Matrix.diagonal_mul_diagonal, hfun, Matrix.diagonal_one]
  subst hJ
  have hPl : (mulVec (pseudoInverse svd) delta_x).length = n := by
    rw [mulVec_length]
    exact ((isMatrix_iff n m _).mp hP).1
  have hJl : (mulVec (mulMat (mulMat svd.matrixU (asDiagonal svd.singularValues))
      (transpose svd.matrixV)) (mulVec (pseudoInverse svd) delta_x)).length = m := by
    rw [mulVec_length]
    exact ((isMatrix_iff m n _).mp hJi).1
  apply toVector_ext m _ _ hJl hdx
  rw [toVector_mulVec m n _ _ hJi hPl]
  unfold pseudoInverse at hPl ⊢
  rw [toVector_mulVec n m _ _ hP hdx, Matrix.mulVec_mulVec, hJm, hUDm, hPm, hVDim, hDm, hDim,
    hUtm, hVtm]
  have hprod : toMatrix m m svd.matrixU * Matrix.diagonal (toVector m svd.singularValues) *
      Matrix.transpose (toMatrix n m svd.matrixV) *
      (toMatrix n m svd.matrixV *
        Matrix.diagonal (fun i => 1 / toVector m svd.singularValues i) *
        Matrix.transpose (toMatrix m m svd.matrixU)) = 1 := by
    calc toMatrix m m svd.matrixU * Matrix.diagonal (toVector m svd.singularValues) *
          Matrix.transpose (toMatrix n m svd.matrixV) *
          (toMatrix n m svd.matrixV *
            Matrix.diagonal (fun i => 1 / toVector m svd.singularValues i) *
            Matrix.transpose (toMatrix m m svd.matrixU))
        = toMatrix m m svd.matrixU * (Matrix.diagonal (toVector m svd.singularValues) *
            ((Matrix.transpose (toMatrix n m svd.matrixV) * toMatrix n m svd.matrixV) *
              Matrix.diagonal (fun i => 1 / toVector m svd.singularValues i))) *
            Matrix.transpose (toMatrix m m svd.matrixU) := by
          simp only [Matrix.mul_assoc]
      _ = 1 := by rw [eV, Matrix.one_mul, eD, Matrix.mul_one, eU]
  rw [hprod, Matrix.one_mulVec]

/-! ## Replicated waypoints -/

/-- The function `insertRedundantPointsIntoTrajectory` on a trajectory with the single waypoint
`point`: for `count ≥ 1` and a waypoint whose `time_from_start` is `publish_period` the result
has `count` waypoints, the `k`-th being `point` at time `k * publish_period`; for `count ≤ 1`
the trajectory is unchanged. -/
theorem insertRedundantPoints_single (publish_period : ℚ) (trajectory : JointTrajectory)
    (point : JointTrajectoryPoint) (count : ℤ) (hpoints : trajectory.points = [point]) :
    (point.time_from_start = publish_period → 1 ≤ count →
      (insertRedundantPointsIntoTrajectory publish_period trajectory count).points =
        (List.range count.toNat).map (fun k =>
          { point with time_from_start := ((k : ℚ) + 1) * publish_period }) ∧
      ((insertRedundantPointsIntoTrajectory publish_period trajectory count).points.length : ℤ) =
        count ∧
      (insertRedundantPointsIntoTrajectory publish_period trajectory count).frame_id =
        trajectory.frame_id ∧
      (insertRedundantPointsIntoTrajectory publish_period trajectory count).stamp =
        trajectory.stamp ∧
      (insertRedundantPointsIntoTrajectory publish_period trajectory count).joint_names =
        trajectory.joint_names) ∧
    (count ≤ 1 →
      insertRedundantPointsIntoTrajectory publish_period trajectory count = trajectory) := by
  unfold insertRedundantPointsIntoTrajectory
  rw [hpoints]
  dsimp only
  constructor
  · intro htime hcount
    obtain ⟨n, hn⟩ : ∃ n : ℕ, count = (n : ℤ) + 1 := ⟨(count - 1).toNat, by omega⟩
    subst hn
    have h1 : ((n : ℤ) + 1 + 1 - 2).toNat = n := by omega
    have h2 : ((n : ℤ) + 1).toNat = n + 1 := by omega
    rw [h1, h2]
    have hlist : [point] ++ List.map (fun (k : ℕ) =>
          { point with time_from_start := ((k : ℚ) + 2) * publish_period }) (List.range n) =
        List.map (fun (k : ℕ) =>
          { point with time_from_start := ((k : ℚ) + 1) * publish_period })
          (List.range (n + 1)) := by
      rw [List.range_succ_eq_map, List.map_cons, List.map_map, List.singleton_append]
      congr 1
      · exact (point_with_own_time point _ (by rw [htime]; push_cast; ring)).symm
      · apply List.map_congr_left
        intro k _
        simp only [Function.comp, Nat.succ_eq_add_one, Nat.cast_add, Nat.cast_one]
        congr 1
        ring
    rw [hlist]
    refine ⟨rfl, ?_, rfl, rfl, rfl⟩
    rw [List.length_map, List.length_range]
    push_cast
    rfl
  · intro hcount
    have h1 : (count + 1 - 2).toNat = 0 := by omega
    rw [h1, List.range_zero, List.map_nil, List.append_nil, ← hpoints]


theorem suddenHalt_loop_time (parameters_ : JogArmParameters) (original_joint_state_ : JointState)
    (indices : List ℕ) :
    ∀ point0 : JointTrajectoryPoint,
      (indices.foldl
        (fun (point : JointTrajectoryPoint) i =>
          let point :=
            if parameters_.publish_joint_positions then
              { point with
                positions := point.positions.set i (original_joint_state_.position.getD i 0) }
            else point
          if parameters_.publish_joint_velocities then
            { point with velocities := point.velocities.set i 0 }
          else point)
        point0).time_from_start = point0.time_from_start := by
  induction indices with
  | nil => intro point0; rfl
  | cons i rest ih =>
    intro point0
    rw [List.foldl_cons, ih]
    dsimp only
    split <;> split <;> rfl

/-- On a trajectory with one waypoint `suddenHalt` leaves one waypoint, with the same
`time_from_start`. -/
theorem suddenHalt_single (parameters_ : JogArmParameters) (num_joints_ : ℕ)
    (original_joint_state_ : JointState) (joint_traj : JointTrajectory)
    (point : JointTrajectoryPoint) (h : joint_traj.points = [point]) :
    ∃ point', (suddenHalt parameters_ num_joints_ original_joint_state_ joint_traj).points =
        [point'] ∧ point'.time_from_start = point.time_from_start := by
  unfold suddenHalt
  rw [h]
  simp only [List.isEmpty_cons, Bool.false_eq_true, if_false]
  exact ⟨_, rfl, suddenHalt_loop_time parameters_ original_joint_state_ _ point⟩

/-- The trajectory that `convertDeltasToOutgoingCmd` hands to
`insertRedundantPointsIntoTrajectory`: the message of `composeJointTrajMessage`, after
`suddenHalt` when a position limit is violated. -/
theorem convert_outgoing_command (c : Collaborators) (s : JogCalcs) :
    ∃ joint_state : JointState,
      (convertDeltasToOutgoingCmd c s).2.outgoing_command_ =
        if s.parameters_.use_gazebo = true then
          insertRedundantPointsIntoTrajectory s.parameters_.publish_period
            (if enforceSRDFPositionLimits c s.parameters_ s.joint_model_group_
                s.kinematic_state_ s.original_joint_state_ = false then
              suddenHalt s.parameters_ s.num_joints_ s.original_joint_state_
                (composeJointTrajMessage s.parameters_ s.num_joints_ c.now joint_state)
            else composeJointTrajMessage s.parameters_ s.num_joints_ c.now joint_state)
            s.gazebo_redundant_message_count_
        else
          (if enforceSRDFPositionLimits c s.parameters_ s.joint_model_group_
              s.kinematic_state_ s.original_joint_state_ = false then
            suddenHalt s.parameters_ s.num_joints_ s.original_joint_state_
              (composeJointTrajMessage s.parameters_ s.num_joints_ c.now joint_state)
          else composeJointTrajMessage s.parameters_ s.num_joints_ c.now joint_state) := by
  refine ⟨calculateJointVelocities s.parameters_.publish_period
    (lowPassFilterPositions c s.position_filters_
      (addJointIncrements s.original_joint_state_ s.delta_theta_).2).1 s.delta_theta_, ?_⟩
  simp only [convertDeltasToOutgoingCmd, addJointIncrements, Bool.not_true, Bool.false_eq_true,
    if_false]
  cases he : enforceSRDFPositionLimits c s.parameters_ s.joint_model_group_ s.kinematic_state_
      s.original_joint_state_ <;> cases hg : s.parameters_.use_gazebo <;> simp [he, hg]

/-! ## The loop of `enforceSRDFAccelVelLimits` with rounding -/

theorem rounded_accelerationBlock (fl : ℚ → ℚ) (p : ℚ) (prev acc : List ℚ)
    (b : VariableBounds) (s : AccelVelLoop) :
    (∃ y, (enforceSRDFAccelVelLimits_rounded_accelerationBlock fl p prev acc b s).delta_theta =
      s.delta_theta.set s.joint_delta_index y) ∧
    (enforceSRDFAccelVelLimits_rounded_accelerationBlock fl p prev acc b s).velocity =
      s.velocity ∧
    (enforceSRDFAccelVelLimits_rounded_accelerationBlock fl p prev acc b s).joint_delta_index =
      s.joint_delta_index := by
  unfold enforceSRDFAccelVelLimits_rounded_accelerationBlock
  dsimp only
  split
  · split
    · split
      · exact ⟨⟨_, rfl⟩, rfl, rfl⟩
      · exact ⟨⟨_, (set_getD_self _ _).symm⟩, rfl, rfl⟩
    · exact ⟨⟨_, (set_getD_self _ _).symm⟩, rfl, rfl⟩
  · exact ⟨⟨_, (set_getD_self _ _).symm⟩, rfl, rfl⟩

theorem rounded_velocityBlock_index (fl : ℚ → ℚ) (p : ℚ) (b : VariableBounds)
    (s : AccelVelLoop) :
    (enforceSRDFAccelVelLimits_rounded_velocityBlock fl p b s).joint_delta_index =
      if b.velocity_bounded_ then s.joint_delta_index + 1 else s.joint_delta_index := by
  unfold enforceSRDFAccelVelLimits_rounded_velocityBlock
  dsimp only
  split <;> rfl

theorem rounded_velocityBlock_velocity_length (fl : ℚ → ℚ) (p : ℚ) (b : VariableBounds)
    (s : AccelVelLoop) :
    (enforceSRDFAccelVelLimits_rounded_velocityBlock fl p b s).velocity.length =
      s.velocity.length := by
  unfold enforceSRDFAccelVelLimits_rounded_velocityBlock
  dsimp only
  split
  · split
    · split <;> simp only [List.length_set]
    · simp only [List.length_set]
  · rfl

theorem rounded_velocityBlock_delta_theta (fl : ℚ → ℚ) (p : ℚ) (b : VariableBounds)
    (s : AccelVelLoop) (hlen : s.velocity.length = s.delta_theta.length)
    (hi : s.joint_delta_index < s.delta_theta.length) :
    (enforceSRDFAccelVelLimits_rounded_velocityBlock fl p b s).delta_theta =
      s.delta_theta.set s.joint_delta_index
        (clipVelocity_rounded fl p b (s.delta_theta.getD s.joint_delta_index 0)) := by
  have hv : (s.velocity.set s.joint_delta_index
      (fl (s.delta_theta.getD s.joint_delta_index 0 / p))).getD s.joint_delta_index 0 =
      fl (s.delta_theta.getD s.joint_delta_index 0 / p) :=
    getD_set_self _ _ _ (by omega)
  unfold enforceSRDFAccelVelLimits_rounded_velocityBlock clipVelocity_rounded
  dsimp only
  split
  · rw [hv]
    split
    · split
      · rfl
      · exact (set_getD_self _ _).symm
    · exact (set_getD_self _ _).symm
  · exact (set_getD_self _ _).symm

theorem rounded_velocityBlock_set (fl : ℚ → ℚ) (p : ℚ) (b : VariableBounds)
    (s : AccelVelLoop) :
    ∃ z, (enforceSRDFAccelVelLimits_rounded_velocityBlock fl p b s).delta_theta =
      s.delta_theta.set s.joint_delta_index z := by
  unfold enforceSRDFAccelVelLimits_rounded_velocityBlock
  dsimp only
  split
  · split
    · split
      · exact ⟨_, rfl⟩
      · exact ⟨_, (set_getD_self _ _).symm⟩
    · exact ⟨_, (set_getD_self _ _).symm⟩
  · exact ⟨_, (set_getD_self _ _).symm⟩

theorem rounded_body (fl : ℚ → ℚ) (p : ℚ) (prev acc : List ℚ) (b : VariableBounds)
    (s : AccelVelLoop) (hlen : s.velocity.length = s.delta_theta.length) :
    (enforceSRDFAccelVelLimits_rounded_body fl p prev acc b s).joint_delta_index =
      (if b.velocity_bounded_ then s.joint_delta_index + 1 else s.joint_delta_index) ∧
    (enforceSRDFAccelVelLimits_rounded_body fl p prev acc b s).velocity.length =
      (enforceSRDFAccelVelLimits_rounded_body fl p prev acc b s).delta_theta.length ∧
    (enforceSRDFAccelVelLimits_rounded_body fl p prev acc b s).delta_theta.length =
      s.delta_theta.length ∧
    (∀ k, k ≠ s.joint_delta_index →
      (enforceSRDFAccelVelLimits_rounded_body fl p prev acc b s).delta_theta[k]? =
        s.delta_theta[k]?) ∧
    (s.joint_delta_index < s.delta_theta.length →
      ∃ x, (enforceSRDFAccelVelLimits_rounded_body fl p prev acc b s).delta_theta[
        s.joint_delta_index]? = some (clipVelocity_rounded fl p b x)) := by
  obtain ⟨⟨y, hy⟩, hav, hai⟩ := rounded_accelerationBlock fl p prev acc b s
  have hdl : (enforceSRDFAccelVelLimits_rounded_accelerationBlock fl p prev acc b
      s).delta_theta.length = s.delta_theta.length := by
    rw [hy, List.length_set]
  have halen : (enforceSRDFAccelVelLimits_rounded_accelerationBlock fl p prev acc b
      s).velocity.length = (enforceSRDFAccelVelLimits_rounded_accelerationBlock fl p prev acc b
      s).delta_theta.length := by
    rw [hav, hdl, hlen]
  obtain ⟨z, hz⟩ := rounded_velocityBlock_set fl p b
    (enforceSRDFAccelVelLimits_rounded_accelerationBlock fl p prev acc b s)
  rw [hai] at hz
  have hbl : (enforceSRDFAccelVelLimits_rounded_body fl p prev acc b s).delta_theta.length =
      s.delta_theta.length := by
    unfold enforceSRDFAccelVelLimits_rounded_body
    rw [hz, List.length_set, hdl]
  refine ⟨?_, ?_, hbl, ?_, ?_⟩
  · unfold enforceSRDFAccelVelLimits_rounded_body
    rw [rounded_velocityBlock_index, hai]
  · rw [hbl]
    unfold enforceSRDFAccelVelLimits_rounded_body
    rw [rounded_velocityBlock_velocity_length, hav, hlen]
  · intro k hk
    unfold enforceSRDFAccelVelLimits_rounded_body
    rw [hz, List.getElem?_set_ne (Ne.symm hk), hy, List.getElem?_set_ne (Ne.symm hk)]
  · intro hi
    have hvd := rounded_velocityBlock_delta_theta fl p b
      (enforceSRDFAccelVelLimits_rounded_accelerationBlock fl p prev acc b s) halen
      (by rw [hai, hdl]; exact hi)
    rw [hai] at hvd
    refine ⟨(enforceSRDFAccelVelLimits_rounded_accelerationBlock fl p prev acc b
      s).delta_theta.getD s.joint_delta_index 0, ?_⟩
    unfold enforceSRDFAccelVelLimits_rounded_body
    rw [hvd, List.getElem?_set_self (by rw [hdl]; exact hi)]

theorem rounded_loop_below_index (fl : ℚ → ℚ) (p : ℚ) (prev acc : List ℚ)
    (joints : List VariableBounds) :
    ∀ (s : AccelVelLoop) (k : ℕ), s.velocity.length = s.delta_theta.length →
      k < s.joint_delta_index →
      (joints.foldl (fun s bounds => enforceSRDFAccelVelLimits_rounded_body fl p prev acc bounds s)
        s).delta_theta[k]? = s.delta_theta[k]? := by
  induction joints with
  | nil => intro s k _ _; rfl
  | cons b rest ih =>
    intro s k hlen hk
    obtain ⟨hidx, hl, _, hne, _⟩ := rounded_body fl p prev acc b s hlen
    rw [List.foldl_cons, ih _ k hl, hne k (by omega)]
    rw [hidx]
    split <;> omega

/-- While every joint met so far has velocity bounds, the `k`-th joint of the list addresses
the `k`-th entry after the starting index, and that entry is the result of the velocity block
of that joint. -/
theorem rounded_loop_aligned (fl : ℚ → ℚ) (p : ℚ) (prev acc : List ℚ)
    (joints : List VariableBounds) :
    ∀ (s : AccelVelLoop) (k : ℕ) (b : VariableBounds),
      s.velocity.length = s.delta_theta.length →
      joints[k]? = some b →
      (∀ j b', j ≤ k → joints[j]? = some b' → b'.velocity_bounded_ = true) →
      s.joint_delta_index + k < s.delta_theta.length →
      ∃ x, (joints.foldl
        (fun s bounds => enforceSRDFAccelVelLimits_rounded_body fl p prev acc bounds s)
        s).delta_theta[s.joint_delta_index + k]? = some (clipVelocity_rounded fl p b x) := by
  induction joints with
  | nil => intro s k b _ hb; simp at hb
  | cons b0 rest ih =>
    intro s k b hlen hb hal hk
    have hb0 : b0.velocity_bounded_ = true := hal 0 b0 (Nat.zero_le _) (by simp)
    obtain ⟨hidx, hl, hdl, hne, hat⟩ := rounded_body fl p prev acc b0 s hlen
    rw [hb0] at hidx
    simp only [if_true] at hidx
    rw [List.foldl_cons]
    cases k with
    | zero =>
      simp only [List.getElem?_cons_zero, Option.some.injEq] at hb
      subst hb
      obtain ⟨x, hx⟩ := hat (by omega)
      refine ⟨x, ?_⟩
      rw [Nat.add_zero, rounded_loop_below_index fl p prev acc rest _ _ hl
        (by rw [hidx]; omega), hx]
    | succ k =>
      obtain ⟨x, hx⟩ := ih (enforceSRDFAccelVelLimits_rounded_body fl p prev acc b0 s) k b hl
        (by simpa using hb)
        (fun j b' hj hj' => hal (j + 1) b' (by omega) (by simpa using hj'))
        (by rw [hidx, hdl]; omega)
      rw [hidx] at hx
      have e : s.joint_delta_index + 1 + k = s.joint_delta_index + (k + 1) := by omega
      rw [e] at hx
      exact ⟨x, hx⟩

theorem rounded_enforce_entry (fl : ℚ → ℚ) (p : ℚ) (prev : List ℚ)
    (joints : List VariableBounds) (dt : List ℚ) (k : ℕ) (b : VariableBounds)
    (hb : joints[k]? = some b)
    (hal : ∀ j b', j ≤ k → joints[j]? = some b' → b'.velocity_bounded_ = true)
    (hk : k < dt.length) :
    ∃ x, (enforceSRDFAccelVelLimits_rounded fl p prev joints dt)[k]? =
      some (clipVelocity_rounded fl p b x) := by
  have h := rounded_loop_aligned fl p prev
    (List.zipWith (fun v pv => fl (fl (v - pv) / p)) (dt.map (fun d => fl (d / p))) prev) joints
    { delta_theta := dt, velocity := dt.map (fun d => fl (d / p)), joint_delta_index := 0 } k b
    (by simp) hb hal (by simpa using hk)
  simp only [Nat.zero_add] at h
  exact h
/-! ## Rounding with a bounded relative error -/

theorem fl_of_nonneg (fl : ℚ → ℚ) (u : ℚ) (hfl : ∀ x, |fl x - x| ≤ u * |x|) (hu1 : u ≤ 1 / 2)
    (x : ℚ) (hx : 0 ≤ x) : 0 ≤ fl x ∧ fl x ≤ x * (1 + u) ∧ x * (1 - u) ≤ fl x := by
  have h := abs_le.mp (hfl x)
  rw [abs_of_nonneg hx] at h
  have hux : u * x ≤ 1 / 2 * x := mul_le_mul_of_nonneg_right hu1 hx
  refine ⟨by linarith, by linarith, by linarith⟩

theorem fl_of_nonpos (fl : ℚ → ℚ) (u : ℚ) (hfl : ∀ x, |fl x - x| ≤ u * |x|) (hu1 : u ≤ 1 / 2)
    (x : ℚ) (hx : x ≤ 0) : fl x ≤ 0 ∧ x * (1 + u) ≤ fl x ∧ fl x ≤ x * (1 - u) := by
  have h := abs_le.mp (hfl x)
  rw [abs_of_nonpos hx] at h
  have hux : u * (-x) ≤ 1 / 2 * (-x) := mul_le_mul_of_nonneg_right hu1 (by linarith)
  refine ⟨by linarith, by linarith, by linarith⟩

theorem one_add_pow_facts (u : ℚ) (hu0 : 0 ≤ u) (hu1 : u ≤ 1 / 2) :
    1 ≤ (1 + u) ^ 3 ∧ 1 + u ≤ (1 + u) ^ 3 ∧ (1 + u) ^ 2 ≤ (1 + u) ^ 3 ∧
    1 ≤ (1 - u) * (1 + u) ^ 3 ∧ 0 < 1 - u := by
  have h2 : 0 ≤ u ^ 2 := sq_nonneg u
  have h3 : 0 ≤ u ^ 3 := pow_nonneg hu0 3
  have h4 : 0 ≤ u ^ 4 := pow_nonneg hu0 4
  have hu2 : u ^ 2 ≤ 1 / 2 * u := by nlinarith
  have hu3 : u ^ 3 ≤ 1 / 4 * u := by nlinarith
  have hu4 : u ^ 4 ≤ 1 / 8 * u := by nlinarith
  refine ⟨by nlinarith, by nlinarith, by nlinarith, ?_, by linarith⟩
  have e : (1 - u) * (1 + u) ^ 3 = 1 + 2 * u - 2 * u ^ 3 - u ^ 4 := by ring
  rw [e]
  linarith

/-- The rescale of the velocity block to a non-negative limit `M`, for a positive entry. -/
theorem rescale_rounded_pos (fl : ℚ → ℚ) (u : ℚ) (hfl : ∀ x, |fl x - x| ≤ u * |x|)
    (hu0 : 0 ≤ u) (hu1 : u ≤ 1 / 2) (p M x : ℚ) (hp : 0 < p) (hM : 0 ≤ M) (hx : 0 < x) :
    0 ≤ (if decide (x ≠ 0 ∧ |fl (fl (M * p) / x)| < 1) then fl (fl (fl (M * p) / x) * x)
      else x) ∧
    (if decide (x ≠ 0 ∧ |fl (fl (M * p) / x)| < 1) then fl (fl (fl (M * p) / x) * x)
      else x) ≤ M * p * (1 + u) ^ 3 := by
  obtain ⟨_, _, hpow23, _, _⟩ := one_add_pow_facts u hu0 hu1
  have hMp : 0 ≤ M * p := mul_nonneg hM hp.le
  obtain ⟨hL0, hL1, _⟩ := fl_of_nonneg fl u hfl hu1 (M * p) hMp
  obtain ⟨hr0, hr1, _⟩ := fl_of_nonneg fl u hfl hu1 (fl (M * p) / x) (div_nonneg hL0 hx.le)
  have h1u : 0 ≤ 1 + u := by linarith
  have hrx : fl (fl (M * p) / x) * x ≤ fl (M * p) * (1 + u) := by
    calc fl (fl (M * p) / x) * x ≤ fl (M * p) / x * (1 + u) * x :=
          mul_le_mul_of_nonneg_right hr1 hx.le
      _ = fl (M * p) * (1 + u) := by field_simp
  have hL2 : fl (M * p) * (1 + u) ≤ M * p * (1 + u) ^ 2 := by
    calc fl (M * p) * (1 + u) ≤ M * p * (1 + u) * (1 + u) :=
          mul_le_mul_of_nonneg_right hL1 h1u
      _ = M * p * (1 + u) ^ 2 := by ring
  have hL3 : M * p * (1 + u) ^ 2 ≤ M * p * (1 + u) ^ 3 :=
    mul_le_mul_of_nonneg_left hpow23 hMp
  split
  · obtain ⟨hd0, hd1, _⟩ := fl_of_nonneg fl u hfl hu1 (fl (fl (M * p) / x) * x)
      (mul_nonneg hr0 hx.le)
    refine ⟨hd0, ?_⟩
    calc fl (fl (fl (M * p) / x) * x) ≤ fl (fl (M * p) / x) * x * (1 + u) := hd1
      _ ≤ fl (M * p) * (1 + u) * (1 + u) := mul_le_mul_of_nonneg_right hrx h1u
      _ ≤ M * p * (1 + u) ^ 2 * (1 + u) := mul_le_mul_of_nonneg_right hL2 h1u
      _ = M * p * (1 + u) ^ 3 := by ring
  · rename_i hg
    have hg' : ¬ (x ≠ 0 ∧ |fl (fl (M * p) / x)| < 1) := fun h => hg (decide_eq_true h)
    have hge : 1 ≤ fl (fl (M * p) / x) := by
      by_contra hlt
      exact hg' ⟨hx.ne', by rw [abs_of_nonneg hr0]; exact not_le.mp hlt⟩
    refine ⟨hx.le, ?_⟩
    calc x = 1 * x := (one_mul x).symm
      _ ≤ fl (fl (M * p) / x) * x := mul_le_mul_of_nonneg_right hge hx.le
      _ ≤ fl (M * p) * (1 + u) := hrx
      _ ≤ M * p * (1 + u) ^ 2 := hL2
      _ ≤ M * p * (1 + u) ^ 3 := hL3

/-- The rescale of the velocity block to a non-positive limit `m`, for a negative entry. -/
theorem rescale_rounded_neg (fl : ℚ → ℚ) (u : ℚ) (hfl : ∀ x, |fl x - x| ≤ u * |x|)
    (hu0 : 0 ≤ u) (hu1 : u ≤ 1 / 2) (p m x : ℚ) (hp : 0 < p) (hm : m ≤ 0) (hx : x < 0) :
    m * p * (1 + u) ^ 3 ≤ (if decide (x ≠ 0 ∧ |fl (fl (m * p) / x)| < 1) then
      fl (fl (fl (m * p) / x) * x) else x) ∧
    (if decide (x ≠ 0 ∧ |fl (fl (m * p) / x)| < 1) then fl (fl (fl (m * p) / x) * x)
      else x) ≤ 0 := by
  obtain ⟨_, _, hpow23, _, _⟩ := one_add_pow_facts u hu0 hu1
  have hmp : m * p ≤ 0 := mul_nonpos_of_nonpos_of_nonneg hm hp.le
  obtain ⟨hL0, hL1, _⟩ := fl_of_nonpos fl u hfl hu1 (m * p) hmp
  obtain ⟨hr0, hr1, _⟩ := fl_of_nonneg fl u hfl hu1 (fl (m * p) / x)
    (div_nonneg_of_nonpos hL0 hx.le)
  have h1u : 0 ≤ 1 + u := by linarith
  have hrx : fl (m * p) * (1 + u) ≤ fl (fl (m * p) / x) * x := by
    calc fl (m * p) * (1 + u) = fl (m * p) / x * (1 + u) * x := by
          have hxne : x ≠ 0 := hx.ne
          field_simp
      _ ≤ fl (fl (m * p) / x) * x := mul_le_mul_of_nonpos_right hr1 hx.le
  have hL2 : m * p * (1 + u) ^ 2 ≤ fl (m * p) * (1 + u) := by
    calc m * p * (1 + u) ^ 2 = m * p * (1 + u) * (1 + u) := by ring
      _ ≤ fl (m * p) * (1 + u) := mul_le_mul_of_nonneg_right hL1 h1u
  have hL3 : m * p * (1 + u) ^ 3 ≤ m * p * (1 + u) ^ 2 :=
    mul_le_mul_of_nonpos_left hpow23 hmp
  split
  · obtain ⟨hd0, hd1, _⟩ := fl_of_nonpos fl u hfl hu1 (fl (fl (m * p) / x) * x)
      (mul_nonpos_of_nonneg_of_nonpos hr0 hx.le)
    refine ⟨?_, hd0⟩
    calc m * p * (1 + u) ^ 3 = m * p * (1 + u) ^ 2 * (1 + u) := by ring
      _ ≤ fl (m * p) * (1 + u) * (1 + u) := mul_le_mul_of_nonneg_right hL2 h1u
      _ ≤ fl (fl (m * p) / x) * x * (1 + u) := mul_le_mul_of_nonneg_right hrx h1u
      _ ≤ fl (fl (fl (m * p) / x) * x) := hd1
  · rename_i hg
    have hg' : ¬ (x ≠ 0 ∧ |fl (fl (m * p) / x)| < 1) := fun h => hg (decide_eq_true h)
    have hge : 1 ≤ fl (fl (m * p) / x) := by
      by_contra hlt
      exact hg' ⟨hx.ne, by rw [abs_of_nonneg hr0]; exact not_le.mp hlt⟩
    refine ⟨?_, hx.le⟩
    calc m * p * (1 + u) ^ 3 ≤ m * p * (1 + u) ^ 2 := hL3
      _ ≤ fl (m * p) * (1 + u) := hL2
      _ ≤ fl (fl (m * p) / x) * x := hrx
      _ ≤ 1 * x := mul_le_mul_of_nonpos_right hge hx.le
      _ = x := one_mul x
/-- The entry written by the velocity block stays within the velocity bounds widened by the
factor `(1 + u) ^ 3`, for a rounding of relative error at most `u`. -/
theorem clipVelocity_rounded_within (fl : ℚ → ℚ) (u : ℚ) (hfl : ∀ x, |fl x - x| ≤ u * |x|)
    (hu0 : 0 ≤ u) (hu1 : u ≤ 1 / 2) (p : ℚ) (b : VariableBounds) (x : ℚ) (hp : 0 < p)
    (hvb : b.velocity_bounded_ = true) (hmin : b.min_velocity_ ≤ 0)
    (hmax : 0 ≤ b.max_velocity_) :
    b.min_velocity_ * (1 + u) ^ 3 ≤ clipVelocity_rounded fl p b x / p ∧
    clipVelocity_rounded fl p b x / p ≤ b.max_velocity_ * (1 + u) ^ 3 := by
  obtain ⟨hp1, _, _, hinv, h1u⟩ := one_add_pow_facts u hu0 hu1
  have hK : (0 : ℚ) ≤ (1 + u) ^ 3 := by linarith
  have hminK : b.min_velocity_ * (1 + u) ^ 3 ≤ 0 := mul_nonpos_of_nonpos_of_nonneg hmin hK
  have hmaxK : 0 ≤ b.max_velocity_ * (1 + u) ^ 3 := mul_nonneg hmax hK
  unfold clipVelocity_rounded clipLimit
  rw [if_pos hvb]
  by_cases h1 : fl (x / p) < b.min_velocity_
  · rw [if_pos h1]
    simp only []
    have hx : x < 0 := by
      by_contra hx
      push_neg at hx
      have := (fl_of_nonneg fl u hfl hu1 (x / p) (div_nonneg hx hp.le)).1
      linarith
    obtain ⟨ha, hb⟩ := rescale_rounded_neg fl u hfl hu0 hu1 p b.min_velocity_ x hp hmin hx
    constructor
    · rw [le_div_iff₀ hp]
      linarith [ha]
    · exact le_trans (div_nonpos_of_nonpos_of_nonneg hb hp.le) hmaxK
  · rw [if_neg h1]
    by_cases h2 : fl (x / p) > b.max_velocity_
    · rw [if_pos h2]
      simp only []
      have hx : 0 < x := by
        by_contra hx
        push_neg at hx
        have := (fl_of_nonpos fl u hfl hu1 (x / p) (div_nonpos_of_nonpos_of_nonneg hx hp.le)).1
        linarith
      obtain ⟨ha, hb⟩ := rescale_rounded_pos fl u hfl hu0 hu1 p b.max_velocity_ x hp hmax hx
      constructor
      · exact le_trans hminK (div_nonneg ha hp.le)
      · rw [div_le_iff₀ hp]
        linarith [hb]
    · rw [if_neg h2]
      simp only []
      push_neg at h1 h2
      rcases le_or_lt 0 x with hx | hx
      · obtain ⟨_, _, hlo⟩ := fl_of_nonneg fl u hfl hu1 (x / p) (div_nonneg hx hp.le)
        refine ⟨le_trans hminK (div_nonneg hx hp.le), ?_⟩
        have h : x / p * (1 - u) ≤ b.max_velocity_ * (1 + u) ^ 3 * (1 - u) := by
          calc x / p * (1 - u) ≤ fl (x / p) := hlo
            _ ≤ b.max_velocity_ := h2
            _ = b.max_velocity_ * 1 := (mul_one _).symm
            _ ≤ b.max_velocity_ * ((1 - u) * (1 + u) ^ 3) := mul_le_mul_of_nonneg_left hinv hmax
            _ = b.max_velocity_ * (1 + u) ^ 3 * (1 - u) := by ring
        exact le_of_mul_le_mul_right h h1u
      · obtain ⟨_, _, hhi⟩ := fl_of_nonpos fl u hfl hu1 (x / p)
          (div_nonpos_of_nonpos_of_nonneg hx.le hp.le)
        refine ⟨?_, le_trans (div_nonpos_of_nonpos_of_nonneg hx.le hp.le) hmaxK⟩
        have h : b.min_velocity_ * (1 + u) ^ 3 * (1 - u) ≤ x / p * (1 - u) := by
          calc b.min_velocity_ * (1 + u) ^ 3 * (1 - u)
              = b.min_velocity_ * ((1 - u) * (1 + u) ^ 3) := by ring
            _ ≤ b.min_velocity_ * 1 := mul_le_mul_of_nonpos_left hinv hmin
            _ = b.min_velocity_ := mul_one _
            _ ≤ fl (x / p) := h1
            _ ≤ x / p * (1 - u) := hhi
        exact le_of_mul_le_mul_right h h1u

/-! ## Rounding to a double -/

theorem roundNearestEven_error (y : ℚ) : |(roundNearestEven y : ℚ) - y| ≤ 1 / 2 := by
  have h1 := Int.floor_le y
  have h2 := Int.lt_floor_add_one y
  unfold roundNearestEven
  rw [abs_le]
  split
  · constructor <;> linarith
  · split
    · push_cast
      constructor <;> linarith
    · split
      · constructor <;> linarith
      · push_cast
        constructor <;> linarith

/-- The relative error of `roundToDouble` is at most `2 ^ (-53)`. -/
theorem roundToDouble_error (x : ℚ) : |roundToDouble x - x| ≤ 2 ^ (-53 : ℤ) * |x| := by
  unfold roundToDouble
  split
  · rename_i h
    rw [h]
    simp
  · rename_i h
    have hpos : (0 : ℚ) < |x| := abs_pos.mpr h
    have hlog : (2 : ℚ) ^ Int.log 2 |x| ≤ |x| := by
      have := Int.zpow_log_le_self (by norm_num : 1 < 2) hpos
      exact_mod_cast this
    have hs : (0 : ℚ) < 2 ^ (Int.log 2 |x| - 52) := zpow_pos (by norm_num) _
    have hr := roundNearestEven_error (x / 2 ^ (Int.log 2 |x| - 52))
    have e1 : (roundNearestEven (x / 2 ^ (Int.log 2 |x| - 52)) : ℚ) * 2 ^ (Int.log 2 |x| - 52) - x
        = ((roundNearestEven (x / 2 ^ (Int.log 2 |x| - 52)) : ℚ) - x / 2 ^ (Int.log 2 |x| - 52))
          * 2 ^ (Int.log 2 |x| - 52) := by
      field_simp
    rw [e1, abs_mul, abs_of_pos hs]
    have e2 : (2 : ℚ) ^ (Int.log 2 |x| - 52) = 2 * (2 ^ (-53 : ℤ) * 2 ^ Int.log 2 |x|) := by
      rw [zpow_sub₀ (by norm_num : (2 : ℚ) ≠ 0), zpow_neg]
      have : (2 : ℚ) ^ (53 : ℤ) = 2 * 2 ^ (52 : ℤ) := by norm_num
      rw [this]
      field_simp
      ring
    calc |(roundNearestEven (x / 2 ^ (Int.log 2 |x| - 52)) : ℚ) - x / 2 ^ (Int.log 2 |x| - 52)|
          * 2 ^ (Int.log 2 |x| - 52)
        ≤ 1 / 2 * 2 ^ (Int.log 2 |x| - 52) := mul_le_mul_of_nonneg_right hr hs.le
      _ = 2 ^ (-53 : ℤ) * 2 ^ Int.log 2 |x| := by rw [e2]; ring
      _ ≤ 2 ^ (-53 : ℤ) * |x| := mul_le_mul_of_nonneg_left hlog (by positivity)

/-- With the identity as rounding, the rounded loop is `enforceSRDFAccelVelLimits`. -/
theorem enforceSRDFAccelVelLimits_rounded_id (p : ℚ) (prev : List ℚ)
    (joints : List VariableBounds) (dt : List ℚ) :
    enforceSRDFAccelVelLimits_rounded id p prev joints dt =
      enforceSRDFAccelVelLimits p prev joints dt := rfl

/-! ## Claims on `enforceSRDFAccelVelLimits` -/

/-- C2 (counterexample): one joint with velocity bounds `[-3, 3]` and no acceleration bound,
period `1`, increment `187`, every operation rounded to a double.  The velocity `187` is above
the bound, `relative_change` is the double nearest to `3 / 187`, and the product
`relative_change * 187` rounds to `3 + 2 ^ (-51)` (printed `3.0000000000000004`): the
resulting velocity is above `max_velocity`.  With exact arithmetic the same input gives `3`. -/
theorem velocity_clip_exceeds_bound_in_doubles :
    enforceSRDFAccelVelLimits_rounded roundToDouble 1 [0]
      [{ min_velocity_ := -3, max_velocity_ := 3, velocity_bounded_ := true,
         min_acceleration_ := 0, max_acceleration_ := 0, acceleration_bounded_ := false }]
      [187] = [3 + 2 ^ (-51 : ℤ)] ∧
    (3 : ℚ) < (3 + 2 ^ (-51 : ℤ)) / 1 ∧
    enforceSRDFAccelVelLimits 1 [0]
      [{ min_velocity_ := -3, max_velocity_ := 3, velocity_bounded_ := true,
         min_acceleration_ := 0, max_acceleration_ := 0, acceleration_bounded_ := false }]
      [187] = [3] := by
  decide!

/-- C2 (amended): let every operation of `enforceSRDFAccelVelLimits` be rounded by a function
`fl` of relative error at most `u`, with `0 ≤ u ≤ 1/2` (`u = 0` is exact arithmetic, and
`u = 2 ^ (-53)` is rounding to a double while no result overflows or underflows).  With a
positive period, when every active joint has velocity bounds with
`min_velocity ≤ 0 ≤ max_velocity` and `delta_theta` has one entry per joint, every joint `i`
has an entry in the result and that entry `v` satisfies
`min_velocity_i * (1 + u) ^ 3 ≤ v / period ≤ max_velocity_i * (1 + u) ^ 3`, whatever the input
increments and the previous-velocity baseline are. -/
theorem velocity_clip_within_rounded_bounds (fl : ℚ → ℚ) (u : ℚ) (p : ℚ) (prev : List ℚ)
    (joints : List VariableBounds) (dt : List ℚ) (i : ℕ) (b : VariableBounds)
    (hu0 : 0 ≤ u) (hu1 : u ≤ 1 / 2)
    (hfl : ∀ x, |fl x - x| ≤ u * |x|)
    (hp : 0 < p)
    (hj : ∀ b' ∈ joints, b'.velocity_bounded_ = true ∧ b'.min_velocity_ ≤ 0 ∧
      0 ≤ b'.max_velocity_)
    (hlen : dt.length = joints.length)
    (hb : joints[i]? = some b) :
    ∃ v, (enforceSRDFAccelVelLimits_rounded fl p prev joints dt)[i]? = some v ∧
      b.min_velocity_ * (1 + u) ^ 3 ≤ v / p ∧ v / p ≤ b.max_velocity_ * (1 + u) ^ 3 := by
  have hi : i < dt.length := by
    rw [hlen]
    exact (List.getElem?_eq_some_iff.mp hb).1
  have hal : ∀ j b', j ≤ i → joints[j]? = some b' → b'.velocity_bounded_ = true :=
    fun j b' _ hb' => (hj b' (List.getElem?_mem hb')).1
  obtain ⟨hvb, hmin, hmax⟩ := hj b (List.getElem?_mem hb)
  obtain ⟨x, hx⟩ := rounded_enforce_entry fl p prev joints dt i b hb hal hi
  exact ⟨_, hx, clipVelocity_rounded_within fl u hfl hu0 hu1 p b x hp hvb hmin hmax⟩

/-- Witness for C2: rounding to a double (`u = 2 ^ (-53)`), two joints with velocity bounds
`[-1, 1]` and `[-3, 3]`, period `1`, increments `[5, 187]`, second joint of the list. -/
theorem velocity_clip_within_rounded_bounds_witness :
    ∃ v, (enforceSRDFAccelVelLimits_rounded roundToDouble 1 [0, 0]
      [{ min_velocity_ := -1, max_velocity_ := 1, velocity_bounded_ := true,
         min_acceleration_ := -1, max_acceleration_ := 1, acceleration_bounded_ := true },
       { min_velocity_ := -3, max_velocity_ := 3, velocity_bounded_ := true,
         min_acceleration_ := 0, max_acceleration_ := 0, acceleration_bounded_ := false }]
      [5, 187])[1]? = some v ∧
      (-3 : ℚ) * (1 + 2 ^ (-53 : ℤ)) ^ 3 ≤ v / 1 ∧ v / 1 ≤ 3 * (1 + 2 ^ (-53 : ℤ)) ^ 3 :=
  velocity_clip_within_rounded_bounds roundToDouble (2 ^ (-53 : ℤ)) 1 [0, 0]
    [{ min_velocity_ := -1, max_velocity_ := 1, velocity_bounded_ := true,
       min_acceleration_ := -1, max_acceleration_ := 1, acceleration_bounded_ := true },
     { min_velocity_ := -3, max_velocity_ := 3, velocity_bounded_ := true,
       min_acceleration_ := 0, max_acceleration_ := 0, acceleration_bounded_ := false }]
    [5, 187] 1 _ (by positivity) (by norm_num) roundToDouble_error (by norm_num)
    (by
      intro b' hb'
      simp only [List.mem_cons, List.mem_singleton, List.not_mem_nil, or_false] at hb'
      rcases hb' with rfl | rfl <;> norm_num)
    rfl rfl

/-- C3 (the code at the failing input): active joints `[j0, j1]`, where `j0` has neither an
acceleration nor a velocity bound and `j1` has velocity bounds `[-1, 1]`; period `1`,
increments `[5, 7]`.  Because `joint_delta_index` is only advanced inside the velocity block,
`j1` is applied to entry `0`: the entry of the unbounded joint `j0` is changed from `5` to `1`
and the entry of `j1` keeps the velocity `7`, outside its bounds. -/
theorem unbounded_joint_entry_is_clipped :
    enforceSRDFAccelVelLimits 1 [0, 0]
      [{ min_velocity_ := 0, max_velocity_ := 0, velocity_bounded_ := false,
         min_acceleration_ := 0, max_acceleration_ := 0, acceleration_bounded_ := false },
       { min_velocity_ := -1, max_velocity_ := 1, velocity_bounded_ := true,
         min_acceleration_ := 0, max_acceleration_ := 0, acceleration_bounded_ := false }]
      [5, 7] = [1, 7] := by
  norm_num [enforceSRDFAccelVelLimits, enforceSRDFAccelVelLimits_body,
    enforceSRDFAccelVelLimits_accelerationBlock, enforceSRDFAccelVelLimits_velocityBlock,
    clipLimit, fabsRelativeChangeLtOne, abs_lt]

/-- C4 (the code at the failing input): active joints `[j0, j1]`, where `j0` has no bounds and
`j1` has only acceleration bounds `[-1, 1]`; period `1`, previous velocities `[0, 0]`,
increments `[4, 1/2]`.  The acceleration implied for `j1`, `1/2`, lies within its bounds and
`j0` has no bounds, so every joint is inside its bounds; yet the result differs from the input,
because the bounds of `j1` are applied to entry `0`. -/
theorem in_bounds_input_is_changed :
    (-1 : ℚ) ≤ impliedAcceleration 1 0 (1 / 2) ∧ impliedAcceleration 1 0 (1 / 2) ≤ 1 ∧
    enforceSRDFAccelVelLimits 1 [0, 0]
      [{ min_velocity_ := 0, max_velocity_ := 0, velocity_bounded_ := false,
         min_acceleration_ := 0, max_acceleration_ := 0, acceleration_bounded_ := false },
       { min_velocity_ := 0, max_velocity_ := 0, velocity_bounded_ := false,
         min_acceleration_ := -1, max_acceleration_ := 1, acceleration_bounded_ := true }]
      [4, 1 / 2] = [1, 1 / 2] := by
  refine ⟨?_, ?_, ?_⟩
  · norm_num [impliedAcceleration]
  · norm_num [impliedAcceleration]
  · norm_num [enforceSRDFAccelVelLimits, enforceSRDFAccelVelLimits_body,
      enforceSRDFAccelVelLimits_accelerationBlock, enforceSRDFAccelVelLimits_velocityBlock,
      clipLimit, fabsRelativeChangeLtOne, abs_lt]

/-! ## Claims on `velocityScalingFactorForSingularity` and `applyVelocityScaling` -/

/-- C5 (singularity scale).  For thresholds `lower ≤ hard_stop`, let `d` be the dot product of
the sign-checked singular vector with the commanded displacement and let the quotient of the
largest by the smallest singular value of the decomposition passed in be the finite number
`c`.  `velocityScalingFactorForSingularity` returns `1` and leaves the status when `d ≤ 0`;
when `d > 0` it returns `1` (status left) for `c ≤ lower`, returns
`1 - (c - lower) / (hard_stop - lower)` with status `DECELERATE_FOR_SINGULARITY` for
`lower < c < hard_stop` (exactly `1/2` when `c` is midway), and returns `0` with status
`HALT_FOR_SINGULARITY` for `c > hard_stop`. -/
theorem singularity_scale_cases (jacobiSVD : MatrixXd → JacobiSVD) (lower hard_stop : ℚ)
    (ks : RobotState) (st : StatusCode) (cv : List ℚ) (svd : JacobiSVD)
    (jacobian pinv : MatrixXd) (c : ℚ) (hth : lower ≤ hard_stop) :
    (dot (singularityVector jacobiSVD svd jacobian) cv ≤ 0 →
      (velocityScalingFactorForSingularity jacobiSVD lower hard_stop ks st cv svd jacobian
        pinv).1 = 1 ∧
      (velocityScalingFactorForSingularity jacobiSVD lower hard_stop ks st cv svd jacobian
        pinv).2.1 = st) ∧
    (conditionNumber svd = DoubleQuotient.finite c →
      0 < dot (singularityVector jacobiSVD svd jacobian) cv →
      c ≤ lower →
      (velocityScalingFactorForSingularity jacobiSVD lower hard_stop ks st cv svd jacobian
        pinv).1 = 1 ∧
      (velocityScalingFactorForSingularity jacobiSVD lower hard_stop ks st cv svd jacobian
        pinv).2.1 = st) ∧
    (conditionNumber svd = DoubleQuotient.finite c →
      0 < dot (singularityVector jacobiSVD svd jacobian) cv →
      lower < c → c < hard_stop →
      (velocityScalingFactorForSingularity jacobiSVD lower hard_stop ks st cv svd jacobian
        pinv).1 = 1 - (c - lower) / (hard_stop - lower) ∧
      (velocityScalingFactorForSingularity jacobiSVD lower hard_stop ks st cv svd jacobian
        pinv).2.1 = StatusCode.DECELERATE_FOR_SINGULARITY) ∧
    (conditionNumber svd = DoubleQuotient.finite c →
      0 < dot (singularityVector jacobiSVD svd jacobian) cv →
      lower < c → c < hard_stop → c = (lower + hard_stop) / 2 →
      (velocityScalingFactorForSingularity jacobiSVD lower hard_stop ks st cv svd jacobian
        pinv).1 = 1 / 2) ∧
    (conditionNumber svd = DoubleQuotient.finite c →
      0 < dot (singularityVector jacobiSVD svd jacobian) cv →
      hard_stop < c →
      (velocityScalingFactorForSingularity jacobiSVD lower hard_stop ks st cv svd jacobian
        pinv).1 = 0 ∧
      (velocityScalingFactorForSingularity jacobiSVD lower hard_stop ks st cv svd jacobian
        pinv).2.1 = StatusCode.HALT_FOR_SINGULARITY) := by
  have h := singularityScale_branches jacobiSVD lower hard_stop ks st cv svd jacobian pinv c
  exact ⟨h.1, fun hc hd h1 => h.2.1 hc hd h1 (le_trans h1 hth), h.2.2.1, h.2.2.2.1,
    h.2.2.2.2⟩

/-- Witness for C5: thresholds `2 ≤ 6`, commanded displacement `(0, -1)` with positive dot
product.  For the Jacobian `diag(4, 1)`, condition number `4` midway between the thresholds,
the scale is `1/2`; for `diag(2, 1)`, condition number `2 ≤ lower`, it is `1`; for
`diag(7, 1)`, condition number `7` past the hard stop, it is `0`. -/
theorem singularity_scale_cases_witness :
    (velocityScalingFactorForSingularity diagonalSVD 2 6
      { positions := [0, 0], velocities := [0, 0] } StatusCode.NO_WARNING [0, -1]
      (diagonalSVD [[4, 0], [0, 1]]) [[4, 0], [0, 1]] [[1 / 4, 0], [0, 1]]).1 = 1 / 2 ∧
    (velocityScalingFactorForSingularity diagonalSVD 2 6
      { positions := [0, 0], velocities := [0, 0] } StatusCode.NO_WARNING [0, -1]
      (diagonalSVD [[2, 0], [0, 1]]) [[2, 0], [0, 1]] [[1 / 2, 0], [0, 1]]).1 = 1 ∧
    (velocityScalingFactorForSingularity diagonalSVD 2 6
      { positions := [0, 0], velocities := [0, 0] } StatusCode.NO_WARNING [0, -1]
      (diagonalSVD [[7, 0], [0, 1]]) [[7, 0], [0, 1]] [[1 / 7, 0], [0, 1]]).1 = 0 :=
  ⟨(singularity_scale_cases diagonalSVD 2 6 { positions := [0, 0], velocities := [0, 0] }
      StatusCode.NO_WARNING [0, -1] (diagonalSVD [[4, 0], [0, 1]]) [[4, 0], [0, 1]]
      [[1 / 4, 0], [0, 1]] 4 (by norm_num)).2.2.2.1 (by decide!) (by decide!) (by decide!)
      (by decide!) (by decide!),
    ((singularity_scale_cases diagonalSVD 2 6 { positions := [0, 0], velocities := [0, 0] }
      StatusCode.NO_WARNING [0, -1] (diagonalSVD [[2, 0], [0, 1]]) [[2, 0], [0, 1]]
      [[1 / 2, 0], [0, 1]] 2 (by norm_num)).2.1 (by decide!) (by decide!) (by decide!)).1,
    ((singularity_scale_cases diagonalSVD 2 6 { positions := [0, 0], velocities := [0, 0] }
      StatusCode.NO_WARNING [0, -1] (diagonalSVD [[7, 0], [0, 1]]) [[7, 0], [0, 1]]
      [[1 / 7, 0], [0, 1]] 7 (by norm_num)).2.2.2.2 (by decide!) (by decide!)
      (by decide!)).1⟩

/-- C6 (the code at the failing input): current Jacobian `diag(4, 1)` (condition number `4`),
thresholds `2` and `3`, commanded displacement `(0, -1)`.  For a kinematics provider whose
Jacobian at the perturbed configuration is `diag(4, 2)` (condition number `2`, smaller) the
rule of the claim does not negate the vector and gives the scale `1`; for a provider whose
Jacobian there is `diag(4, 1/2)` (condition number `8`) it negates the vector and gives the
scale `0`.  The code never asks the provider: it decomposes the unchanged argument `jacobian`
again, finds `4 ≥ 4`, negates the vector and returns `0` with `HALT_FOR_SINGULARITY`. -/
theorem look_ahead_ignores_perturbed_jacobian :
    conditionNumber (diagonalSVD [[4, 0], [0, 1 + 100 * (1 / 100)]]) = DoubleQuotient.finite 2 ∧
    conditionNumber (diagonalSVD [[4, 0], [0, 1 - 50 * (1 / 100)]]) = DoubleQuotient.finite 8 ∧
    conditionNumber (diagonalSVD [[4, 0], [0, 1]]) = DoubleQuotient.finite 4 ∧
    velocityScalingFactorForSingularity_spec diagonalSVD
      (fun ks => [[4, 0], [0, 1 + 100 * ks.positions.getD 1 0]]) 2 3
      { positions := [0, 0], velocities := [0, 0] } StatusCode.NO_WARNING [0, -1]
      (diagonalSVD [[4, 0], [0, 1]]) [[4, 0], [0, 1]] [[1 / 4, 0], [0, 1]] =
      (1, StatusCode.NO_WARNING, { positions := [0, 0], velocities := [0, 0] }) ∧
    velocityScalingFactorForSingularity_spec diagonalSVD
      (fun ks => [[4, 0], [0, 1 - 50 * ks.positions.getD 1 0]]) 2 3
      { positions := [0, 0], velocities := [0, 0] } StatusCode.NO_WARNING [0, -1]
      (diagonalSVD [[4, 0], [0, 1]]) [[4, 0], [0, 1]] [[1 / 4, 0], [0, 1]] =
      (0, StatusCode.HALT_FOR_SINGULARITY, { positions := [0, 0], velocities := [0, 0] }) ∧
    velocityScalingFactorForSingularity diagonalSVD 2 3
      { positions := [0, 0], velocities := [0, 0] } StatusCode.NO_WARNING [0, -1]
      (diagonalSVD [[4, 0], [0, 1]]) [[4, 0], [0, 1]] [[1 / 4, 0], [0, 1]] =
      (0, StatusCode.HALT_FOR_SINGULARITY,
        { positions := [0, 1 / 100], velocities := [0, 0] }) := by
  decide!

/-- C7 (the code at the failing inputs).  First, the function alone: joint-group positions
`(1, 2)`, Jacobian `diag(2, 1)` with pseudo-inverse `diag(1/2, 1)`; after
`velocityScalingFactorForSingularity` the kinematic state holds the perturbed positions
`(1, 2 + 1/100)`, not the positions held before the call.  Then a Cartesian conversion of the
six-joint arm (Jacobian `diag(1, 1, 1, 1, 1/10, 1/10)`, command `linear.x = 1/2`, position
limits `[-1, 1]`, margin `1/10`) in which the last solved joint stands at `-19/20` and moves
with velocity `-1`: on the configuration held before the call `enforceSRDFPositionLimits` is
false (halt), but the look-ahead has moved that joint to `-17/20`, the check made by the
conversion passes and the command is not halted.  The last solved joint is joint 6 when the
read of `drift_dimensions` past its end yields `false`, joint 5 when it yields `true`. -/
theorem look_ahead_leaves_perturbed_positions :
    ((velocityScalingFactorForSingularity diagonalSVD 10 20
        { positions := [1, 2], velocities := [0, 0] } StatusCode.NO_WARNING [1, 0]
        (diagonalSVD [[2, 0], [0, 1]]) [[2, 0], [0, 1]] [[1 / 2, 0], [0, 1]]).2.2.positions
        = [1, 2 + 1 / 100] ∧
      (velocityScalingFactorForSingularity diagonalSVD 10 20
        { positions := [1, 2], velocities := [0, 0] } StatusCode.NO_WARNING [1, 0]
        (diagonalSVD [[2, 0], [0, 1]]) [[2, 0], [0, 1]] [[1 / 2, 0], [0, 1]]).2.2.positions
        ≠ [1, 2]) ∧
    (enforceSRDFPositionLimits (exampleCollaborators exampleJacobianSmallTail exampleNames)
        (exampleArm [0, 0, 0, 0, 0, -19 / 20] [0, 0, 0, 0, 0, -1]).parameters_
        (exampleArm [0, 0, 0, 0, 0, -19 / 20] [0, 0, 0, 0, 0, -1]).joint_model_group_
        (exampleArm [0, 0, 0, 0, 0, -19 / 20] [0, 0, 0, 0, 0, -1]).kinematic_state_
        (exampleArm [0, 0, 0, 0, 0, -19 / 20] [0, 0, 0, 0, 0, -1]).original_joint_state_
        = false ∧
      (cartesianJogCalcs (exampleCollaborators exampleJacobianSmallTail exampleNames)
        (exampleArm [0, 0, 0, 0, 0, -19 / 20] [0, 0, 0, 0, 0, -1]) exampleTwistLinearX
        (exampleShared 1 false)).2.1.kinematic_state_.positions = [0, 0, 0, 0, 0, -17 / 20] ∧
      (cartesianJogCalcs (exampleCollaborators exampleJacobianSmallTail exampleNames)
        (exampleArm [0, 0, 0, 0, 0, -19 / 20] [0, 0, 0, 0, 0, -1]) exampleTwistLinearX
        (exampleShared 1 false)).2.1.status_ = StatusCode.NO_WARNING ∧
      (cartesianJogCalcs (exampleCollaborators exampleJacobianSmallTail exampleNames)
        (exampleArm [0, 0, 0, 0, 0, -19 / 20] [0, 0, 0, 0, 0, -1]) exampleTwistLinearX
        (exampleShared 1 false)).2.1.outgoing_command_.points =
        [{ positions := [1 / 2, 0, 0, 0, 0, -19 / 20], velocities := [1 / 2, 0, 0, 0, 0, 0],
           accelerations := [], time_from_start := 1 }]) ∧
    (enforceSRDFPositionLimits (exampleCollaborators exampleJacobianSmallTail exampleNames)
        (exampleArm [0, 0, 0, 0, -19 / 20, 0] [0, 0, 0, 0, -1, 0]).parameters_
        (exampleArm [0, 0, 0, 0, -19 / 20, 0] [0, 0, 0, 0, -1, 0]).joint_model_group_
        (exampleArm [0, 0, 0, 0, -19 / 20, 0] [0, 0, 0, 0, -1, 0]).kinematic_state_
        (exampleArm [0, 0, 0, 0, -19 / 20, 0] [0, 0, 0, 0, -1, 0]).original_joint_state_
        = false ∧
      (cartesianJogCalcs (exampleCollaborators exampleJacobianSmallTail exampleNames)
        (exampleArm [0, 0, 0, 0, -19 / 20, 0] [0, 0, 0, 0, -1, 0]) exampleTwistLinearX
        (exampleShared 1 true)).2.1.kinematic_state_.positions = [0, 0, 0, 0, -17 / 20, 0] ∧
      (cartesianJogCalcs (exampleCollaborators exampleJacobianSmallTail exampleNames)
        (exampleArm [0, 0, 0, 0, -19 / 20, 0] [0, 0, 0, 0, -1, 0]) exampleTwistLinearX
        (exampleShared 1 true)).2.1.status_ = StatusCode.NO_WARNING ∧
      (cartesianJogCalcs (exampleCollaborators exampleJacobianSmallTail exampleNames)
        (exampleArm [0, 0, 0, 0, -19 / 20, 0] [0, 0, 0, 0, -1, 0]) exampleTwistLinearX
        (exampleShared 1 true)).2.1.outgoing_command_.points =
        [{ positions := [1 / 2, 0, 0, 0, -19 / 20, 0], velocities := [1 / 2, 0, 0, 0, 0, 0],
           accelerations := [], time_from_start := 1 }]) := by
  decide!

/-- C8: `applyVelocityScaling` replaces `delta_theta` by
`collision_scale * singularity_scale * delta_theta`; for `collision_scale = 0` the result is
the zero vector and the status is `HALT_FOR_COLLISION`; for `0 < collision_scale < 1` the
status is `DECELERATE_FOR_COLLISION`; for `collision_scale = 1` the status is left as it was. -/
theorem applyVelocityScaling_cases (st : StatusCode) (cs : ℚ) (dt : List ℚ) (ss : ℚ) :
    (applyVelocityScaling st cs dt ss).1 = dt.map (fun d => cs * ss * d) ∧
    (cs = 0 → (applyVelocityScaling st cs dt ss).1 = List.replicate dt.length 0 ∧
      (applyVelocityScaling st cs dt ss).2 = StatusCode.HALT_FOR_COLLISION) ∧
    (0 < cs → cs < 1 →
      (applyVelocityScaling st cs dt ss).2 = StatusCode.DECELERATE_FOR_COLLISION) ∧
    (cs = 1 → (applyVelocityScaling st cs dt ss).2 = st) := by
  refine ⟨rfl, ?_, ?_, ?_⟩
  · intro h
    subst h
    constructor
    · simp only [applyVelocityScaling, zero_mul]
      exact List.eq_replicate_iff.mpr ⟨by simp, by simp⟩
    · simp [applyVelocityScaling]
  · intro h0 h1
    simp [applyVelocityScaling, h0, h1]
  · intro h
    subst h
    simp [applyVelocityScaling]

/-- Witness for C8: collision scale `0`, singularity scale `1/2`,
increments `(3, -4)`: the result is the zero vector with status `HALT_FOR_COLLISION`. -/
theorem applyVelocityScaling_cases_witness :
    (applyVelocityScaling StatusCode.NO_WARNING 0 [3, -4] (1 / 2)).1 = List.replicate 2 0 ∧
    (applyVelocityScaling StatusCode.NO_WARNING 0 [3, -4] (1 / 2)).2 =
      StatusCode.HALT_FOR_COLLISION :=
  (applyVelocityScaling_cases StatusCode.NO_WARNING 0 [3, -4] (1 / 2)).2.1 rfl

/-! ## Claims on the status reported by a conversion -/

/-- C9 (as stated, refuted at a concrete input): six-joint arm at rest, Jacobian
`diag(40, 1, 1, 1, 1, 1)`, unitless command `angular.y = angular.z = -1`, collision scale `1/2`,
thresholds `17` and `30`.  Whatever the read of `drift_dimensions` past its end yields (`false`:
six rows are solved; `true`: the last row is dropped), the dot product with the singular vector
is positive and the condition number `40` is past the hard-stop threshold, yet the conversion
publishes and caches `DECELERATE_FOR_COLLISION`, not `HALT_FOR_SINGULARITY`. -/
theorem singularity_halt_counterexample :
    (0 < dot (singularityVector diagonalSVD
        (diagonalSVD (cartesianSolveInput (exampleCollaborators (exampleJacobian 40) exampleNames)
          exampleArmAtZero exampleTwistTowardSingularity (exampleShared (1 / 2) false)).1)
        (cartesianSolveInput (exampleCollaborators (exampleJacobian 40) exampleNames)
          exampleArmAtZero exampleTwistTowardSingularity (exampleShared (1 / 2) false)).1)
        (cartesianSolveInput (exampleCollaborators (exampleJacobian 40) exampleNames)
          exampleArmAtZero exampleTwistTowardSingularity (exampleShared (1 / 2) false)).2 ∧
      conditionNumber (diagonalSVD
          (cartesianSolveInput (exampleCollaborators (exampleJacobian 40) exampleNames)
            exampleArmAtZero exampleTwistTowardSingularity (exampleShared (1 / 2) false)).1) =
        DoubleQuotient.finite 40 ∧
      exampleArmAtZero.parameters_.hard_stop_singularity_threshold < 40 ∧
      (cartesianJogCalcs (exampleCollaborators (exampleJacobian 40) exampleNames)
        exampleArmAtZero exampleTwistTowardSingularity
        (exampleShared (1 / 2) false)).2.1.status_pub_ =
        [StatusCode.DECELERATE_FOR_COLLISION] ∧
      (cartesianJogCalcs (exampleCollaborators (exampleJacobian 40) exampleNames)
        exampleArmAtZero exampleTwistTowardSingularity
        (exampleShared (1 / 2) false)).2.2.2.status = StatusCode.DECELERATE_FOR_COLLISION) ∧
    (0 < dot (singularityVector diagonalSVD
        (diagonalSVD (cartesianSolveInput (exampleCollaborators (exampleJacobian 40) exampleNames)
          exampleArmAtZero exampleTwistTowardSingularity (exampleShared (1 / 2) true)).1)
        (cartesianSolveInput (exampleCollaborators (exampleJacobian 40) exampleNames)
          exampleArmAtZero exampleTwistTowardSingularity (exampleShared (1 / 2) true)).1)
        (cartesianSolveInput (exampleCollaborators (exampleJacobian 40) exampleNames)
          exampleArmAtZero exampleTwistTowardSingularity (exampleShared (1 / 2) true)).2 ∧
      conditionNumber (diagonalSVD
          (cartesianSolveInput (exampleCollaborators (exampleJacobian 40) exampleNames)
            exampleArmAtZero exampleTwistTowardSingularity (exampleShared (1 / 2) true)).1) =
        DoubleQuotient.finite 40 ∧
      exampleArmAtZero.parameters_.hard_stop_singularity_threshold < 40 ∧
      (cartesianJogCalcs (exampleCollaborators (exampleJacobian 40) exampleNames)
        exampleArmAtZero exampleTwistTowardSingularity
        (exampleShared (1 / 2) true)).2.1.status_pub_ =
        [StatusCode.DECELERATE_FOR_COLLISION] ∧
      (cartesianJogCalcs (exampleCollaborators (exampleJacobian 40) exampleNames)
        exampleArmAtZero exampleTwistTowardSingularity
        (exampleShared (1 / 2) true)).2.2.2.status = StatusCode.DECELERATE_FOR_COLLISION) := by
  decide!

/-- C9 (amended): in every Cartesian conversion that is not rejected, where the dot product of
the sign-checked singular vector with `delta_x` is positive and the condition number is a
finite number past `hard_stop_singularity_threshold`, for every collision scale in `[0, 1]`
the resulting `delta_theta_` is zero, and the status published and cached for that cycle is
`HALT_FOR_SINGULARITY` when the collision scale is `1`, `HALT_FOR_COLLISION` when it is `0`
and `DECELERATE_FOR_COLLISION` when it lies strictly between. -/
theorem singularity_halt_status (c : Collaborators) (s : JogCalcs) (cmd : TwistStamped)
    (shared : JogArmShared)
    (hnan : twistHasNan cmd = false)
    (hunit : ¬ (s.parameters_.command_in_type = "unitless" ∧ twistExceedsUnit cmd = true))
    (hd : 0 < dot (singularityVector c.jacobiSVD
      (c.jacobiSVD (cartesianSolveInput c s cmd shared).1)
      (cartesianSolveInput c s cmd shared).1) (cartesianSolveInput c s cmd shared).2)
    (κ : ℚ)
    (hκ : conditionNumber (c.jacobiSVD (cartesianSolveInput c s cmd shared).1) =
      DoubleQuotient.finite κ)
    (hc : s.parameters_.hard_stop_singularity_threshold < κ)
    (h0 : 0 ≤ shared.collision_velocity_scale) (h1 : shared.collision_velocity_scale ≤ 1) :
    (∀ x ∈ (cartesianJogCalcs c s cmd shared).2.1.delta_theta_, x = 0) ∧
    (cartesianJogCalcs c s cmd shared).2.1.status_pub_ = s.status_pub_ ++
      [if shared.collision_velocity_scale = 1 then StatusCode.HALT_FOR_SINGULARITY
        else if shared.collision_velocity_scale = 0 then StatusCode.HALT_FOR_COLLISION
        else StatusCode.DECELERATE_FOR_COLLISION] ∧
    (cartesianJogCalcs c s cmd shared).2.2.2.status =
      (if shared.collision_velocity_scale = 1 then StatusCode.HALT_FOR_SINGULARITY
        else if shared.collision_velocity_scale = 0 then StatusCode.HALT_FOR_COLLISION
        else StatusCode.DECELERATE_FOR_COLLISION) := by
  have hv := singularity_halt_branch c.jacobiSVD s.parameters_.lower_singularity_threshold
    s.parameters_.hard_stop_singularity_threshold s.kinematic_state_ s.status_
    (cartesianSolveInput c s cmd shared).2 (c.jacobiSVD (cartesianSolveInput c s cmd shared).1)
    (cartesianSolveInput c s cmd shared).1
    (pseudoInverse (c.jacobiSVD (cartesianSolveInput c s cmd shared).1)) κ hd hκ hc
  have hst := solve_status c s shared (cartesianSolveInput c s cmd shared).1
    (cartesianSolveInput c s cmd shared).2 []
  have hdt := solve_delta_theta c s shared (cartesianSolveInput c s cmd shared).1
    (cartesianSolveInput c s cmd shared).2
  rw [hv.2, applyVelocityScaling_status _ _ _ _ h0 h1] at hst
  rw [hv.1] at hdt
  unfold cartesianJogCalcs
  rw [hnan]
  simp only [Bool.false_eq_true, if_false, if_neg hunit]
  refine ⟨?_, hst.1, hst.2⟩
  rw [hdt]
  intro x hx
  split at hx
  · exact List.eq_of_mem_replicate hx
  · simp only [applyVelocityScaling, mul_zero, zero_mul, List.mem_map] at hx
    obtain ⟨_, _, rfl⟩ := hx
    rfl

/-- Witness for C9 (amended): six-joint arm at rest, Jacobian `diag(40, 1, 1, 1, 1, 1)`, unitless
command `angular.y = angular.z = -1`, collision scale `1`: the status published is
`HALT_FOR_SINGULARITY`. -/
theorem singularity_halt_status_witness :
    (cartesianJogCalcs (exampleCollaborators (exampleJacobian 40) exampleNames)
      exampleArmAtZero exampleTwistTowardSingularity (exampleShared 1 false)).2.1.status_pub_ =
      [StatusCode.HALT_FOR_SINGULARITY] :=
  (singularity_halt_status (exampleCollaborators (exampleJacobian 40) exampleNames)
    exampleArmAtZero exampleTwistTowardSingularity (exampleShared 1 false)
    (by decide!) (by decide!) (by decide!) 40 (by decide!) (by decide!) (by decide!)
    (by decide!)).2.1

/-- C10 (the code at the failing inputs): six-joint arm with position limits `[-1, 1]` and
margin `1/10`; joint 6 stands at `19/20` and moves with velocity `1`; status `NO_WARNING` on
entry, collision scale `1`.  In the Cartesian conversion (identity Jacobian, `linear.x = 1/2`,
for either value read past the end of `drift_dimensions`) and in the joint conversion
(`joint_1` at velocity `1/2`) the conversion returns true, `enforceSRDFPositionLimits` is
false and the outgoing command is halted (original positions, zero velocities), but the status
published and cached by that conversion is `NO_WARNING`; `JOINT_BOUND` is only left in
`status_`, after `updateCachedStatus` has run. -/
theorem joint_bound_status_not_cached :
    ((cartesianJogCalcs (exampleCollaborators (exampleJacobian 1) exampleNames)
        exampleArmNearLimit exampleTwistLinearX (exampleShared 1 false)).1 = true ∧
      enforceSRDFPositionLimits (exampleCollaborators (exampleJacobian 1) exampleNames)
        exampleArmNearLimit.parameters_ exampleArmNearLimit.joint_model_group_
        (cartesianJogCalcs (exampleCollaborators (exampleJacobian 1) exampleNames)
          exampleArmNearLimit exampleTwistLinearX (exampleShared 1 false)).2.1.kinematic_state_
        exampleArmNearLimit.original_joint_state_ = false ∧
      (cartesianJogCalcs (exampleCollaborators (exampleJacobian 1) exampleNames)
        exampleArmNearLimit exampleTwistLinearX
        (exampleShared 1 false)).2.1.outgoing_command_.points =
        [{ positions := [0, 0, 0, 0, 0, 19 / 20], velocities := [0, 0, 0, 0, 0, 0],
           accelerations := [], time_from_start := 1 }] ∧
      (cartesianJogCalcs (exampleCollaborators (exampleJacobian 1) exampleNames)
        exampleArmNearLimit exampleTwistLinearX (exampleShared 1 false)).2.1.status_pub_ =
        [StatusCode.NO_WARNING] ∧
      (cartesianJogCalcs (exampleCollaborators (exampleJacobian 1) exampleNames)
        exampleArmNearLimit exampleTwistLinearX (exampleShared 1 false)).2.2.2.status =
        StatusCode.NO_WARNING ∧
      (cartesianJogCalcs (exampleCollaborators (exampleJacobian 1) exampleNames)
        exampleArmNearLimit exampleTwistLinearX (exampleShared 1 false)).2.1.status_ =
        StatusCode.JOINT_BOUND) ∧
    ((cartesianJogCalcs (exampleCollaborators (exampleJacobian 1) exampleNames)
        exampleArmNearLimit exampleTwistLinearX (exampleShared 1 true)).1 = true ∧
      enforceSRDFPositionLimits (exampleCollaborators (exampleJacobian 1) exampleNames)
        exampleArmNearLimit.parameters_ exampleArmNearLimit.joint_model_group_
        (cartesianJogCalcs (exampleCollaborators (exampleJacobian 1) exampleNames)
          exampleArmNearLimit exampleTwistLinearX (exampleShared 1 true)).2.1.kinematic_state_
        exampleArmNearLimit.original_joint_state_ = false ∧
      (cartesianJogCalcs (exampleCollaborators (exampleJacobian 1) exampleNames)
        exampleArmNearLimit exampleTwistLinearX
        (exampleShared 1 true)).2.1.outgoing_command_.points =
        [{ positions := [0, 0, 0, 0, 0, 19 / 20], velocities := [0, 0, 0, 0, 0, 0],
           accelerations := [], time_from_start := 1 }] ∧
      (cartesianJogCalcs (exampleCollaborators (exampleJacobian 1) exampleNames)
        exampleArmNearLimit exampleTwistLinearX (exampleShared 1 true)).2.1.status_pub_ =
        [StatusCode.NO_WARNING] ∧
      (cartesianJogCalcs (exampleCollaborators (exampleJacobian 1) exampleNames)
        exampleArmNearLimit exampleTwistLinearX (exampleShared 1 true)).2.2.2.status =
        StatusCode.NO_WARNING ∧
      (cartesianJogCalcs (exampleCollaborators (exampleJacobian 1) exampleNames)
        exampleArmNearLimit exampleTwistLinearX (exampleShared 1 true)).2.1.status_ =
        StatusCode.JOINT_BOUND) ∧
    ((jointJogCalcs (exampleCollaborators (exampleJacobian 1) exampleNames)
        exampleArmNearLimit exampleJointJog (exampleShared 1 false)).1 = true ∧
      enforceSRDFPositionLimits (exampleCollaborators (exampleJacobian 1) exampleNames)
        exampleArmNearLimit.parameters_ exampleArmNearLimit.joint_model_group_
        (jointJogCalcs (exampleCollaborators (exampleJacobian 1) exampleNames)
          exampleArmNearLimit exampleJointJog (exampleShared 1 false)).2.1.kinematic_state_
        exampleArmNearLimit.original_joint_state_ = false ∧
      (jointJogCalcs (exampleCollaborators (exampleJacobian 1) exampleNames)
        exampleArmNearLimit exampleJointJog (exampleShared 1 false)).2.1.outgoing_command_.points =
        [{ positions := [0, 0, 0, 0, 0, 19 / 20], velocities := [0, 0, 0, 0, 0, 0],
           accelerations := [], time_from_start := 1 }] ∧
      (jointJogCalcs (exampleCollaborators (exampleJacobian 1) exampleNames)
        exampleArmNearLimit exampleJointJog (exampleShared 1 false)).2.1.status_pub_ =
        [StatusCode.NO_WARNING] ∧
      (jointJogCalcs (exampleCollaborators (exampleJacobian 1) exampleNames)
        exampleArmNearLimit exampleJointJog (exampleShared 1 false)).2.2.status =
        StatusCode.NO_WARNING ∧
      (jointJogCalcs (exampleCollaborators (exampleJacobian 1) exampleNames)
        exampleArmNearLimit exampleJointJog (exampleShared 1 false)).2.1.status_ =
        StatusCode.JOINT_BOUND) := by
  decide!
/-! ## The control loop `run`: publish gate, counter of zero-velocity cycles, rejected commands -/

/-- C11 (publish gate).  Starting from `zero_velocity_count_ = 0`, in a run of consecutive
active ticks (not waiting for commands, not paused, enough joint telemetry for `updateJoints`)
with both command flags unset, every tick ends, and with `T = num_outgoing_halt_msgs_to_publish`
and `k = clocks.length + 1` the number of ticks, `ok_to_publish` after the `k`-th tick is false if
and only if `T ≠ 0` and `min (k - 1) INT_MAX > T`: the test `zero_velocity_count_ > T` reads the
counter before the increment of the same tick, so the gate closes one tick later than
`k > T`, after `T + 1` halt messages; it also closes at the first tick for a negative `T`. -/
theorem publish_gate_after_ticks (clocks : List Collaborators) (c : Collaborators)
    (s : JogCalcs) (shared : JogArmShared)
    (hw : s.wait_for_jog_commands_ = false) (hp : shared.paused = false)
    (ht : s.have_nonzero_twist_stamped_ = false) (hj : s.have_nonzero_joint_jog_ = false)
    (hn : s.num_joints_ ≤ s.incoming_joint_state_.name.length)
    (h0 : s.zero_velocity_count_ = 0) :
    ∃ q, runTicks (clocks ++ [c]) s shared = some q ∧
      (q.2.ok_to_publish = false ↔
        s.parameters_.num_outgoing_halt_msgs_to_publish ≠ 0 ∧
          min (clocks.length : ℤ) INT_MAX > s.parameters_.num_outgoing_halt_msgs_to_publish) := by
  obtain ⟨q, hq, _, hok⟩ := runTicks_zero_command clocks c s shared hw hp ht hj hn
    (by rw [h0]; decide)
  refine ⟨q, hq, ?_⟩
  rw [hok, h0, zero_add]
  simp only [Bool.not_eq_false', decide_eq_true_eq]

/-- Witness of C11 at the failing input: threshold `T = 1`, two ticks.  After the second tick
`ok_to_publish` is still true. -/
theorem publish_gate_after_ticks_witness :
    ∃ q, runTicks [exampleTickCollaborators, exampleTickCollaborators] (exampleActiveArm 1) {} =
        some q ∧ q.2.ok_to_publish = true := by
  obtain ⟨q, hq, hiff⟩ := publish_gate_after_ticks [exampleTickCollaborators]
    exampleTickCollaborators (exampleActiveArm 1) {} rfl rfl rfl rfl (by decide) rfl
  refine ⟨q, hq, ?_⟩
  cases hok : q.2.ok_to_publish
  · have h := (hiff.mp hok).2
    exact absurd h (by decide)
  · rfl

/-- C12 (zero-cycle counter).  For a counter in `[0, INT_MAX]`, after every tick of `run` the
counter is again in `[0, INT_MAX]`; and on an active tick (not waiting for commands, not
paused) that reaches the end of the loop body (no converter returned false) the counter
becomes `0` if the twist or the joint command is non-zero and `min (old + 1) INT_MAX`
otherwise. -/
theorem zero_velocity_count_update (c : Collaborators) (s : JogCalcs) (shared : JogArmShared)
    (q : JogCalcs × JogArmShared) (hrun : run c s shared = some q)
    (hrange : 0 ≤ s.zero_velocity_count_ ∧ s.zero_velocity_count_ ≤ INT_MAX) :
    (0 ≤ q.1.zero_velocity_count_ ∧ q.1.zero_velocity_count_ ≤ INT_MAX) ∧
    (s.wait_for_jog_commands_ = false → shared.paused = false →
      (∀ p, run_prepare c s shared = some p → (run_conversion c p.1 p.2).1 = true) →
      q.1.zero_velocity_count_ =
        if (s.have_nonzero_twist_stamped_ || s.have_nonzero_joint_jog_) = true then 0
        else min (s.zero_velocity_count_ + 1) INT_MAX) := by
  unfold run at hrun
  cases hprep : run_prepare c s shared with
  | none =>
    rw [hprep] at hrun
    exact absurd hrun (by simp)
  | some p =>
    rw [hprep] at hrun
    dsimp only at hrun
    have hf := run_prepare_frame c s shared p hprep
    have hc := JogCalcs.control_fields _ _ hf.2.1
    have hconv := run_conversion_control c p.1 p.2
    have hcc := JogCalcs.control_fields _ _ hconv.1
    have hpub := run_publish_count c (run_conversion c p.1 p.2).2.1
      (run_conversion c p.1 p.2).2.2
      (by rw [hconv.2.2, hf.2.2.1, hcc.2.1, hcc.2.2.1, hc.2.1, hc.2.2.1])
    rw [hcc.1, hcc.2.1, hcc.2.2.1, hc.1, hc.2.1, hc.2.2.1] at hpub
    have hinc := saturating_increment s.zero_velocity_count_ hrange.2
    by_cases hidle : (p.1.wait_for_jog_commands_ || p.2.paused) = true
    · rw [if_pos hidle] at hrun
      have e := Option.some.inj hrun
      subst e
      constructor
      · dsimp only
        rw [run_idle_control, hc.1]
        exact hrange
      · intro hw hp _
        rw [hc.2.2.2.1, hw, hf.2.2.2.1, hp] at hidle
        exact absurd hidle (by simp)
    · rw [if_neg hidle] at hrun
      have e := Option.some.inj hrun
      subst e
      unfold run_active
      dsimp only
      cases hr : (run_conversion c p.1 p.2).1
      · simp only [Bool.not_false, if_true]
        constructor
        · rw [hcc.1, hc.1]
          exact hrange
        · intro _ _ hend
          have := hend p rfl
          rw [hr] at this
          exact absurd this (by simp)
      · simp only [Bool.not_true, Bool.false_eq_true, if_false]
        rw [hpub, hinc]
        constructor
        · split
          · exact ⟨le_refl 0, by decide⟩
          · exact ⟨le_min (by omega) (by decide), min_le_right _ _⟩
        · intro _ _ _
          rfl

/-- Witness of C12: one active tick of the example arm with an all-zero command, counter `0`
before the tick and `1` after it. -/
theorem zero_velocity_count_update_witness :
    ∃ q, run exampleTickCollaborators (exampleActiveArm 1) {} = some q ∧
      (0 ≤ q.1.zero_velocity_count_ ∧ q.1.zero_velocity_count_ ≤ INT_MAX) ∧
      q.1.zero_velocity_count_ = 1 := by
  obtain ⟨q, hq, _⟩ := run_zero_command exampleTickCollaborators (exampleActiveArm 1) {}
    rfl rfl rfl rfl (by decide)
  have h := zero_velocity_count_update exampleTickCollaborators (exampleActiveArm 1) {} q hq
    ⟨by decide, by decide⟩
  have hend : ∀ p, run_prepare exampleTickCollaborators (exampleActiveArm 1) {} = some p →
      (run_conversion exampleTickCollaborators p.1 p.2).1 = true := by
    intro p hp
    have hf := run_prepare_frame _ _ _ p hp
    have hc := JogCalcs.control_fields _ _ hf.2.1
    rw [run_conversion_no_flag _ p.1 p.2 (hc.2.1.trans rfl) (hc.2.2.1.trans rfl)]
  refine ⟨q, hq, h.1, ?_⟩
  rw [h.2 rfl rfl hend]
  decide

/-- C13 (NaN rejection).  For every twist command with NaN in one of its six components
`cartesianJogCalcs` returns false, and for every joint command with NaN in one of its
velocities `jointJogCalcs` returns false; both leave every member (`outgoing_command_`,
`delta_theta_`, `prev_joint_velocity_`, `status_` among them), the command and the shared
variables as they were.  An active tick of `run` (not waiting, not paused, command not stale)
that hands such a command to its converter ends with `outgoing_command_`, `delta_theta_`,
`prev_joint_velocity_`, `status_` unchanged, nothing published on either publisher
(`outputs`), and `ok_to_publish` as before. -/
theorem nan_command_is_rejected (c : Collaborators) (s : JogCalcs) (shared : JogArmShared) :
    (∀ cmd : TwistStamped, none ∈ twistComponents cmd →
      cartesianJogCalcs c s cmd shared = (false, s, cmd, shared)) ∧
    (∀ cmd : JointJog, none ∈ cmd.velocities →
      jointJogCalcs c s cmd shared = (false, s, shared)) ∧
    (∀ p, run_prepare c s shared = some p →
      p.1.wait_for_jog_commands_ = false → p.2.paused = false →
      p.2.command_is_stale = false →
      ((p.1.have_nonzero_twist_stamped_ = true ∧ none ∈ twistComponents p.1.twist_stamped_) ∨
        (p.1.have_nonzero_twist_stamped_ = false ∧ p.1.have_nonzero_joint_jog_ = true ∧
          none ∈ p.1.joint_jog_.velocities)) →
      ∃ q, run c s shared = some q ∧ q.1.outputs = s.outputs ∧
        q.2.ok_to_publish = shared.ok_to_publish) := by
  have hany : ∀ l : List Double, none ∈ l → l.any isnan = true :=
    fun l h => List.any_eq_true.mpr ⟨none, h, rfl⟩
  refine ⟨?_, ?_, ?_⟩
  · intro cmd h
    exact cartesianJogCalcs_rejected c s cmd shared (Or.inl (hany _ h))
  · intro cmd h
    exact jointJogCalcs_rejected c s cmd shared (hany _ h)
  · intro p hprep hw hp hs h
    refine run_rejected_tick c s shared p hprep hw hp (run_conversion_nan c p.1 p.2 hs ?_)
    rcases h with ⟨ht, hn⟩ | ⟨ht, hj, hn⟩
    · exact Or.inl ⟨ht, hany _ hn⟩
    · exact Or.inr ⟨ht, hj, hany _ hn⟩

/-- Witness of C13: the twist with NaN in `linear.x` is rejected by `cartesianJogCalcs`, a joint
command with a NaN velocity by `jointJogCalcs`, and the tick that follows the arrival of the
NaN twist (callback `twistStampedCB`) publishes nothing. -/
theorem nan_command_is_rejected_witness :
    cartesianJogCalcs exampleTickCollaborators (exampleActiveArm 0) exampleTwistNan {} =
      (false, exampleActiveArm 0, exampleTwistNan, {}) ∧
    jointJogCalcs exampleTickCollaborators (exampleActiveArm 0)
      { joint_names := ["joint_1"], velocities := [none] } {} =
      (false, exampleActiveArm 0, {}) ∧
    ∃ q, run exampleTickCollaborators (twistStampedCB (exampleActiveArm 0) exampleTwistNan) {} =
        some q ∧
      q.1.outputs = (twistStampedCB (exampleActiveArm 0) exampleTwistNan).outputs ∧
      q.1.joint_trajectory_pub_ = [] := by
  have h0 := nan_command_is_rejected exampleTickCollaborators (exampleActiveArm 0) {}
  have h := nan_command_is_rejected exampleTickCollaborators
    (twistStampedCB (exampleActiveArm 0) exampleTwistNan) {}
  refine ⟨h0.1 exampleTwistNan (by decide), h0.2.1 _ (by decide), ?_⟩
  obtain ⟨p, hprep⟩ := run_prepare_some exampleTickCollaborators
    (twistStampedCB (exampleActiveArm 0) exampleTwistNan) {} (by decide)
  have e : (run_prepare exampleTickCollaborators
      (twistStampedCB (exampleActiveArm 0) exampleTwistNan) {}).map
      (fun p => (p.1.wait_for_jog_commands_, p.2.paused, p.2.command_is_stale,
        p.1.have_nonzero_twist_stamped_,
        decide (none ∈ twistComponents p.1.twist_stamped_))) =
      some (false, false, false, true, true) := by
    decide!
  rw [hprep] at e
  have e' := Option.some.inj e
  simp only [Prod.mk.injEq] at e'
  obtain ⟨q, hq, ho, _⟩ := h.2.2 p hprep e'.1 e'.2.1 e'.2.2.1
    (Or.inl ⟨e'.2.2.2.1, of_decide_eq_true e'.2.2.2.2⟩)
  refine ⟨q, hq, ho, ?_⟩
  have := congrArg (fun t => t.2.2.2.2.2) ho
  exact this
/-! ## The Cartesian conversion: range check, disabled dimensions, scaling -/

/-- C14 (unitless range check).  For every twist without NaN: when `command_in_type` is
`"unitless"`, `cartesianJogCalcs` returns false if and only if some component has absolute
value strictly greater than `1`, and then leaves the members, the command and the shared
variables unchanged; when `command_in_type` is `"speed_units"` it returns true whatever the
magnitudes. -/
theorem unitless_range_check (c : Collaborators) (s : JogCalcs) (cmd : TwistStamped)
    (shared : JogArmShared) (hnan : none ∉ twistComponents cmd) :
    (s.parameters_.command_in_type = "unitless" →
      ((cartesianJogCalcs c s cmd shared).1 = false ↔
        ∃ d ∈ twistComponents cmd, |d.value| > 1) ∧
      ((∃ d ∈ twistComponents cmd, |d.value| > 1) →
        cartesianJogCalcs c s cmd shared = (false, s, cmd, shared))) ∧
    (s.parameters_.command_in_type = "speed_units" →
      (cartesianJogCalcs c s cmd shared).1 = true) := by
  have hn := twistHasNan_false cmd hnan
  constructor
  · intro hu
    have hrej : (∃ d ∈ twistComponents cmd, |d.value| > 1) →
        cartesianJogCalcs c s cmd shared = (false, s, cmd, shared) := fun h =>
      cartesianJogCalcs_rejected c s cmd shared (Or.inr ⟨hu, (twistExceedsUnit_iff cmd).mpr h⟩)
    refine ⟨⟨?_, fun h => by rw [hrej h]⟩, hrej⟩
    intro hfalse
    by_contra hex
    have hacc := cartesianJogCalcs_accepted c s cmd shared hn
      (fun h => hex ((twistExceedsUnit_iff cmd).mp h.2))
    rw [hacc, solve_returns_true] at hfalse
    exact absurd hfalse (by simp)
  · intro hs
    have hne : ¬ (s.parameters_.command_in_type = "unitless" ∧ twistExceedsUnit cmd = true) := by
      rw [hs]
      exact fun h => absurd h.1 (by decide)
    rw [cartesianJogCalcs_accepted c s cmd shared hn hne, solve_returns_true]

/-- Witness of C14 on the example arm (unitless commands): `linear.x = 3/2` is rejected with the
state unchanged, and a command with components `1` and `-1` is accepted. -/
theorem unitless_range_check_witness :
    cartesianJogCalcs exampleTickCollaborators exampleArmAtZero
        { twist := { linear := { x := some (3 / 2) } } } {} =
      (false, exampleArmAtZero, { twist := { linear := { x := some (3 / 2) } } }, {}) ∧
    (cartesianJogCalcs exampleTickCollaborators exampleArmAtZero
        { twist := { linear := { x := some 1, y := some (-1) } } } {}).1 = true := by
  constructor
  · exact ((unitless_range_check exampleTickCollaborators exampleArmAtZero
      { twist := { linear := { x := some (3 / 2) } } } {} (by decide)).1 rfl).2
      ⟨some (3 / 2), List.mem_cons_self _ _,
        by rw [show Double.value (some (3 / 2)) = 3 / 2 from rfl, abs_of_pos (by norm_num)]
           norm_num⟩
  · have h := ((unitless_range_check exampleTickCollaborators exampleArmAtZero
      { twist := { linear := { x := some 1, y := some (-1) } } } {} (by decide)).1 rfl).1
    cases hr : (cartesianJogCalcs exampleTickCollaborators exampleArmAtZero
        { twist := { linear := { x := some 1, y := some (-1) } } } {}).1
    · obtain ⟨d, hd, hgt⟩ := h.mp hr
      simp only [twistComponents, List.mem_cons, List.mem_singleton, List.not_mem_nil,
        or_false] at hd
      rcases hd with rfl | rfl | rfl | rfl | rfl | rfl <;> norm_num [Double.value] at hgt
    · rfl

/-- Counterexample to C15 as stated: unitless commands, `control_dimensions[2]` false, command
in the planning frame.  Two twists that differ only in `linear.z` (`0` and `2`): the first is
accepted, the second is rejected, because the range check comes before the uncontrolled
dimensions are set to `0`. -/
theorem disabled_dimension_counterexample :
    (cartesianJogCalcs exampleTickCollaborators exampleArmAtZero
      { twist := { linear := { z := some 0 } } }
      { control_dimensions := [true, true, false, true, true, true] }).1 = true ∧
    (cartesianJogCalcs exampleTickCollaborators exampleArmAtZero
      { twist := { linear := { z := some 2 } } }
      { control_dimensions := [true, true, false, true, true, true] }).1 = false := by
  decide!

/-- C15 (amended).  With `control_dimensions[2]` false, for every two twists that differ only in
`linear.z` and that both pass the checks at the head of `cartesianJogCalcs` (no NaN and, for
`"unitless"` commands, every component, `linear.z` included, of absolute value at most `1`;
any magnitude for `"speed_units"`), the Cartesian conversion has the same outcome: the two
calls return the same result (return value, members, rewritten command, shared variables),
both are accepted, and `delta_x` is the same, with z entry `0` when the command is expressed
in the planning frame and `command_in_type` is `"unitless"` or `"speed_units"`. -/
theorem disabled_dimension_ignored (c : Collaborators) (s : JogCalcs) (shared : JogArmShared)
    (cmd1 cmd2 : TwistStamped)
    (hdim : shared.control_dimensions.getD 2 true = false)
    (hframe : cmd1.frame_id = cmd2.frame_id) (hstamp : cmd1.stamp = cmd2.stamp)
    (hx : cmd1.twist.linear.x = cmd2.twist.linear.x)
    (hy : cmd1.twist.linear.y = cmd2.twist.linear.y)
    (hangular : cmd1.twist.angular = cmd2.twist.angular)
    (hnan1 : none ∉ twistComponents cmd1) (hnan2 : none ∉ twistComponents cmd2)
    (hunit : s.parameters_.command_in_type = "unitless" →
      ∀ d ∈ twistComponents cmd1 ++ twistComponents cmd2, |d.value| ≤ 1) :
    (cartesianJogCalcs c s cmd1 shared).1 = true ∧
    (cartesianJogCalcs c s cmd2 shared).1 = true ∧
    (cartesianJogCalcs c s cmd1 shared).2.1 = (cartesianJogCalcs c s cmd2 shared).2.1 ∧
    (cartesianJogCalcs c s cmd1 shared).2.2 = (cartesianJogCalcs c s cmd2 shared).2.2 ∧
    scaleCartesianCommand c s.parameters_ (cartesianCommand c s cmd1 shared) =
      scaleCartesianCommand c s.parameters_ (cartesianCommand c s cmd2 shared) ∧
    (cmd1.frame_id = s.parameters_.planning_frame →
      s.parameters_.command_in_type = "unitless" ∨
        s.parameters_.command_in_type = "speed_units" →
      (scaleCartesianCommand c s.parameters_ (cartesianCommand c s cmd1 shared))[2]? =
        some 0) := by
  have hz := zeroUncontrolledDimensions_linear_z shared cmd1 cmd2 hdim hframe hstamp hx hy
    hangular
  have hcmd : cartesianCommand c s cmd1 shared = cartesianCommand c s cmd2 shared := by
    unfold cartesianCommand
    rw [hz.1]
  have hin : cartesianSolveInput c s cmd1 shared = cartesianSolveInput c s cmd2 shared := by
    unfold cartesianSolveInput
    rw [hcmd]
  have hu1 : ¬ (s.parameters_.command_in_type = "unitless" ∧ twistExceedsUnit cmd1 = true) := by
    rintro ⟨hu, he⟩
    obtain ⟨d, hd, hgt⟩ := (twistExceedsUnit_iff cmd1).mp he
    exact absurd (hunit hu d (List.mem_append_left _ hd)) (not_le.mpr hgt)
  have hu2 : ¬ (s.parameters_.command_in_type = "unitless" ∧ twistExceedsUnit cmd2 = true) := by
    rintro ⟨hu, he⟩
    obtain ⟨d, hd, hgt⟩ := (twistExceedsUnit_iff cmd2).mp he
    exact absurd (hunit hu d (List.mem_append_right _ hd)) (not_le.mpr hgt)
  rw [cartesianJogCalcs_accepted c s cmd1 shared (twistHasNan_false cmd1 hnan1) hu1,
    cartesianJogCalcs_accepted c s cmd2 shared (twistHasNan_false cmd2 hnan2) hu2, hin, hcmd]
  have htrue := solve_returns_true c s shared (cartesianSolveInput c s cmd2 shared).1
    (cartesianSolveInput c s cmd2 shared).2
  refine ⟨htrue, htrue, rfl, rfl, rfl, ?_⟩
  intro hpf htype
  have hc2 : cartesianCommand c s cmd2 shared = zeroUncontrolledDimensions shared cmd2 := by
    unfold cartesianCommand transformToPlanningFrame
    rw [← hz.1, if_neg (by rw [hz.2.2, hpf]; exact fun h => h rfl)]
  rw [hc2, ← hz.1]
  unfold scaleCartesianCommand
  rcases htype with ht | ht
  · rw [if_pos ht, hz.2.1]
    simp [Double.value]
  · rw [if_neg (by rw [ht]; decide), if_pos ht, hz.2.1]
    simp [Double.value]

/-- Witness of C15 (amended): `"speed_units"` commands with `control_dimensions[2]` false;
`linear.z = 0` and `linear.z = 1000` give the same conversion. -/
theorem disabled_dimension_ignored_witness :
    (cartesianJogCalcs exampleTickCollaborators
      { exampleArmAtZero with parameters_ := { command_in_type := "speed_units" } }
      { twist := { linear := { z := some 0 } } }
      { control_dimensions := [true, true, false, true, true, true] }).2.1 =
    (cartesianJogCalcs exampleTickCollaborators
      { exampleArmAtZero with parameters_ := { command_in_type := "speed_units" } }
      { twist := { linear := { z := some 1000 } } }
      { control_dimensions := [true, true, false, true, true, true] }).2.1 :=
  (disabled_dimension_ignored exampleTickCollaborators
    { exampleArmAtZero with parameters_ := { command_in_type := "speed_units" } }
    { control_dimensions := [true, true, false, true, true, true] }
    { twist := { linear := { z := some 0 } } } { twist := { linear := { z := some 1000 } } }
    rfl rfl rfl rfl rfl rfl (by decide) (by decide)
    (fun h => absurd h (by decide))).2.2.1

/-- C16 (Cartesian scaling).  In unitless mode `scaleCartesianCommand` returns
`(linear_scale * period * linear.xyz, rotational_scale * period * angular.xyz)`, in
`"speed_units"` mode `(period * linear.xyz, period * angular.xyz)`; and `linear.x = 0.1`,
`linear_scale = 1`, `period = 0.01` in unitless mode give `delta_x[0] = 0.001`. -/
theorem scaleCartesianCommand_cases (c : Collaborators) (parameters_ : JogArmParameters)
    (command : TwistStamped) :
    scaleCartesianCommand c { parameters_ with command_in_type := "unitless" } command =
      [parameters_.linear_scale * parameters_.publish_period * command.twist.linear.x.value,
       parameters_.linear_scale * parameters_.publish_period * command.twist.linear.y.value,
       parameters_.linear_scale * parameters_.publish_period * command.twist.linear.z.value,
       parameters_.rotational_scale * parameters_.publish_period *
         command.twist.angular.x.value,
       parameters_.rotational_scale * parameters_.publish_period *
         command.twist.angular.y.value,
       parameters_.rotational_scale * parameters_.publish_period *
         command.twist.angular.z.value] ∧
    scaleCartesianCommand c { parameters_ with command_in_type := "speed_units" } command =
      [parameters_.publish_period * command.twist.linear.x.value,
       parameters_.publish_period * command.twist.linear.y.value,
       parameters_.publish_period * command.twist.linear.z.value,
       parameters_.publish_period * command.twist.angular.x.value,
       parameters_.publish_period * command.twist.angular.y.value,
       parameters_.publish_period * command.twist.angular.z.value] ∧
    (scaleCartesianCommand c
      { parameters_ with
        command_in_type := "unitless", linear_scale := 1, publish_period := 1 / 100 }
      { twist := { linear := { x := some (1 / 10) } } })[0]? = some (1 / 1000) := by
  refine ⟨?_, ?_, ?_⟩
  · unfold scaleCartesianCommand
    rw [if_pos rfl]
  · unfold scaleCartesianCommand
    rw [if_neg (show ¬ ("speed_units" = "unitless") by decide), if_pos rfl]
    simp only [mul_comm]
  · unfold scaleCartesianCommand
    rw [if_pos rfl]
    norm_num [Double.value]

/-! ## Drift dimensions, halt payload, replicated waypoints, filter input -/

/-- C17 (drift-dimension removal).  The removal loop starts at `dimension = jacobian.rows()`, so
for a 6-row Jacobian its first round reads `drift_dimensions[6]`, past the six flags.  When
that read yields false, for every assignment of the six flags the rows of `J` and the
entries of `delta_x` whose flag is false are kept, in their order, and row `0` alone is kept
when all six are flagged.  When that read yields true, row
`5` and entry `5` are removed although no axis is flagged. -/
theorem drift_removal_reads_past_end :
    (∀ (f0 f1 f2 f3 f4 f5 : Bool) (r0 r1 r2 r3 r4 r5 : List ℚ) (x0 x1 x2 x3 x4 x5 : ℚ),
      removeDriftDimensions
        { drift_dimensions := [f0, f1, f2, f3, f4, f5], drift_dimensions_past_end := false }
        [r0, r1, r2, r3, r4, r5] [x0, x1, x2, x3, x4, x5] =
      if (f0 && f1 && f2 && f3 && f4 && f5) = true then ([r0], [x0])
      else (keepUnflagged [f0, f1, f2, f3, f4, f5] [r0, r1, r2, r3, r4, r5],
        keepUnflagged [f0, f1, f2, f3, f4, f5] [x0, x1, x2, x3, x4, x5])) ∧
    (∀ (r0 r1 r2 r3 r4 r5 : List ℚ) (x0 x1 x2 x3 x4 x5 : ℚ),
      removeDriftDimensions
        { drift_dimensions := [false, false, false, false, false, false],
          drift_dimensions_past_end := true }
        [r0, r1, r2, r3, r4, r5] [x0, x1, x2, x3, x4, x5] =
      ([r0, r1, r2, r3, r4], [x0, x1, x2, x3, x4])) :=
  ⟨removeDriftDimensions_past_end_false, fun _ _ _ _ _ _ _ _ _ _ _ _ => rfl⟩

/-- C18 (halt payload).  With `publish_joint_positions` false and `publish_joint_velocities`
true, two joints at positions `1/2` and `1/4`: `suddenHalt` on a trajectory without waypoints
yields a first waypoint with positions `[0, 0]` (present, and not the original positions),
where `composeJointTrajMessage` with the same parameters leaves the positions empty; with the
flags exchanged the velocities `[0, 0]` are present.  The first active tick of `run` after
start-up with an all-zero command publishes such a message: six positions `0` for an arm
whose joints are at `1/2`. -/
theorem halt_payload_ignores_flags_on_empty_trajectory :
    (suddenHalt { publish_joint_positions := false, publish_joint_velocities := true } 2
      { position := [1 / 2, 1 / 4] } {}).points =
      [{ positions := [0, 0], velocities := [0, 0] }] ∧
    (composeJointTrajMessage { publish_joint_positions := false, publish_joint_velocities := true }
      2 0 { position := [1 / 2, 1 / 4], velocity := [0, 0] }).points =
      [{ positions := [], velocities := [0, 0], time_from_start := 1 }] ∧
    (suddenHalt { publish_joint_positions := true, publish_joint_velocities := false } 2
      { position := [1 / 2, 1 / 4] } {}).points =
      [{ positions := [1 / 2, 1 / 4], velocities := [0, 0] }] ∧
    (run exampleTickCollaborators
      { exampleActiveArm 0 with
        parameters_ := { publish_joint_positions := false, publish_joint_velocities := true }
        incoming_joint_state_ :=
          { name := exampleNames
            position := [1 / 2, 1 / 2, 1 / 2, 1 / 2, 1 / 2, 1 / 2]
            velocity := [0, 0, 0, 0, 0, 0] } } {}).map
      (fun q => q.1.joint_trajectory_pub_.map (fun t => t.points.map (fun p => p.positions))) =
      some [[[0, 0, 0, 0, 0, 0]]] := by
  decide!

/-- C19 (waypoint replication).  For a trajectory with exactly one waypoint `point` whose
`time_from_start` is `publish_period` and every `count ≥ 1`,
`insertRedundantPointsIntoTrajectory` yields exactly `count` waypoints, the `k`-th
(`k = 1..count`) being `point` (same positions, velocities and accelerations) with
`time_from_start = k * publish_period`, and leaves the header and the joint names as they
were; for `count ≤ 1` the trajectory is unchanged.  The trajectory that the only caller,
`convertDeltasToOutgoingCmd`, hands to the function is of this kind (the message of
`composeJointTrajMessage`, halted or not): with `use_gazebo` set and
`count = gazebo_redundant_message_count_ ≥ 1` the outgoing command consists of `count` copies
of one waypoint at the times `k * publish_period`. -/
theorem redundant_points_replicated (publish_period : ℚ) (trajectory : JointTrajectory)
    (point : JointTrajectoryPoint) (count : ℤ) (hpoints : trajectory.points = [point]) :
    (point.time_from_start = publish_period → 1 ≤ count →
      (insertRedundantPointsIntoTrajectory publish_period trajectory count).points =
        (List.range count.toNat).map (fun k =>
          { point with time_from_start := ((k : ℚ) + 1) * publish_period }) ∧
      ((insertRedundantPointsIntoTrajectory publish_period trajectory count).points.length : ℤ) =
        count ∧
      (insertRedundantPointsIntoTrajectory publish_period trajectory count).frame_id =
        trajectory.frame_id ∧
      (insertRedundantPointsIntoTrajectory publish_period trajectory count).stamp =
        trajectory.stamp ∧
      (insertRedundantPointsIntoTrajectory publish_period trajectory count).joint_names =
        trajectory.joint_names) ∧
    (count ≤ 1 →
      insertRedundantPointsIntoTrajectory publish_period trajectory count = trajectory) ∧
    (∀ (c : Collaborators) (s : JogCalcs), s.parameters_.use_gazebo = true →
      1 ≤ s.gazebo_redundant_message_count_ →
      ∃ waypoint : JointTrajectoryPoint,
        (convertDeltasToOutgoingCmd c s).2.outgoing_command_.points =
          (List.range s.gazebo_redundant_message_count_.toNat).map (fun k =>
            { waypoint with
              time_from_start := ((k : ℚ) + 1) * s.parameters_.publish_period })) := by
  have h := insertRedundantPoints_single publish_period trajectory point count hpoints
  refine ⟨h.1, h.2, ?_⟩
  intro c s hg hcount
  obtain ⟨joint_state, hout⟩ := convert_outgoing_command c s
  rw [hout, if_pos hg]
  have hcomposed : ∃ point0, (composeJointTrajMessage s.parameters_ s.num_joints_ c.now
      joint_state).points = [point0] ∧
      point0.time_from_start = s.parameters_.publish_period := ⟨_, rfl, rfl⟩
  obtain ⟨point0, hp0, ht0⟩ := hcomposed
  by_cases he : enforceSRDFPositionLimits c s.parameters_ s.joint_model_group_
      s.kinematic_state_ s.original_joint_state_ = false
  · rw [if_pos he]
    obtain ⟨point1, hp1, ht1⟩ := suddenHalt_single s.parameters_ s.num_joints_
      s.original_joint_state_ _ point0 hp0
    exact ⟨point1, ((insertRedundantPoints_single s.parameters_.publish_period _ point1
      s.gazebo_redundant_message_count_ hp1).1 (ht1.trans ht0) hcount).1⟩
  · rw [if_neg he]
    exact ⟨point0, ((insertRedundantPoints_single s.parameters_.publish_period _ point0
      s.gazebo_redundant_message_count_ hp0).1 ht0 hcount).1⟩

/-- Witness of C19: the message `composeJointTrajMessage` builds, period `1/100`, replicated to
`count = 3` waypoints at `1/100`, `2/100`, `3/100`. -/
theorem redundant_points_replicated_witness :
    ((insertRedundantPointsIntoTrajectory (1 / 100)
      (composeJointTrajMessage { publish_period := 1 / 100 } 1 0
        { name := ["joint_1"], position := [1 / 2], velocity := [0] }) 3).points.map
      (fun p => p.time_from_start)) = [1 / 100, 2 / 100, 3 / 100] := by
  rw [((redundant_points_replicated (1 / 100)
    (composeJointTrajMessage { publish_period := 1 / 100 } 1 0
      { name := ["joint_1"], position := [1 / 2], velocity := [0] })
    { positions := [1 / 2], velocities := [0], time_from_start := 1 / 100 } 3 rfl).1 rfl
    (by decide)).1]
  decide!

/-- C20 (working state re-derived).  In `convertDeltasToOutgoingCmd`, when `delta_theta_` and
`position_filters_` have one entry per position of `original_joint_state_`, filter `i` is
called on `original_joint_state_.position[i] + delta_theta_[i]` for every `i` (the filters and
the positions after the call are the two results of these calls), and the result of the
function does not depend on the value `internal_joint_state_` held before the call. -/
theorem filter_input_rederived (c : Collaborators) (s : JogCalcs)
    (hdelta : s.delta_theta_.length = s.original_joint_state_.position.length)
    (hfilters : s.position_filters_.length = s.original_joint_state_.position.length) :
    (convertDeltasToOutgoingCmd c s).2.position_filters_ =
      List.zipWith (fun f x => (c.filter f x).2) s.position_filters_
        (List.zipWith (fun x d => x + d) s.original_joint_state_.position s.delta_theta_) ∧
    (convertDeltasToOutgoingCmd c s).2.internal_joint_state_.position =
      List.zipWith (fun f x => (c.filter f x).1) s.position_filters_
        (List.zipWith (fun x d => x + d) s.original_joint_state_.position s.delta_theta_) ∧
    (∀ internal : JointState,
      convertDeltasToOutgoingCmd c { s with internal_joint_state_ := internal } =
        convertDeltasToOutgoingCmd c s) := by
  have ha := addJointIncrements_position s.original_joint_state_ s.delta_theta_ hdelta
  have hlen : s.position_filters_.length =
      (addJointIncrements s.original_joint_state_ s.delta_theta_).2.position.length := by
    rw [ha.1, List.length_zipWith, hdelta, min_self, hfilters]
  have hl := lowPassFilterPositions_eq c s.position_filters_
    (addJointIncrements s.original_joint_state_ s.delta_theta_).2 hlen
  have hc := convert_position_filters c s
  refine ⟨?_, ?_, fun _ => rfl⟩
  · rw [hc.1, hl.1, ha.1]
  · rw [hc.2, hl.2, ha.1]

/-- Witness of C20: two joints at `1` and `2` with increments `1/10` and `1/5`, a stale working
state `(100, 200)` and filters that record their input: the recorded inputs are `11/10` and
`11/5`. -/
theorem filter_input_rederived_witness :
    (convertDeltasToOutgoingCmd exampleRecordingCollaborators
      { num_joints_ := 2
        original_joint_state_ := { position := [1, 2], velocity := [0, 0] }
        internal_joint_state_ := { position := [100, 200], velocity := [0, 0] }
        delta_theta_ := [1 / 10, 1 / 5]
        position_filters_ := [{}, {}] }).2.position_filters_ =
      [{ memory := [11 / 10] }, { memory := [11 / 5] }] := by
  rw [(filter_input_rederived exampleRecordingCollaborators
      { num_joints_ := 2
        original_joint_state_ := { position := [1, 2], velocity := [0, 0] }
        internal_joint_state_ := { position := [100, 200], velocity := [0, 0] }
        delta_theta_ := [1 / 10, 1 / 5]
        position_filters_ := [{}, {}] } rfl rfl).1]
  decide!
/-! ## Claims on the limits, the ramp and the increments -/

/-- C28 (limit enforcement never amplifies a command).  For every `delta_theta`, baseline
`prev_joint_velocity_`, period and list of joint bounds, `enforceSRDFAccelVelLimits` returns
as many entries as it was given, and each entry of the result has absolute value less than or
equal to the absolute value of the corresponding entry of the input: an entry is only ever
multiplied by a `relative_change` that passed the guard `fabs(relative_change) < 1`. -/
theorem limits_never_amplify (publish_period : ℚ) (prev_joint_velocity_ : List ℚ)
    (joints : List VariableBounds) (delta_theta : List ℚ) (i : ℕ) :
    |(enforceSRDFAccelVelLimits publish_period prev_joint_velocity_ joints delta_theta).getD i 0|
      ≤ |delta_theta.getD i 0| ∧
    (enforceSRDFAccelVelLimits publish_period prev_joint_velocity_ joints delta_theta).length =
      delta_theta.length := by
  unfold enforceSRDFAccelVelLimits
  exact loop_abs_le publish_period prev_joint_velocity_ _ joints
    { delta_theta := delta_theta
      velocity := delta_theta.map (fun d => d / publish_period)
      joint_delta_index := 0 } i (by simp)

/-- C26 (position-limit check).  `enforceSRDFPositionLimits` returns false if and only if some
active joint (at position `j` in the list of active joints) fails `satisfiesPositionBounds`
with margin `-joint_limit_margin`, has position limits defined (`limits0` being the first),
and either has negative velocity with its original joint angle below
`min_position + joint_limit_margin` or positive velocity with its original joint angle above
`max_position - joint_limit_margin`.  On the example arm with joint 6 at `19/20`, inside the
margin `1/10` of its upper limit `1`: velocity `1` halts, velocity `0` and velocity `-1` do
not. -/
theorem position_limit_check (c : Collaborators) (parameters_ : JogArmParameters)
    (joint_model_group_ : List JointModel) (kinematic_state_ : RobotState)
    (original_joint_state_ : JointState) :
    (enforceSRDFPositionLimits c parameters_ joint_model_group_ kinematic_state_
        original_joint_state_ = false ↔
      ∃ (j : ℕ) (joint : JointModel) (limits0 : JointLimits) (rest : List JointLimits),
        joint_model_group_[j]? = some joint ∧
        c.satisfiesPositionBounds kinematic_state_ joint (-parameters_.joint_limit_margin) =
          false ∧
        joint.limits = limits0 :: rest ∧
        ((kinematic_state_.velocities.getD j 0 < 0 ∧
            originalJointAngle original_joint_state_ joint.name <
              limits0.min_position + parameters_.joint_limit_margin) ∨
          (kinematic_state_.velocities.getD j 0 > 0 ∧
            originalJointAngle original_joint_state_ joint.name >
              limits0.max_position - parameters_.joint_limit_margin))) ∧
    enforceSRDFPositionLimits exampleTickCollaborators exampleArmNearLimit.parameters_
      exampleArmNearLimit.joint_model_group_
      { positions := [0, 0, 0, 0, 0, 19 / 20], velocities := [0, 0, 0, 0, 0, 1] }
      exampleArmNearLimit.original_joint_state_ = false ∧
    enforceSRDFPositionLimits exampleTickCollaborators exampleArmNearLimit.parameters_
      exampleArmNearLimit.joint_model_group_
      { positions := [0, 0, 0, 0, 0, 19 / 20], velocities := [0, 0, 0, 0, 0, 0] }
      exampleArmNearLimit.original_joint_state_ = true ∧
    enforceSRDFPositionLimits exampleTickCollaborators exampleArmNearLimit.parameters_
      exampleArmNearLimit.joint_model_group_
      { positions := [0, 0, 0, 0, 0, 19 / 20], velocities := [0, 0, 0, 0, 0, -1] }
      exampleArmNearLimit.original_joint_state_ = true := by
  refine ⟨?_, by decide!, by decide!, by decide!⟩
  unfold enforceSRDFPositionLimits
  simp only [Bool.not_eq_false', List.any_eq_true]
  constructor
  · rintro ⟨⟨j, joint⟩, hmem, h⟩
    have hj : joint_model_group_[j]? = some joint := by
      obtain ⟨i, hi⟩ := List.getElem?_of_mem hmem
      rw [List.getElem?_enum] at hi
      cases hg : joint_model_group_[i]? with
      | none => rw [hg] at hi; simp at hi
      | some a =>
        rw [hg] at hi
        simp only [Option.map_some', Option.some.injEq, Prod.mk.injEq] at hi
        rw [← hi.1, ← hi.2]
        exact hg
    dsimp only at h
    cases hs : c.satisfiesPositionBounds kinematic_state_ joint (-parameters_.joint_limit_margin)
    · rw [hs] at h
      simp only [Bool.not_false, if_true] at h
      cases hl : joint.limits with
      | nil => rw [hl] at h; simp at h
      | cons limits0 rest =>
        rw [hl] at h
        exact ⟨j, joint, limits0, rest, hj, hs, hl, of_decide_eq_true h⟩
    · rw [hs] at h
      simp at h
  · rintro ⟨j, joint, limits0, rest, hj, hs, hl, h⟩
    refine ⟨(j, joint), ?_, ?_⟩
    · apply List.mem_iff_getElem?.mpr
      exact ⟨j, by rw [List.getElem?_enum, hj]; rfl⟩
    · dsimp only
      rw [hs, hl]
      simp only [Bool.not_false, if_true]
      exact decide_eq_true h

/-- C24 (ramp end point).  When the condition number of the decomposition passed in is exactly
`hard_stop_singularity_threshold` and the motion heads toward the singularity (positive dot
product), `velocityScalingFactorForSingularity` returns the scale `1` and leaves the status:
neither `ini_condition < hard_stop_singularity_threshold` nor
`ini_condition > hard_stop_singularity_threshold` holds, so neither branch is taken. -/
theorem ramp_skips_hard_stop_threshold (jacobiSVD : MatrixXd → JacobiSVD)
    (lower hard_stop : ℚ) (ks : RobotState) (st : StatusCode) (cv : List ℚ) (svd : JacobiSVD)
    (jacobian pinv : MatrixXd)
    (hd : 0 < dot (singularityVector jacobiSVD svd jacobian) cv)
    (hc : conditionNumber svd = DoubleQuotient.finite hard_stop) :
    (velocityScalingFactorForSingularity jacobiSVD lower hard_stop ks st cv svd jacobian
      pinv).1 = 1 ∧
    (velocityScalingFactorForSingularity jacobiSVD lower hard_stop ks st cv svd jacobian
      pinv).2.1 = st := by
  unfold velocityScalingFactorForSingularity
  dsimp only
  rw [if_pos hd, hc]
  have h1 : (DoubleQuotient.finite hard_stop).lt hard_stop = false := by
    simp [DoubleQuotient.lt]
  have h2 : (DoubleQuotient.finite hard_stop).gt hard_stop = false := by
    simp [DoubleQuotient.gt]
  rw [h1, h2, Bool.and_false]
  exact ⟨rfl, rfl⟩

/-- Witness of C24 at the failing input: thresholds `lower = 10 < hard_stop = 20`, commanded
displacement `(0, -1)` (positive dot product).  For the Jacobian `diag(19, 1)` the scale is
`1/10`, for `diag(20, 1)`, condition number exactly `20`, it is `1` with the status left at
`NO_WARNING`, and for `diag(21, 1)` it is `0`: the scale is not non-increasing. -/
theorem ramp_skips_hard_stop_threshold_witness :
    (velocityScalingFactorForSingularity diagonalSVD 10 20
      { positions := [0, 0], velocities := [0, 0] } StatusCode.NO_WARNING [0, -1]
      (diagonalSVD [[19, 0], [0, 1]]) [[19, 0], [0, 1]] [[1 / 19, 0], [0, 1]]).1 = 1 / 10 ∧
    ((velocityScalingFactorForSingularity diagonalSVD 10 20
      { positions := [0, 0], velocities := [0, 0] } StatusCode.NO_WARNING [0, -1]
      (diagonalSVD [[20, 0], [0, 1]]) [[20, 0], [0, 1]] [[1 / 20, 0], [0, 1]]).1 = 1 ∧
    (velocityScalingFactorForSingularity diagonalSVD 10 20
      { positions := [0, 0], velocities := [0, 0] } StatusCode.NO_WARNING [0, -1]
      (diagonalSVD [[20, 0], [0, 1]]) [[20, 0], [0, 1]] [[1 / 20, 0], [0, 1]]).2.1 =
      StatusCode.NO_WARNING) ∧
    (velocityScalingFactorForSingularity diagonalSVD 10 20
      { positions := [0, 0], velocities := [0, 0] } StatusCode.NO_WARNING [0, -1]
      (diagonalSVD [[21, 0], [0, 1]]) [[21, 0], [0, 1]] [[1 / 21, 0], [0, 1]]).1 = 0 :=
  ⟨by decide!,
    ramp_skips_hard_stop_threshold diagonalSVD 10 20
      { positions := [0, 0], velocities := [0, 0] } StatusCode.NO_WARNING [0, -1]
      (diagonalSVD [[20, 0], [0, 1]]) [[20, 0], [0, 1]] [[1 / 20, 0], [0, 1]]
      (by decide!) (by decide!),
    by decide!⟩

/-- C21 (length mismatch).  `addJointIncrements` returns true for every joint state and every
vector of increments: the element accesses `output.position[i]` and `increments[i]` do not
throw, so the `catch (const std::out_of_range&)` with `return false` is never entered, and
`convertDeltasToOutgoingCmd` returns true as well.  With two positions `(1, 2)` and the single
increment `1/2` every access is in range, the result is true with positions `(3/2, 2)`, and
`convertDeltasToOutgoingCmd` composes a new outgoing command from them. -/
theorem length_mismatch_is_not_detected :
    (∀ (output : JointState) (increments : List ℚ),
      (addJointIncrements output increments).1 = true) ∧
    (∀ (c : Collaborators) (s : JogCalcs), (convertDeltasToOutgoingCmd c s).1 = true) ∧
    addJointIncrements { position := [1, 2] } [1 / 2] = (true, { position := [3 / 2, 2] }) ∧
    (convertDeltasToOutgoingCmd exampleTickCollaborators
      { num_joints_ := 2
        original_joint_state_ := { position := [1, 2], velocity := [0, 0] }
        delta_theta_ := [1 / 2]
        position_filters_ := [{}, {}] }).2.outgoing_command_.points =
      [{ positions := [3 / 2, 2], velocities := [1 / 2, 0], time_from_start := 1 }] := by
  refine ⟨fun _ _ => rfl, convert_returns_true, by decide!, by decide!⟩
/-! ## Index safety of the removal loop -/

/-- C27 (drift loop index safety).  The removal loop reads `drift_dimensions[dimension]` for
`dimension = rows, rows - 1, …, 0`: over a 6-row Jacobian the indices read are
`6, 5, 4, 3, 2, 1, 0`, the first of them outside `0..5`, whatever the flags.  When that read
yields true (no axis flagged), the only call is `removeDimension(J, delta_x, 6)` on a Jacobian
of `6` rows: `row_to_remove = J.rows()`.  When it yields false, every call is made with
`row_to_remove < J.rows()`. -/
theorem drift_loop_reads_index_six :
    (∀ (shared : JogArmShared) (r0 r1 r2 r3 r4 r5 : List ℚ) (x0 x1 x2 x3 x4 x5 : ℚ),
      (removeDriftDimensions_recorded shared [r0, r1, r2, r3, r4, r5]
        [x0, x1, x2, x3, x4, x5]).reads = [6, 5, 4, 3, 2, 1, 0] ∧
      ((removeDriftDimensions_recorded shared [r0, r1, r2, r3, r4, r5]
          [x0, x1, x2, x3, x4, x5]).jacobian,
        (removeDriftDimensions_recorded shared [r0, r1, r2, r3, r4, r5]
          [x0, x1, x2, x3, x4, x5]).delta_x) =
        removeDriftDimensions shared [r0, r1, r2, r3, r4, r5] [x0, x1, x2, x3, x4, x5]) ∧
    (∀ (r0 r1 r2 r3 r4 r5 : List ℚ) (x0 x1 x2 x3 x4 x5 : ℚ),
      (removeDriftDimensions_recorded
        { drift_dimensions := [false, false, false, false, false, false],
          drift_dimensions_past_end := true }
        [r0, r1, r2, r3, r4, r5] [x0, x1, x2, x3, x4, x5]).calls = [(6, 6)]) ∧
    (∀ (f0 f1 f2 f3 f4 f5 : Bool) (r0 r1 r2 r3 r4 r5 : List ℚ) (x0 x1 x2 x3 x4 x5 : ℚ),
      ∀ call ∈ (removeDriftDimensions_recorded
          { drift_dimensions := [f0, f1, f2, f3, f4, f5], drift_dimensions_past_end := false }
          [r0, r1, r2, r3, r4, r5] [x0, x1, x2, x3, x4, x5]).calls, call.1 < call.2) := by
  refine ⟨fun shared r0 r1 r2 r3 r4 r5 x0 x1 x2 x3 x4 x5 => ?_,
    fun _ _ _ _ _ _ _ _ _ _ _ _ => rfl, recorded_calls_past_end_false⟩
  have h := recorded_reads shared [r0, r1, r2, r3, r4, r5] [x0, x1, x2, x3, x4, x5]
  exact ⟨h.1.trans range_seven, h.2⟩

/-! ## Stale commands, telemetry, the halt payload over several waypoints -/

/-- C23 (stale commands suppress conversion).  On a tick of `run` that is not waiting for
commands and not paused, with `p` the state at the test of `wait_for_jog_commands_`:
`command_is_stale` is true exactly when
`now - latest_command_stamp_ ≥ incoming_command_timeout`; and in that case the tick ends with
`command_is_stale` true, with `delta_theta_`, `prev_joint_velocity_`, `status_` and the status
publisher as before the tick (neither converter ran), and, when a command flag is set, with
`outgoing_command_` unchanged and published once more (`ok_to_publish` true). -/
theorem stale_command_suppresses_conversion (c : Collaborators) (s : JogCalcs)
    (shared : JogArmShared) (p : JogCalcs × JogArmShared)
    (hprep : run_prepare c s shared = some p)
    (hw : s.wait_for_jog_commands_ = false) (hp : shared.paused = false) :
    (p.2.command_is_stale = true ↔
      c.now - s.latest_command_stamp_ ≥ s.parameters_.incoming_command_timeout) ∧
    (c.now - s.latest_command_stamp_ ≥ s.parameters_.incoming_command_timeout →
      ∃ q, run c s shared = some q ∧
        q.2.command_is_stale = true ∧
        q.1.delta_theta_ = s.delta_theta_ ∧
        q.1.prev_joint_velocity_ = s.prev_joint_velocity_ ∧
        q.1.status_ = s.status_ ∧
        q.1.status_pub_ = s.status_pub_ ∧
        ((s.have_nonzero_twist_stamped_ || s.have_nonzero_joint_jog_) = true →
          q.1.outgoing_command_ = s.outgoing_command_ ∧
          q.1.joint_trajectory_pub_ = s.joint_trajectory_pub_ ++ [s.outgoing_command_] ∧
          q.2.ok_to_publish = true)) := by
  have hstale := run_prepare_stale c s shared p hprep
  have hf := run_prepare_frame c s shared p hprep
  have hc := JogCalcs.control_fields _ _ hf.2.1
  have ho := JogCalcs.outputs_fields _ _ hf.1
  constructor
  · rw [hstale, decide_eq_true_eq]
  · intro h
    have hs : p.2.command_is_stale = true := by
      rw [hstale]
      exact decide_eq_true h
    have hrun : run c s shared = some (run_publish c p.1 p.2) := by
      unfold run
      rw [hprep]
      dsimp only
      rw [hc.2.2.2.1, hw, hf.2.2.2.1, hp]
      simp only [Bool.or_self, Bool.false_eq_true, if_false]
      unfold run_active
      rw [run_conversion_stale c p.1 p.2 hs]
      rfl
    have hpub := run_publish_frame c p.1 p.2
    refine ⟨_, hrun, hpub.2.2.2.2.1.trans hs, hpub.1.trans ho.2.1, hpub.2.1.trans ho.2.2.1,
      hpub.2.2.1.trans ho.2.2.2.1, hpub.2.2.2.1.trans ho.2.2.2.2.1, ?_⟩
    intro hflag
    have h3 := hpub.2.2.2.2.2 (hf.2.2.1.trans hflag)
    rw [ho.1, ho.2.2.2.2.2] at h3
    exact h3

/-- Witness of C23: the example arm with the twist `linear.x = 1/2` received at stamp `0`, clock
`2`, timeout `1`: the command is stale, nothing is converted and the (empty) outgoing command
is published unchanged. -/
theorem stale_command_suppresses_conversion_witness :
    ∃ q, run { exampleTickCollaborators with now := 2 }
        (twistStampedCB (exampleActiveArm 0) exampleTwistLinearX) {} = some q ∧
      q.2.command_is_stale = true ∧
      q.1.delta_theta_ = [] ∧
      q.1.joint_trajectory_pub_ = [{}] := by
  obtain ⟨p, hprep⟩ := run_prepare_some { exampleTickCollaborators with now := 2 }
    (twistStampedCB (exampleActiveArm 0) exampleTwistLinearX) {} (by decide)
  obtain ⟨q, hq, hs, hd, _, _, _, hpub⟩ :=
    (stale_command_suppresses_conversion { exampleTickCollaborators with now := 2 }
      (twistStampedCB (exampleActiveArm 0) exampleTwistLinearX) {} p hprep rfl rfl).2
      (by decide!)
  exact ⟨q, hq, hs, hd, (hpub (by decide!)).2.1⟩

/-- C22 (unmatched telemetry).  An entry appended to the telemetry whose name is not a
controlled joint does not change the joint positions that `updateJoints` stores.  It does
change `worst_case_stop_time`: for the arm with the single joint `joint_a` (acceleration
bounds `[-2, 2]`) and telemetry `joint_a` at velocity `1`, the stop time is `1/2`; with the
entry `gripper` at velocity `10` added after it the stop time is `5` (the loop "Calculate
worst case joint stop time" keeps the `accel_limit` of the previous entry for a name it does
not find), and with `gripper` at velocity `1` added before it the stop time is `+∞`
(`accel_limit` is still `0`).  The message is accepted and the stored positions are `[1/4]`
in all three cases. -/
theorem unmatched_telemetry_changes_stop_time :
    (∀ (s : JogCalcs) (name : String) (position velocity : ℚ),
      s.joint_state_name_map_.lookup name = none →
      s.incoming_joint_state_.name.length ≤ s.incoming_joint_state_.position.length →
      updateJoints_positions
        { s with
          incoming_joint_state_ :=
            { name := s.incoming_joint_state_.name ++ [name]
              position := s.incoming_joint_state_.position ++ [position]
              velocity := s.incoming_joint_state_.velocity ++ [velocity] } } =
        updateJoints_positions s) ∧
    ((updateJoints (jointStateCB exampleTelemetryArm
        { name := ["joint_a"], position := [1 / 4], velocity := [1] }) {}).1 = true ∧
      (updateJoints (jointStateCB exampleTelemetryArm
        { name := ["joint_a"], position := [1 / 4], velocity := [1] })
        {}).2.1.original_joint_state_.position = [1 / 4] ∧
      (updateJoints (jointStateCB exampleTelemetryArm
        { name := ["joint_a"], position := [1 / 4], velocity := [1] })
        {}).2.2.worst_case_stop_time = DoubleQuotient.finite (1 / 2)) ∧
    ((updateJoints (jointStateCB exampleTelemetryArm
        { name := ["joint_a", "gripper"], position := [1 / 4, 7], velocity := [1, 10] })
        {}).1 = true ∧
      (updateJoints (jointStateCB exampleTelemetryArm
        { name := ["joint_a", "gripper"], position := [1 / 4, 7], velocity := [1, 10] })
        {}).2.1.original_joint_state_.position = [1 / 4] ∧
      (updateJoints (jointStateCB exampleTelemetryArm
        { name := ["joint_a", "gripper"], position := [1 / 4, 7], velocity := [1, 10] })
        {}).2.2.worst_case_stop_time = DoubleQuotient.finite 5) ∧
    ((updateJoints (jointStateCB exampleTelemetryArm
        { name := ["gripper", "joint_a"], position := [7, 1 / 4], velocity := [1, 1] })
        {}).1 = true ∧
      (updateJoints (jointStateCB exampleTelemetryArm
        { name := ["gripper", "joint_a"], position := [7, 1 / 4], velocity := [1, 1] })
        {}).2.1.original_joint_state_.position = [1 / 4] ∧
      (updateJoints (jointStateCB exampleTelemetryArm
        { name := ["gripper", "joint_a"], position := [7, 1 / 4], velocity := [1, 1] })
        {}).2.2.worst_case_stop_time = DoubleQuotient.infinity true) := by
  refine ⟨updateJoints_positions_append, by decide!, by decide!, by decide!⟩

/-- Witness of C22: the entry `gripper` appended to the telemetry `joint_a` of the arm with the
single joint `joint_a` leaves the stored positions at `[1/4]`. -/
theorem unmatched_telemetry_changes_stop_time_witness :
    updateJoints_positions
      { jointStateCB exampleTelemetryArm
          { name := ["joint_a"], position := [1 / 4], velocity := [1] } with
        incoming_joint_state_ :=
          { name := ["joint_a"] ++ ["gripper"]
            position := [1 / 4] ++ [7]
            velocity := [1] ++ [10] } } = [1 / 4] :=
  (unmatched_telemetry_changes_stop_time.1
    (jointStateCB exampleTelemetryArm
      { name := ["joint_a"], position := [1 / 4], velocity := [1] })
    "gripper" 7 10 (by decide) (by decide)).trans (by decide!)

/-- C29 (halted command over several waypoints).  The example arm in a simulation, outgoing
commands replicated to three waypoints.  First tick: the joint command `joint_1` at `1/2` is
converted and published with three waypoints of velocity `1/2` for `joint_1`.  Second tick,
after an all-zero joint command has arrived: the halt branch publishes a command whose first
waypoint carries the original positions and zero velocities, and whose second and third
waypoints still carry the position `1/2` and the velocity `1/2` of the previous cycle, since
`suddenHalt` only writes `points[0]`. -/
theorem halt_leaves_replicated_waypoints :
    ((run exampleTickCollaborators (jointJogCB exampleGazeboArm exampleJointJog) {}).bind
      (fun q1 => run exampleTickCollaborators
        (jointJogCB q1.1 { joint_names := ["joint_1"], velocities := [some 0] }) q1.2)).map
      (fun q => (q.1.have_nonzero_command_,
        q.1.joint_trajectory_pub_.map (fun t =>
          t.points.map (fun p => (p.positions, p.velocities))))) =
    some (false,
      [[([1 / 2, 0, 0, 0, 0, 0], [1 / 2, 0, 0, 0, 0, 0]),
        ([1 / 2, 0, 0, 0, 0, 0], [1 / 2, 0, 0, 0, 0, 0]),
        ([1 / 2, 0, 0, 0, 0, 0], [1 / 2, 0, 0, 0, 0, 0])],
       [([0, 0, 0, 0, 0, 0], [0, 0, 0, 0, 0, 0]),
        ([1 / 2, 0, 0, 0, 0, 0], [1 / 2, 0, 0, 0, 0, 0]),
        ([1 / 2, 0, 0, 0, 0, 0], [1 / 2, 0, 0, 0, 0, 0])]]) := by
  decide!

/-! ## The pseudo-inverse solve -/

/-- C25 (pseudo-inverse solve).  For an `m × n` Jacobian `J` with `m ≤ n` and a
decomposition `svd` with `U` an `m × m` matrix with `U * Uᵀ = 1`, `V` an `n × m` matrix with
`Vᵀ * V = 1`, `m` singular values that are all non-zero, and `J = U * diag(s) * Vᵀ`: for every
`delta_x` with `m` entries, `delta_theta = pseudo_inverse * delta_x` with
`pseudo_inverse = V * diag(s)⁻¹ * Uᵀ` satisfies `J * delta_theta = delta_x`. -/
theorem pseudo_inverse_solves (m n : ℕ) (svd : JacobiSVD) (jacobian : MatrixXd)
    (delta_x : List ℚ) (hmn : m ≤ n)
    (hU : isMatrix m m svd.matrixU = true) (hs : svd.singularValues.length = m)
    (hV : isMatrix n m svd.matrixV = true) (hdx : delta_x.length = m)
    (horthU : mulMat svd.matrixU (transpose svd.matrixU) = identityMatrix m)
    (horthV : mulMat (transpose svd.matrixV) svd.matrixV = identityMatrix m)
    (hnz : ∀ x ∈ svd.singularValues, x ≠ 0)
    (hJ : jacobian =
      mulMat (mulMat svd.matrixU (asDiagonal svd.singularValues)) (transpose svd.matrixV)) :
    mulVec jacobian (mulVec (pseudoInverse svd) delta_x) = delta_x := by
  cases m with
  | zero =>
    have hU0 : svd.matrixU = [] :=
      List.length_eq_zero.mp ((isMatrix_iff 0 0 _).mp hU).1
    have hd0 : delta_x = [] := List.length_eq_zero.mp hdx
    rw [hJ, hU0, hd0]
    rfl
  | succ m =>
    exact pseudoInverse_solves_pos (m + 1) n svd jacobian delta_x (Nat.succ_pos m) hmn hU hs
      hV hdx horthU horthV hnz hJ

/-- Witness of C25: the identity 6×6 Jacobian with its decomposition `U = V = 1`, singular
values `1`: `J * delta_theta = delta_x` for `delta_x = (1/1000, 0, 0, 0, 0, 0)`, where
`delta_theta = pseudo_inverse * delta_x` is `delta_x` itself; and in the end-to-end example
(unitless twist `linear.x = 1/10`, `linear_scale = 1`, period `1/100`, identity Jacobian, no
limit reached) the conversion leaves `delta_theta_ = (1/1000, 0, 0, 0, 0, 0)`. -/
theorem pseudo_inverse_solves_witness :
    mulVec (exampleJacobian 1)
      (mulVec (pseudoInverse (diagonalSVD (exampleJacobian 1))) [1 / 1000, 0, 0, 0, 0, 0]) =
      [1 / 1000, 0, 0, 0, 0, 0] ∧
    mulVec (pseudoInverse (diagonalSVD (exampleJacobian 1))) [1 / 1000, 0, 0, 0, 0, 0] =
      [1 / 1000, 0, 0, 0, 0, 0] ∧
    (cartesianJogCalcs exampleTickCollaborators
      { exampleArmAtZero with
        parameters_ := { exampleArmAtZero.parameters_ with publish_period := 1 / 100 } }
      { twist := { linear := { x := some (1 / 10) } } } {}).2.1.delta_theta_ =
      [1 / 1000, 0, 0, 0, 0, 0] :=
  ⟨pseudo_inverse_solves 6 6 (diagonalSVD (exampleJacobian 1)) (exampleJacobian 1)
      [1 / 1000, 0, 0, 0, 0, 0] (by decide) (by decide) (by decide) (by decide) (by decide)
      (by decide!) (by decide!) (by decide!) (by decide!),
    by decide!, by decide!⟩

end moveit_jog_arm
